import Mathlib

/-!
# `Allocation` (rsAllocation.cpp): a shallow embedding and its checked properties

The C++ class `android::renderscript::Allocation` owns a raw byte buffer (`mPtr`) laid out
by a `Type` (element layout and dimensions).  The embedding below follows the source
function by function:

* memory blocks are lists of bytes, a pointer into a block is an offset into the list;
* `uint32_t` arithmetic is arithmetic on `Nat` reduced modulo `2 ^ 32` (`u32`);
* every call that leaves the object (logging, the reference-count hooks of `Element`,
  `Program::forceDirty`, `Context::setError`, the C allocator, `memcpy`/`memset`) is
  recorded, in program order, in a list of `Event`s returned next to the new state;
* the classes whose code lives in other files (`Element`, `Type`, `OStream`, `IStream`)
  appear as plain records of the values their getters return, or as parameters.

`malloc`/`realloc` are assumed to succeed; the bytes they leave indeterminate are taken
from a parameter `heap : Nat → Byte`, so that every statement holds for all contents.
A `memcpy` or `memset` that leaves its block is undefined behaviour in C; in the model
the out-of-block part is dropped (writes) or read as `0` (reads), and the theorems that
speak about copied bytes carry the bounds under which the C code is defined.
-/

namespace RsAllocation

/-- One byte of memory. -/
abbrev Byte := Fin 256

/-- Reduction of a natural number to the range of `uint32_t`. -/
def u32 (n : Nat) : Nat := n % 2 ^ 32

/-- The `RsError` values used in this file. -/
inductive RsError where
  | RS_ERROR_NONE
  | RS_ERROR_BAD_VALUE
deriving DecidableEq, Repr

/-- Calls that leave the `Allocation` object, in the order the code issues them.
Offsets are byte offsets from the start of the block the pointer points into: the
Allocation's buffer for `decRefs`, `memset` and the destination of `memcpy`, the caller's
data for `incRefs` and the source of `memcpy`.  `incRefs`/`decRefs` carry the element
on which the hook is called (`none`: the Type's element, `some i`: its field `i`) and
the bytes of that element as they are in memory at the time of the call.  The `gl*`
events are the calls into the GPU backend, with their arguments (`ptr` is the offset in
the buffer of the pixel data handed over, `bytes` the data handed to `glBufferData`). -/
inductive Event where
  | logE
  | dumpLOGV
  | rsAssertFailed
  | setError (err : RsError)
  | incRefs (field : Option Nat) (off : Nat) (bytes : List Byte)
  | decRefs (field : Option Nat) (off : Nat) (bytes : List Byte)
  | malloc (size : Nat)
  | realloc (size : Nat)
  | memset (off : Nat) (size : Nat)
  | memcpy (dstOff : Nat) (srcOff : Nat) (size : Nat)
  | forceDirty (program : Nat)
  | checkDelete
  | dumpDebug
  | checkError
  | glGenTextures
  | glBindTexture (target id : Nat)
  | glPixelStorei
  | glTexImage2D (target lod format w h type ptr : Nat)
  | glTexSubImage2D (target lod w h format type ptr : Nat)
  | glGenerateMipmap (target : Nat)
  | glGenBuffers
  | glBindBuffer (target id : Nat)
  | glBufferData (target size : Nat) (bytes : List Byte)
deriving DecidableEq, Repr

/-- A sub-element of an `Element`: what `getField(i)` and `getFieldOffsetBytes(i)`
report about field `i`. -/
structure ElementField where
  sizeBytes : Nat
  hasReferences : Bool
  offsetBytes : Nat
deriving DecidableEq, Repr

/-- The values of `Element` read by rsAllocation.cpp. -/
structure Element where
  sizeBytes : Nat
  sizeBits : Nat
  hasReferences : Bool
  fields : List ElementField
deriving DecidableEq, Repr

/-- The values of `Type` read by rsAllocation.cpp (`Type` is a reserved word here). -/
structure RsType where
  mElement : Element
  mDimX : Nat
  mDimY : Nat
  mDimZ : Nat
  mDimLOD : Bool
  mFaces : Bool
  mLODCount : Nat
  mTotalSizeBytes : Nat
deriving DecidableEq, Repr

def Element.getSizeBytes (e : Element) : Nat := e.sizeBytes

def Element.getHasReferences (e : Element) : Bool := e.hasReferences

def Element.getFieldCount (e : Element) : Nat := e.fields.length

/-- Function `Element::getField(i)`; the default is never read: every caller checks
`i < getFieldCount()` first. -/
def Element.getField (e : Element) (i : Nat) : ElementField :=
  e.fields.getD i { sizeBytes := 0, hasReferences := false, offsetBytes := 0 }

def Element.getFieldOffsetBytes (e : Element) (i : Nat) : Nat := (e.getField i).offsetBytes

def RsType.getElement (t : RsType) : Element := t.mElement

def RsType.getSizeBytes (t : RsType) : Nat := t.mTotalSizeBytes

def RsType.getElementSizeBytes (t : RsType) : Nat := t.mElement.getSizeBytes

def RsType.getDimX (t : RsType) : Nat := t.mDimX

def RsType.getDimY (t : RsType) : Nat := t.mDimY

/-- The members of `Allocation` (with `mName` of its base `ObjectBase`).  `mPtr` is the
owned buffer, `mToDirtyList` the registry of dependents (programs, by identity). -/
structure Allocation where
  mType : RsType
  mPtr : List Byte
  mUsageFlags : Nat
  mMipmapControl : Nat
  mTextureID : Nat
  mBufferID : Nat
  mUploadDefered : Bool
  mTextureLOD : Nat
  mTextureGenMipmap : Bool
  mToDirtyList : List Nat
  mName : List Byte
deriving DecidableEq, Repr

/-- The bytes `[off, off + n)` of a block (shorter when the block ends before). -/
def slice (m : List Byte) (off n : Nat) : List Byte := (m.drop off).take n

/-- Function `memcpy(dst + dOff, src + sOff, n)` on blocks `dst` and `src`. -/
def memcpy (dst : List Byte) (dOff : Nat) (src : List Byte) (sOff n : Nat) : List Byte :=
  (List.range dst.length).map fun i =>
    if dOff ≤ i ∧ i < dOff + n then src.getD (sOff + (i - dOff)) 0 else dst.getD i 0

/-- Function `memset(dst + off, 0, n)`. -/
def memset (dst : List Byte) (off n : Nat) : List Byte :=
  (List.range dst.length).map fun i =>
    if off ≤ i ∧ i < off + n then 0 else dst.getD i 0

/-- Function `malloc(n)`: a block of `n` bytes with indeterminate contents. -/
def malloc (heap : Nat → Byte) (n : Nat) : List Byte := (List.range n).map heap

/-- Function `realloc(old, n)`: a block of `n` bytes that keeps the bytes of `old` up to the
shorter of the two sizes; the bytes beyond are indeterminate. -/
def realloc (heap : Nat → Byte) (old : List Byte) (n : Nat) : List Byte :=
  (List.range n).map fun i => if i < old.length then old.getD i 0 else heap i

/-- Function `Allocation::init`.  It assigns neither `mTextureLOD` nor `mTextureGenMipmap`
(nor does the constructor): in the program they are indeterminate until
`deferedUploadToTexture` assigns them.  The values `0` and `false` given here stand for
that indeterminate content; the statements below that start from a constructed
Allocation do not depend on them. -/
def Allocation.init (type : RsType) : Allocation :=
  { mType := type, mPtr := [], mUsageFlags := 0, mMipmapControl := 0, mTextureID := 0,
    mBufferID := 0, mUploadDefered := false, mTextureLOD := 0, mTextureGenMipmap := false,
    mToDirtyList := [], mName := [] }

/-- The constructor `Allocation::Allocation(rsc, type, usages)`. -/
def Allocation.new (heap : Nat → Byte) (type : RsType) (usages : Nat) :
    Allocation × List Event :=
  let a := Allocation.init type
  let a := { a with mUsageFlags := usages }
  let a := { a with mPtr := malloc heap a.mType.getSizeBytes }
  if a.mType.getElement.getHasReferences then
    ({ a with mPtr := memset a.mPtr 0 a.mType.getSizeBytes },
      [Event.malloc a.mType.getSizeBytes, Event.memset 0 a.mType.getSizeBytes])
  else
    (a, [Event.malloc a.mType.getSizeBytes])

/-- Function `Allocation::sendDirty`: one `forceDirty` per entry of `mToDirtyList`, in
list order. -/
def Allocation.sendDirty (a : Allocation) : List Event :=
  a.mToDirtyList.map Event.forceDirty

/-- The `while (ct > 0)` loop of `Allocation::incRefs`: `p` is the running pointer. -/
def incRefsLoop (e : Element) (mem : List Byte) : Nat → Nat → List Event
  | 0, _ => []
  | ct + 1, p =>
    Event.incRefs none p (slice mem p e.getSizeBytes) ::
      incRefsLoop e mem ct (p + u32 e.getSizeBytes)

/-- Function `Allocation::incRefs(ptr, ct, startOff)`, `ptr` being offset `ptr` of block `mem`. -/
def Allocation.incRefs (a : Allocation) (mem : List Byte) (ptr ct startOff : Nat) :
    List Event :=
  let e := a.mType.getElement
  let stride := u32 e.getSizeBytes
  incRefsLoop e mem ct (ptr + stride * startOff)

/-- The `while (ct > 0)` loop of `Allocation::decRefs`. -/
def decRefsLoop (e : Element) (mem : List Byte) : Nat → Nat → List Event
  | 0, _ => []
  | ct + 1, p =>
    Event.decRefs none p (slice mem p e.getSizeBytes) ::
      decRefsLoop e mem ct (p + u32 e.getSizeBytes)

/-- Function `Allocation::decRefs(ptr, ct, startOff)`. -/
def Allocation.decRefs (a : Allocation) (mem : List Byte) (ptr ct startOff : Nat) :
    List Event :=
  let e := a.mType.getElement
  let stride := u32 e.getSizeBytes
  decRefsLoop e mem ct (ptr + stride * startOff)

/-- Function `Allocation::data(rsc, data, sizeBytes)`. -/
def Allocation.data (a : Allocation) (data : List Byte) (sizeBytes : Nat) :
    Allocation × List Event :=
  let size := a.mType.getSizeBytes
  if size ≠ sizeBytes then (a, [Event.logE])
  else
    let refs :=
      if a.mType.getElement.getHasReferences then
        a.incRefs data 0 (sizeBytes / a.mType.getElement.getSizeBytes) 0 ++
          a.decRefs a.mPtr 0 (sizeBytes / a.mType.getElement.getSizeBytes) 0
      else []
    let a1 := { a with mPtr := memcpy a.mPtr 0 data 0 size }
    ({ a1 with mUploadDefered := true }, refs ++ [Event.memcpy 0 0 size] ++ a1.sendDirty)

/-- Function `Allocation::read(data)`: the bytes copied out to the caller. -/
def Allocation.read (a : Allocation) : List Byte :=
  slice a.mPtr 0 a.mType.getSizeBytes

/-- Function `Allocation::subData(rsc, xoff, count, data, sizeBytes)`, the 1D overload.  The
arguments are `uint32_t` values; `ptr` is the offset of the write pointer in the buffer. -/
def Allocation.subData (a : Allocation) (xoff count : Nat) (data : List Byte)
    (sizeBytes : Nat) : Allocation × List Event :=
  let eSize := a.mType.getElementSizeBytes
  let ptr := u32 (eSize * xoff)
  let size := u32 (count * eSize)
  if size ≠ sizeBytes then (a, [Event.logE, Event.dumpLOGV])
  else
    let refs :=
      if a.mType.getElement.getHasReferences then
        a.incRefs data 0 count 0 ++ a.decRefs a.mPtr ptr count 0
      else []
    let a1 := { a with mPtr := memcpy a.mPtr ptr data 0 size }
    ({ a1 with mUploadDefered := true }, refs ++ [Event.memcpy ptr 0 size] ++ a1.sendDirty)

/-- The row loop of the 2D `subData`: the first argument counts the iterations left,
`src` and `dst` are the running pointers (offsets into `data` and into the buffer) and
the last argument is the buffer so far. -/
def subData2DLoop (a : Allocation) (data : List Byte) (w lineSize destW eSize : Nat) :
    Nat → Nat → Nat → List Byte → List Byte × List Event
  | 0, _, _, buf => (buf, [])
  | n + 1, src, dst, buf =>
    let refs :=
      if a.mType.getElement.getHasReferences then
        a.incRefs data src w 0 ++ a.decRefs buf dst w 0
      else []
    let r := subData2DLoop a data w lineSize destW eSize n (src + lineSize)
      (dst + u32 (destW * eSize)) (memcpy buf dst data src lineSize)
    (r.1, refs ++ Event.memcpy dst src lineSize :: r.2)

/-- Function `Allocation::subData(rsc, xoff, yoff, w, h, data, sizeBytes)`, the 2D overload.  The
loop `for (line = yoff; line < yoff + h; line++)` runs `u32 (yoff + h) - yoff` times
(none when the `uint32_t` sum wraps below `yoff`). -/
def Allocation.subData2D (a : Allocation) (xoff yoff w h : Nat) (data : List Byte)
    (sizeBytes : Nat) : Allocation × List Event :=
  let eSize := a.mType.getElementSizeBytes
  let lineSize := u32 (eSize * w)
  let destW := a.mType.getDimX
  let dst := u32 (eSize * u32 (xoff + u32 (yoff * destW)))
  if u32 (u32 (lineSize * eSize) * h) ≠ sizeBytes then (a, [Event.rsAssertFailed])
  else
    let r := subData2DLoop a data w lineSize destW eSize (u32 (yoff + h) - yoff) 0 dst a.mPtr
    let a1 := { a with mPtr := r.1 }
    ({ a1 with mUploadDefered := true }, r.2 ++ a1.sendDirty)

/-- The tail shared by both `subElementData` overloads, from `getField(cIdx)` on; `ptr`
is the offset of element `x` (or `(x, y)`) in the buffer. -/
def Allocation.subElementDataField (a : Allocation) (ptr : Nat) (data : List Byte)
    (cIdx sizeBytes : Nat) : Allocation × List Event :=
  let e := a.mType.getElement.getField cIdx
  let ptr := ptr + a.mType.getElement.getFieldOffsetBytes cIdx
  if sizeBytes ≠ e.sizeBytes then (a, [Event.logE, Event.setError RsError.RS_ERROR_BAD_VALUE])
  else
    let refs :=
      if e.hasReferences then
        [Event.incRefs (some cIdx) 0 (slice data 0 e.sizeBytes),
          Event.decRefs (some cIdx) ptr (slice a.mPtr ptr e.sizeBytes)]
      else []
    let a1 := { a with mPtr := memcpy a.mPtr ptr data 0 sizeBytes }
    ({ a1 with mUploadDefered := true },
      refs ++ [Event.memcpy ptr 0 sizeBytes] ++ a1.sendDirty)

/-- Function `Allocation::subElementData(rsc, x, data, cIdx, sizeBytes)`, the 1D overload. -/
def Allocation.subElementData (a : Allocation) (x : Nat) (data : List Byte)
    (cIdx sizeBytes : Nat) : Allocation × List Event :=
  let eSize := a.mType.getElementSizeBytes
  let ptr := u32 (eSize * x)
  if cIdx ≥ a.mType.getElement.getFieldCount then
    (a, [Event.logE, Event.setError RsError.RS_ERROR_BAD_VALUE])
  else if x ≥ a.mType.getDimX then
    (a, [Event.logE, Event.setError RsError.RS_ERROR_BAD_VALUE])
  else a.subElementDataField ptr data cIdx sizeBytes

/-- Function `Allocation::subElementData(rsc, x, y, data, cIdx, sizeBytes)`, the 2D overload. -/
def Allocation.subElementData2D (a : Allocation) (x y : Nat) (data : List Byte)
    (cIdx sizeBytes : Nat) : Allocation × List Event :=
  let eSize := a.mType.getElementSizeBytes
  let ptr := u32 (eSize * u32 (x + u32 (y * a.mType.getDimX)))
  if x ≥ a.mType.getDimX then
    (a, [Event.logE, Event.setError RsError.RS_ERROR_BAD_VALUE])
  else if y ≥ a.mType.getDimY then
    (a, [Event.logE, Event.setError RsError.RS_ERROR_BAD_VALUE])
  else if cIdx ≥ a.mType.getElement.getFieldCount then
    (a, [Event.logE, Event.setError RsError.RS_ERROR_BAD_VALUE])
  else a.subElementDataField ptr data cIdx sizeBytes

/-- Function `Allocation::resize1D(rsc, dimX)`.  `Type::cloneAndResize1D` lives in another
file and is a parameter. -/
def Allocation.resize1D (cloneAndResize1D : RsType → Nat → RsType) (heap : Nat → Byte)
    (a : Allocation) (dimX : Nat) : Allocation × List Event :=
  let t := cloneAndResize1D a.mType dimX
  let oldDimX := a.mType.getDimX
  if dimX = oldDimX then (a, [])
  else
    let refs := if dimX < oldDimX then a.decRefs a.mPtr 0 (oldDimX - dimX) dimX else []
    let ptr := realloc heap a.mPtr t.getSizeBytes
    let stride := u32 a.mType.getElement.getSizeBytes
    let off := u32 (stride * oldDimX)
    let len := u32 (stride * (dimX - oldDimX))
    if dimX > oldDimX then
      ({ a with mPtr := memset ptr off len, mType := t },
        refs ++ [Event.realloc t.getSizeBytes, Event.memset off len])
    else
      ({ a with mPtr := ptr, mType := t }, refs ++ [Event.realloc t.getSizeBytes])

/-- An output stream (`OStream`): the bytes written so far. -/
structure OStream where
  mData : List Byte
deriving DecidableEq, Repr

/-- An input stream (`IStream`): the data (`getPtr`) and the read position (`getPos`). -/
structure IStream where
  mData : List Byte
  mPos : Nat
deriving DecidableEq, Repr

/-- What rsAllocation.cpp uses from other files for serialization: the two constants
of the headers, the stream primitives of `OStream`/`IStream`, and the serialization
and layout computation of `Type`. -/
structure StreamOps where
  RS_A3D_CLASS_ID_ALLOCATION : Nat
  RS_ALLOCATION_USAGE_SCRIPT : Nat
  addU32 : OStream → Nat → OStream
  addString : OStream → List Byte → OStream
  addByteArray : OStream → List Byte → OStream
  typeSerialize : RsType → OStream → OStream
  loadU32 : IStream → Nat × IStream
  loadString : IStream → List Byte × IStream
  typeCreateFromStream : IStream → Option RsType × IStream
  typeCompute : RsType → RsType

/-- Function `Allocation::serialize(stream)`. -/
def Allocation.serialize (ops : StreamOps) (a : Allocation) (stream : OStream) : OStream :=
  let stream := ops.addU32 stream ops.RS_A3D_CLASS_ID_ALLOCATION
  let stream := ops.addString stream a.mName
  let stream := ops.typeSerialize a.mType stream
  let dataSize := a.mType.getSizeBytes
  let stream := ops.addU32 stream dataSize
  ops.addByteArray stream (slice a.mPtr 0 dataSize)

/-- Function `Allocation::createFromStream(rsc, stream)`: the object returned (`none` for `NULL`),
the stream afterwards and the calls made.  The data pointer handed to `data` is
`stream->getPtr() + stream->getPos()`: the stream's block from the read position on. -/
def Allocation.createFromStream (ops : StreamOps) (heap : Nat → Byte) (stream : IStream) :
    Option Allocation × IStream × List Event :=
  let r := ops.loadU32 stream
  let classID := r.1
  let stream := r.2
  if classID ≠ ops.RS_A3D_CLASS_ID_ALLOCATION then (none, stream, [Event.logE])
  else
    let r := ops.loadString stream
    let name := r.1
    let stream := r.2
    match ops.typeCreateFromStream stream with
    | (none, stream) => (none, stream, [])
    | (some type, stream) =>
      let type := ops.typeCompute type
      let r := ops.loadU32 stream
      let dataSize := r.1
      let stream := r.2
      if dataSize ≠ type.getSizeBytes then (none, stream, [Event.logE, Event.checkDelete])
      else
        let c := Allocation.new heap type ops.RS_ALLOCATION_USAGE_SCRIPT
        let alloc := { c.1 with mName := name }
        let w := alloc.data (stream.mData.drop stream.mPos) dataSize
        (some w.1, { stream with mPos := stream.mPos + dataSize }, c.2 ++ w.2)

/-! ## Vocabulary of the statements -/

/-- Predicate `WritesOnly before after p data`: block `after` is block `before` with the bytes
`[p, p + data.length)` replaced by `data` (all of them inside the block), and every other
byte as before. -/
def WritesOnly (before after : List Byte) (p : Nat) (data : List Byte) : Prop :=
  after.length = before.length ∧
  (∀ i, i < data.length → after[p + i]? = data[i]?) ∧
  (∀ j, j < p ∨ p + data.length ≤ j → after[j]? = before[j]?)

/-- The dependents on which `forceDirty` is called, in call order. -/
def notified (evs : List Event) : List Nat :=
  evs.filterMap fun
    | Event.forceDirty p => some p
    | _ => none

/-! ## Concrete objects used to instantiate the theorems -/

/-- A two-byte element with two one-byte fields. -/
def exElement : Element :=
  { sizeBytes := 2, sizeBits := 16, hasReferences := false,
    fields := [{ sizeBytes := 1, hasReferences := false, offsetBytes := 0 },
               { sizeBytes := 1, hasReferences := false, offsetBytes := 1 }] }

/-- A 1D type of four `exElement`s. -/
def exType1D : RsType :=
  { mElement := exElement, mDimX := 4, mDimY := 0, mDimZ := 0, mDimLOD := false,
    mFaces := false, mLODCount := 1, mTotalSizeBytes := 8 }

/-- An allocation of type `exType1D` holding the bytes `1 .. 8`, with two dependents. -/
def exAlloc1D : Allocation :=
  { Allocation.init exType1D with mPtr := [1, 2, 3, 4, 5, 6, 7, 8], mToDirtyList := [7, 9] }

/-- A four-byte element (32 bits, one four-byte field). -/
def exElement4 : Element :=
  { sizeBytes := 4, sizeBits := 32, hasReferences := false,
    fields := [{ sizeBytes := 4, hasReferences := false, offsetBytes := 0 }] }

/-- A 2D type of 2 x 2 `exElement4`s: 16 bytes. -/
def exType2D : RsType :=
  { mElement := exElement4, mDimX := 2, mDimY := 2, mDimZ := 0, mDimLOD := false,
    mFaces := false, mLODCount := 1, mTotalSizeBytes := 16 }

/-- An allocation of type `exType2D` holding sixteen zero bytes, with one dependent. -/
def exAlloc2D : Allocation :=
  { Allocation.init exType2D with mPtr := List.replicate 16 0, mToDirtyList := [3] }

/-- Sixteen bytes `1 .. 16`: the data of a full 2 x 2 rectangle of `exElement4`s. -/
def exData16 : List Byte := [1, 2, 3, 4, 5, 6, 7, 8, 9, 10, 11, 12, 13, 14, 15, 16]

/-- A resize function for 1D types without LOD chain, used to instantiate the parameter
`cloneAndResize1D`: the clone has the new `dimX` and `dimX * elementSize` bytes. -/
def exCloneAndResize1D (t : RsType) (dimX : Nat) : RsType :=
  { t with mDimX := dimX, mTotalSizeBytes := dimX * t.mElement.sizeBytes }

/-- Heap contents used to instantiate the parameter `heap`: every fresh byte is `0xAA`. -/
def exHeap : Nat → Byte := fun _ => 0xAA

/-- A two-byte element that carries references. -/
def exRefElement : Element :=
  { sizeBytes := 2, sizeBits := 16, hasReferences := true,
    fields := [{ sizeBytes := 2, hasReferences := true, offsetBytes := 0 }] }

/-- A 1D type of eight `exRefElement`s. -/
def exRefType1D : RsType :=
  { mElement := exRefElement, mDimX := 8, mDimY := 0, mDimZ := 0, mDimLOD := false,
    mFaces := false, mLODCount := 1, mTotalSizeBytes := 16 }

/-- An allocation of type `exRefType1D` holding the bytes `1 .. 16`. -/
def exRefAlloc1D : Allocation :=
  { Allocation.init exRefType1D with
    mPtr := [1, 2, 3, 4, 5, 6, 7, 8, 9, 10, 11, 12, 13, 14, 15, 16] }

/-- The contract that `Allocation::serialize`/`createFromStream` assume of the stream
primitives and of the serialization of the Type `t`: every `add` appends to the bytes
written so far; a `load` placed where the matching `add` started returns what was added
(whatever follows in the stream) and moves the read position to where the `add` ended;
`addByteArray` appends the raw bytes; and loading the serialized `t`, followed by
`compute`, gives `t` back. -/
structure StreamOps.RoundTrips (ops : StreamOps) (t : RsType) : Prop where
  addU32_appends : ∀ o v, ∃ enc, (ops.addU32 o v).mData = o.mData ++ enc
  loadU32_addU32 : ∀ o v rest, v < 2 ^ 32 →
    ops.loadU32 ⟨(ops.addU32 o v).mData ++ rest, o.mData.length⟩ =
      (v, ⟨(ops.addU32 o v).mData ++ rest, (ops.addU32 o v).mData.length⟩)
  addString_appends : ∀ o s, ∃ enc, (ops.addString o s).mData = o.mData ++ enc
  loadString_addString : ∀ o s rest, s.length < 2 ^ 32 →
    ops.loadString ⟨(ops.addString o s).mData ++ rest, o.mData.length⟩ =
      (s, ⟨(ops.addString o s).mData ++ rest, (ops.addString o s).mData.length⟩)
  typeSerialize_appends : ∀ o, ∃ enc, (ops.typeSerialize t o).mData = o.mData ++ enc
  typeCreateFromStream_typeSerialize : ∀ o rest, ∃ t0,
    ops.typeCreateFromStream ⟨(ops.typeSerialize t o).mData ++ rest, o.mData.length⟩ =
      (some t0, ⟨(ops.typeSerialize t o).mData ++ rest, (ops.typeSerialize t o).mData.length⟩) ∧
    ops.typeCompute t0 = t
  addByteArray_appends : ∀ o bs, (ops.addByteArray o bs).mData = o.mData ++ bs

/-- The calls that `createFromStream` makes on its failure paths: the error log and the
release of the loaded Type.  Every other event (`malloc` of the constructor, `memcpy`,
`incRefs`, `decRefs`, `forceDirty` of `data`) belongs to the success path. -/
def Event.isLoadFailureCall : Event → Bool
  | Event.logE => true
  | Event.checkDelete => true
  | _ => false

/-- The low byte of a number. -/
def byteOf (v : Nat) : Byte := ⟨v % 256, Nat.mod_lt v (by decide)⟩

/-- A little-endian `addU32`, used to instantiate `StreamOps`. -/
def exAddU32 (o : OStream) (v : Nat) : OStream :=
  ⟨o.mData ++ [byteOf v, byteOf (v / 256), byteOf (v / 65536), byteOf (v / 16777216)]⟩

/-- The `loadU32` matching `exAddU32`. -/
def exLoadU32 (s : IStream) : Nat × IStream :=
  match s.mData.drop s.mPos with
  | b0 :: b1 :: b2 :: b3 :: _ =>
    (b0.val + 256 * b1.val + 65536 * b2.val + 16777216 * b3.val, { s with mPos := s.mPos + 4 })
  | _ => (0, { s with mPos := s.mPos + 4 })

/-- Raw `addByteArray`. -/
def exAddByteArray (o : OStream) (bs : List Byte) : OStream := ⟨o.mData ++ bs⟩

/-- A length-prefixed `addString`. -/
def exAddString (o : OStream) (s : List Byte) : OStream :=
  exAddByteArray (exAddU32 o s.length) s

/-- The `loadString` matching `exAddString`. -/
def exLoadString (s : IStream) : List Byte × IStream :=
  ((slice (exLoadU32 s).2.mData (exLoadU32 s).2.mPos (exLoadU32 s).1),
    { (exLoadU32 s).2 with mPos := (exLoadU32 s).2.mPos + (exLoadU32 s).1 })

/-- A Type record for 2D types with a field-less element: element size, `dimX`, `dimY`. -/
def exTypeSerialize (t : RsType) (o : OStream) : OStream :=
  exAddU32 (exAddU32 (exAddU32 o t.getElementSizeBytes) t.mDimX) t.mDimY

/-- The loader matching `exTypeSerialize`; an element size of `0` is a load failure. -/
def exTypeCreateFromStream (s : IStream) : Option RsType × IStream :=
  let r1 := exLoadU32 s
  let r2 := exLoadU32 r1.2
  let r3 := exLoadU32 r2.2
  if r1.1 = 0 then (none, r3.2)
  else
    (some { mElement := { sizeBytes := r1.1, sizeBits := 8 * r1.1, hasReferences := false,
                          fields := [] },
            mDimX := r2.1, mDimY := r3.1, mDimZ := 0, mDimLOD := false, mFaces := false,
            mLODCount := 1, mTotalSizeBytes := 0 }, r3.2)

/-- A layout computation for types without LOD chain and faces. -/
def exTypeCompute (t : RsType) : RsType :=
  { t with mTotalSizeBytes := t.mDimX * max t.mDimY 1 * max t.mDimZ 1 * t.mElement.sizeBytes }

/-- The instance of `StreamOps` built from the functions above. -/
def exStreamOps : StreamOps :=
  { RS_A3D_CLASS_ID_ALLOCATION := 4, RS_ALLOCATION_USAGE_SCRIPT := 1,
    addU32 := exAddU32, addString := exAddString, addByteArray := exAddByteArray,
    typeSerialize := exTypeSerialize, loadU32 := exLoadU32, loadString := exLoadString,
    typeCreateFromStream := exTypeCreateFromStream, typeCompute := exTypeCompute }

/-- A 4 x 4 type with an 8-bit element. -/
def exType4x4 : RsType :=
  { mElement := { sizeBytes := 1, sizeBits := 8, hasReferences := false, fields := [] },
    mDimX := 4, mDimY := 4, mDimZ := 0, mDimLOD := false, mFaces := false, mLODCount := 1,
    mTotalSizeBytes := 16 }

/-- An allocation of type `exType4x4` named "a" with the payload `exData16`. -/
def exAlloc4x4 : Allocation :=
  { Allocation.init exType4x4 with mPtr := exData16, mName := [97] }

/-- A stream whose leading class tag is `5`, not the Allocation tag of `exStreamOps`. -/
def exStreamWrongTag : IStream := ⟨[5, 0, 0, 0, 1, 0, 0, 0, 97], 0⟩

/-- A stream with the Allocation tag and a name, whose Type record does not load
(element size `0`). -/
def exStreamBadType : IStream :=
  ⟨[4, 0, 0, 0, 1, 0, 0, 0, 97, 0, 0, 0, 0, 4, 0, 0, 0, 4, 0, 0, 0, 16, 0, 0, 0], 0⟩

/-- A stream with the Allocation tag, a name and the Type record of `exType4x4`
(16 bytes), which declares a payload of 15 bytes. -/
def exStreamBadCount : IStream :=
  ⟨[4, 0, 0, 0, 1, 0, 0, 0, 97, 1, 0, 0, 0, 4, 0, 0, 0, 4, 0, 0, 0, 15, 0, 0, 0] ++ exData16, 0⟩

/-! ## The registry of dependents -/

/-- Function `Allocation::addProgramToDirty(p)`: `Vector::push` appends at the end. -/
def Allocation.addProgramToDirty (a : Allocation) (p : Nat) : Allocation :=
  { a with mToDirtyList := a.mToDirtyList ++ [p] }

/-- The `for (ct = 0; ct < mToDirtyList.size(); ct++)` loop of
`Allocation::removeProgramToDirty`: the first number counts the iterations left, the
second is `ct`.  Returns the list after `removeAt(ct)` when an entry equal to `p` is
found, `none` when the loop runs to its end. -/
def removeProgramToDirtyLoop (l : List Nat) (p : Nat) : Nat → Nat → Option (List Nat)
  | 0, _ => none
  | n + 1, ct => if l[ct]? = some p then some (l.eraseIdx ct)
                 else removeProgramToDirtyLoop l p n (ct + 1)

/-- Function `Allocation::removeProgramToDirty(p)`; falling out of the loop reaches
`rsAssert(0)`. -/
def Allocation.removeProgramToDirty (a : Allocation) (p : Nat) : Allocation × List Event :=
  match removeProgramToDirtyLoop a.mToDirtyList p a.mToDirtyList.length 0 with
  | some l => ({ a with mToDirtyList := l }, [])
  | none => (a, [Event.rsAssertFailed])

/-! ## GPU mirror: deferred upload and synchronisation -/

def RsType.getDimZ (t : RsType) : Nat := t.mDimZ

def RsType.getDimLOD (t : RsType) : Bool := t.mDimLOD

def RsType.getDimFaces (t : RsType) : Bool := t.mFaces

def RsType.getLODCount (t : RsType) : Nat := t.mLODCount

/-- Modelled from the spec: `Adapter2D` (rsAdapter.cpp is not part of the sources read
here).  The spec describes it as "a strided 2D view" that, for an Allocation, a face and
a LOD, "computes a base pointer and returns element pointers for `(x, y)` coordinates
within that LOD's sub-region using LOD-scaled dimensions", iterated row-major, without
bounds validation.  `mBase` is the offset of the sub-region in the buffer, `mDimX` and
`mDimY` are the LOD-scaled dimensions. -/
structure Adapter2D where
  mBase : Nat
  mDimX : Nat
  mDimY : Nat
  mElementSizeBytes : Nat
  mSizeBits : Nat
deriving DecidableEq, Repr

def Adapter2D.getDimX (ad : Adapter2D) : Nat := ad.mDimX

def Adapter2D.getDimY (ad : Adapter2D) : Nat := ad.mDimY

/-- Modelled from the spec: `Adapter2D::getElement(x, y)`, the offset in the buffer of
element `(x, y)` of the view, rows stored one after the other. -/
def Adapter2D.getElement (ad : Adapter2D) (x y : Nat) : Nat :=
  ad.mBase + (x + y * ad.mDimX) * ad.mElementSizeBytes

/-- What rsAllocation.cpp uses from other files on the GPU side: constants of the
headers, the GL type and format of an element's component, the adapter of a Type for a
face and a LOD (`Adapter2D adapt(rsc, alloc); adapt.setFace(face); adapt.setLOD(lod)`),
and the answers of the driver: `glGenTextures`/`glGenBuffers` are the names the driver
writes into the handle (`0`: it wrote none). -/
structure GLEnv where
  RS_ALLOCATION_USAGE_SCRIPT : Nat
  RS_ALLOCATION_USAGE_GRAPHICS_TEXTURE : Nat
  RS_ALLOCATION_USAGE_GRAPHICS_VERTEX : Nat
  GL_TEXTURE_2D : Nat
  GL_TEXTURE_CUBE_MAP : Nat
  GL_ARRAY_BUFFER : Nat
  faceOrder : List Nat
  getGLType : Element → Nat
  getGLFormat : Element → Nat
  adapter : RsType → Nat → Nat → Adapter2D
  glGenTextures : Nat
  glGenBuffers : Nat

/-- Modelled from the spec: `Allocation::getIsTexture()` (declared in the header):
`usageFlags` is a "bitset describing intended consumers", this is its GPU-texture bit. -/
def Allocation.getIsTexture (gl : GLEnv) (a : Allocation) : Bool :=
  (a.mUsageFlags &&& gl.RS_ALLOCATION_USAGE_GRAPHICS_TEXTURE) != 0

/-- Modelled from the spec: `Allocation::getIsBufferObject()` (declared in the header):
the GPU-vertex-buffer bit of `usageFlags`. -/
def Allocation.getIsBufferObject (gl : GLEnv) (a : Allocation) : Bool :=
  (a.mUsageFlags &&& gl.RS_ALLOCATION_USAGE_GRAPHICS_VERTEX) != 0

/-- Function `Allocation::deferedUploadToTexture(rsc, genMipmap, lodOffset)`. -/
def Allocation.deferedUploadToTexture (gl : GLEnv) (a : Allocation) (genMipmap : Bool)
    (lodOffset : Nat) : Allocation × List Event :=
  ({ a with mUsageFlags := a.mUsageFlags ||| gl.RS_ALLOCATION_USAGE_GRAPHICS_TEXTURE,
            mTextureLOD := lodOffset,
            mUploadDefered := true,
            mTextureGenMipmap := !a.mType.getDimLOD && genMipmap },
    if lodOffset < a.mType.getLODCount then [] else [Event.rsAssertFailed])

/-- Function `Allocation::getGLTarget()`. -/
def Allocation.getGLTarget (gl : GLEnv) (a : Allocation) : Nat :=
  if a.getIsTexture gl then
    if a.mType.getDimFaces then gl.GL_TEXTURE_CUBE_MAP else gl.GL_TEXTURE_2D
  else if a.getIsBufferObject gl then gl.GL_ARRAY_BUFFER
  else 0

/-- Function `Allocation::upload2DTexture(isFirstUpload)`: one transfer per LOD `lod` with
`lod + mTextureLOD < getLODCount()`, in increasing order. -/
def Allocation.upload2DTexture (gl : GLEnv) (a : Allocation) (isFirstUpload : Bool) :
    List Event :=
  let type := gl.getGLType a.mType.getElement
  let format := gl.getGLFormat a.mType.getElement
  (List.range (a.mType.getLODCount - a.mTextureLOD)).map fun lod =>
    let adapt := gl.adapter a.mType 0 (lod + a.mTextureLOD)
    if isFirstUpload then
      Event.glTexImage2D gl.GL_TEXTURE_2D lod format adapt.getDimX adapt.getDimY type
        (adapt.getElement 0 0)
    else
      Event.glTexSubImage2D gl.GL_TEXTURE_2D lod adapt.getDimX adapt.getDimY format type
        (adapt.getElement 0 0)

/-- Function `Allocation::uploadCubeTexture(isFirstUpload)`: for each of the six faces, one
transfer per LOD as in `upload2DTexture`. -/
def Allocation.uploadCubeTexture (gl : GLEnv) (a : Allocation) (isFirstUpload : Bool) :
    List Event :=
  let type := gl.getGLType a.mType.getElement
  let format := gl.getGLFormat a.mType.getElement
  ((List.range 6).map fun face =>
    (List.range (a.mType.getLODCount - a.mTextureLOD)).map fun lod =>
      let adapt := gl.adapter a.mType face (lod + a.mTextureLOD)
      if isFirstUpload then
        Event.glTexImage2D (gl.faceOrder.getD face 0) lod format adapt.getDimX adapt.getDimY
          type (adapt.getElement 0 0)
      else
        Event.glTexSubImage2D (gl.faceOrder.getD face 0) lod adapt.getDimX adapt.getDimY
          format type (adapt.getElement 0 0)).flatten

/-- The part of `Allocation::uploadToTexture` from `getGLTarget()` on. -/
def Allocation.uploadToTextureBody (gl : GLEnv) (a : Allocation) (isFirstUpload : Bool) :
    List Event :=
  let target := a.getGLTarget gl
  [Event.glBindTexture target a.mTextureID, Event.glPixelStorei] ++
    (if target = gl.GL_TEXTURE_2D then a.upload2DTexture gl isFirstUpload
     else if target = gl.GL_TEXTURE_CUBE_MAP then a.uploadCubeTexture gl isFirstUpload
     else []) ++
    (if a.mTextureGenMipmap then [Event.glGenerateMipmap target] else []) ++
    [Event.checkError]

/-- Function `Allocation::uploadToTexture(rsc)` (device build). -/
def Allocation.uploadToTexture (gl : GLEnv) (a : Allocation) : Allocation × List Event :=
  let a := { a with mUsageFlags := a.mUsageFlags ||| gl.RS_ALLOCATION_USAGE_GRAPHICS_TEXTURE }
  let type := gl.getGLType a.mType.getElement
  let format := gl.getGLFormat a.mType.getElement
  if type = 0 ∨ format = 0 then (a, [])
  else if a.mTextureID = 0 then
    let a := { a with mTextureID := gl.glGenTextures }
    if a.mTextureID = 0 then
      ({ a with mUploadDefered := true },
        [Event.glGenTextures, Event.logE, Event.dumpDebug])
    else (a, Event.glGenTextures :: a.uploadToTextureBody gl true)
  else (a, a.uploadToTextureBody gl false)

/-- Function `Allocation::deferedUploadToBufferObject(rsc)`. -/
def Allocation.deferedUploadToBufferObject (gl : GLEnv) (a : Allocation) :
    Allocation × List Event :=
  ({ a with mUsageFlags := a.mUsageFlags ||| gl.RS_ALLOCATION_USAGE_GRAPHICS_VERTEX,
            mUploadDefered := true }, [])

/-- Function `Allocation::uploadToBufferObject(rsc)`. -/
def Allocation.uploadToBufferObject (gl : GLEnv) (a : Allocation) : Allocation × List Event :=
  let asserts :=
    (if a.mType.getDimY = 0 then [] else [Event.rsAssertFailed]) ++
    (if a.mType.getDimZ = 0 then [] else [Event.rsAssertFailed])
  let a := { a with mUsageFlags := a.mUsageFlags ||| gl.RS_ALLOCATION_USAGE_GRAPHICS_VERTEX }
  let gen := if a.mBufferID = 0 then [Event.glGenBuffers] else []
  let a := if a.mBufferID = 0 then { a with mBufferID := gl.glGenBuffers } else a
  if a.mBufferID = 0 then
    ({ a with mUploadDefered := true }, asserts ++ gen ++ [Event.logE])
  else
    let target := a.getGLTarget gl
    (a, asserts ++ gen ++
      [Event.glBindBuffer target a.mBufferID,
       Event.glBufferData target a.mType.getSizeBytes (slice a.mPtr 0 a.mType.getSizeBytes),
       Event.glBindBuffer target 0,
       Event.checkError])

/-- Function `Allocation::syncAll(rsc, src)`. -/
def Allocation.syncAll (gl : GLEnv) (a : Allocation) (src : Nat) : Allocation × List Event :=
  let asserts := if src = gl.RS_ALLOCATION_USAGE_SCRIPT then [] else [Event.rsAssertFailed]
  let r1 := if a.getIsTexture gl then a.uploadToTexture gl else (a, [])
  let r2 := if r1.1.getIsBufferObject gl then r1.1.uploadToBufferObject gl else (r1.1, [])
  ({ r2.1 with mUploadDefered := false }, asserts ++ r1.2 ++ r2.2)

/-- Function `Allocation::uploadCheck(rsc)`. -/
def Allocation.uploadCheck (gl : GLEnv) (a : Allocation) : Allocation × List Event :=
  if a.mUploadDefered then a.syncAll gl gl.RS_ALLOCATION_USAGE_SCRIPT else (a, [])

/-- A backend with the usual values of the constants, 8-bit luminance pixels, a single
level of detail, and a driver that hands out the names given as arguments. -/
def exGL (genTextures genBuffers : Nat) : GLEnv :=
  { RS_ALLOCATION_USAGE_SCRIPT := 1, RS_ALLOCATION_USAGE_GRAPHICS_TEXTURE := 2,
    RS_ALLOCATION_USAGE_GRAPHICS_VERTEX := 4, GL_TEXTURE_2D := 0x0DE1,
    GL_TEXTURE_CUBE_MAP := 0x8513, GL_ARRAY_BUFFER := 0x8892,
    faceOrder := [0x8515, 0x8516, 0x8517, 0x8518, 0x8519, 0x851A],
    getGLType := fun _ => 0x1401, getGLFormat := fun _ => 0x1909,
    adapter := fun t _ _ =>
      { mBase := 0, mDimX := t.mDimX, mDimY := t.mDimY,
        mElementSizeBytes := t.mElement.sizeBytes, mSizeBits := t.mElement.sizeBits },
    glGenTextures := genTextures, glGenBuffers := genBuffers }

/-- The allocation `exAlloc4x4` used as a texture, with an upload pending and no
texture name yet. -/
def exTexAlloc : Allocation :=
  { exAlloc4x4 with mUsageFlags := 3, mUploadDefered := true }

/-- The allocation `exAlloc1D` used as a vertex buffer, with an upload pending and no
buffer name yet. -/
def exVertexAlloc : Allocation :=
  { exAlloc1D with mUsageFlags := 5, mUploadDefered := true }

/-- The calls into the GPU backend. -/
def Event.isGLCall : Event → Bool
  | Event.glGenTextures => true
  | Event.glBindTexture _ _ => true
  | Event.glPixelStorei => true
  | Event.glTexImage2D _ _ _ _ _ _ _ => true
  | Event.glTexSubImage2D _ _ _ _ _ _ _ => true
  | Event.glGenerateMipmap _ => true
  | Event.glGenBuffers => true
  | Event.glBindBuffer _ _ => true
  | Event.glBufferData _ _ _ => true
  | _ => false

/-! ## Mip generation -/

/-- The expression `(uint8_t)(((uint32_t)a + b + c + d) * 0.25f)` of `mip8`.  The sum is at
most `1020`, so it and its product with `0.25f` are multiples of `1/4` below `2 ^ 10`:
both are exactly representable in single precision and the floating-point product is
the exact rational product; the conversion to `uint8_t` truncates it. -/
def mip8Average (a b c d : Byte) : Byte :=
  byteOf (Nat.floor (((u32 (a.val + b.val + c.val + d.val) : Nat) : ℚ) * 0.25))

/-- The inner loop `for (x = 0; x < w; x++)` of `mip8`: the first argument counts the
iterations left, `oPtr`, `i1` and `i2` are the running pointers (offsets in the buffer),
the last argument is the buffer so far. -/
def mip8Row : Nat → Nat → Nat → Nat → List Byte → List Byte
  | 0, _, _, _, mem => mem
  | n + 1, oPtr, i1, i2, mem =>
    mip8Row n (oPtr + 1) (i1 + 2) (i2 + 2)
      (mem.set oPtr (mip8Average (mem.getD i1 0) (mem.getD (i1 + 1) 0)
        (mem.getD i2 0) (mem.getD (i2 + 1) 0)))

/-- The outer loop `for (y = 0; y < h; y++)` of `mip8`: the first number counts the
iterations left, the second is `y`. -/
def mip8Rows (out inp : Adapter2D) (w : Nat) : Nat → Nat → List Byte → List Byte
  | 0, _, mem => mem
  | n + 1, y, mem =>
    mip8Rows out inp w n (y + 1)
      (mip8Row w (out.getElement 0 y) (inp.getElement 0 (u32 (y * 2)))
        (inp.getElement 0 (u32 (u32 (y * 2) + 1))) mem)

/-- Function `mip8(out, in)`, both adapters being views of the buffer `mem` (as in every
caller). -/
def mip8 (out inp : Adapter2D) (mem : List Byte) : List Byte :=
  mip8Rows out inp out.getDimX out.getDimY 0 mem

/-- A 2 x 2 view of one-byte pixels at offset 16 of a buffer. -/
def exOutLevel : Adapter2D :=
  { mBase := 16, mDimX := 2, mDimY := 2, mElementSizeBytes := 1, mSizeBits := 8 }

/-- A 4 x 4 view of one-byte pixels at offset 0 of a buffer. -/
def exInLevel : Adapter2D :=
  { mBase := 0, mDimX := 4, mDimY := 4, mElementSizeBytes := 1, mSizeBits := 8 }

/-- A buffer of 20 bytes: a 4 x 4 level followed by a 2 x 2 level. -/
def exMipMem : List Byte :=
  [10, 20, 255, 255, 30, 43, 255, 254, 0, 0, 1, 2, 0, 1, 3, 5, 0, 0, 0, 0]

/-- The value of the 8-bit pixel `(x, y)` of a view of the buffer `mem`. -/
def pixel8 (mem : List Byte) (ad : Adapter2D) (x y : Nat) : Nat :=
  (mem.getD (ad.getElement x y) 0).val

/-- A `uint16_t` read from the buffer (little-endian, as on the targets of this code). -/
def load16 (mem : List Byte) (p : Nat) : Nat :=
  (mem.getD p 0).val + 256 * (mem.getD (p + 1) 0).val

/-- A `uint16_t` written to the buffer. -/
def store16 (mem : List Byte) (p v : Nat) : List Byte :=
  (mem.set p (byteOf v)).set (p + 1) (byteOf (v / 256))

/-- A `uint32_t` read from the buffer (little-endian). -/
def load32 (mem : List Byte) (p : Nat) : Nat :=
  (mem.getD p 0).val + 256 * (mem.getD (p + 1) 0).val + 65536 * (mem.getD (p + 2) 0).val +
    16777216 * (mem.getD (p + 3) 0).val

/-- A `uint32_t` written to the buffer. -/
def store32 (mem : List Byte) (p v : Nat) : List Byte :=
  (((mem.set p (byteOf v)).set (p + 1) (byteOf (v / 256))).set (p + 2)
    (byteOf (v / 65536))).set (p + 3) (byteOf (v / 16777216))

/-- The inner loop of `mip565`; pointers are `uint16_t *`, so `oPtr++` advances two bytes
and `i1 += 2` four.  `boxFilter` is `rsBoxFilter565`, defined in another file. -/
def mip565Row (boxFilter : Nat → Nat → Nat → Nat → Nat) :
    Nat → Nat → Nat → Nat → List Byte → List Byte
  | 0, _, _, _, mem => mem
  | n + 1, oPtr, i1, i2, mem =>
    mip565Row boxFilter n (oPtr + 2) (i1 + 4) (i2 + 4)
      (store16 mem oPtr (boxFilter (load16 mem i1) (load16 mem (i1 + 2))
        (load16 mem i2) (load16 mem (i2 + 2))))

/-- The outer loop of `mip565`. -/
def mip565Rows (boxFilter : Nat → Nat → Nat → Nat → Nat) (out inp : Adapter2D) (w : Nat) :
    Nat → Nat → List Byte → List Byte
  | 0, _, mem => mem
  | n + 1, y, mem =>
    mip565Rows boxFilter out inp w n (y + 1)
      (mip565Row boxFilter w (out.getElement 0 y) (inp.getElement 0 (u32 (y * 2)))
        (inp.getElement 0 (u32 (u32 (y * 2) + 1))) mem)

/-- Function `mip565(out, in)`. -/
def mip565 (boxFilter : Nat → Nat → Nat → Nat → Nat) (out inp : Adapter2D)
    (mem : List Byte) : List Byte :=
  mip565Rows boxFilter out inp out.getDimX out.getDimY 0 mem

/-- The inner loop of `mip8888`; pointers are `uint32_t *`.  `boxFilter` is
`rsBoxFilter8888`, defined in another file. -/
def mip8888Row (boxFilter : Nat → Nat → Nat → Nat → Nat) :
    Nat → Nat → Nat → Nat → List Byte → List Byte
  | 0, _, _, _, mem => mem
  | n + 1, oPtr, i1, i2, mem =>
    mip8888Row boxFilter n (oPtr + 4) (i1 + 8) (i2 + 8)
      (store32 mem oPtr (boxFilter (load32 mem i1) (load32 mem (i1 + 4))
        (load32 mem i2) (load32 mem (i2 + 4))))

/-- The outer loop of `mip8888`. -/
def mip8888Rows (boxFilter : Nat → Nat → Nat → Nat → Nat) (out inp : Adapter2D) (w : Nat) :
    Nat → Nat → List Byte → List Byte
  | 0, _, mem => mem
  | n + 1, y, mem =>
    mip8888Rows boxFilter out inp w n (y + 1)
      (mip8888Row boxFilter w (out.getElement 0 y) (inp.getElement 0 (u32 (y * 2)))
        (inp.getElement 0 (u32 (u32 (y * 2) + 1))) mem)

/-- Function `mip8888(out, in)`. -/
def mip8888 (boxFilter : Nat → Nat → Nat → Nat → Nat) (out inp : Adapter2D)
    (mem : List Byte) : List Byte :=
  mip8888Rows boxFilter out inp out.getDimX out.getDimY 0 mem

/-- What the operations below use from other files: the GPU side, `Type::cloneAndResize1D`
and the two box filters of rsUtils.h. -/
structure Env where
  gl : GLEnv
  cloneAndResize1D : RsType → Nat → RsType
  rsBoxFilter565 : Nat → Nat → Nat → Nat → Nat
  rsBoxFilter8888 : Nat → Nat → Nat → Nat → Nat

/-- Function `mip(out, in)`: the switch on the element's size in bits; any other size is
skipped. -/
def mip (env : Env) (out inp : Adapter2D) (mem : List Byte) : List Byte :=
  if out.mSizeBits = 32 then mip8888 env.rsBoxFilter8888 out inp mem
  else if out.mSizeBits = 16 then mip565 env.rsBoxFilter565 out inp mem
  else if out.mSizeBits = 8 then mip8 out inp mem
  else mem

/-- The loop `for (lod = 0; lod < getLODCount() - 1; lod++)` that generates the mip chain
of face `face`: the first number counts the iterations left, the second is `lod`. -/
def mipChain (env : Env) (t : RsType) (face : Nat) : Nat → Nat → List Byte → List Byte
  | 0, _, mem => mem
  | n + 1, lod, mem =>
    mipChain env t face n (lod + 1)
      (mip env (env.gl.adapter t face (lod + 1)) (env.gl.adapter t face lod) mem)

/-- Function `rsi_AllocationCopyFromBitmap(rsc, va, data, dataLen)`.  The bound
`getLODCount() - 1` of the loop is a `uint32_t` difference. -/
def rsi_AllocationCopyFromBitmap (env : Env) (a : Allocation) (data : List Byte)
    (dataLen : Nat) : Allocation × List Event :=
  let t := a.mType
  let w := t.getDimX
  let h := t.getDimY
  let genMips := t.getDimLOD
  let s := u32 (u32 (w * h) * t.getElementSizeBytes)
  if s ≠ dataLen then (a, [Event.setError RsError.RS_ERROR_BAD_VALUE])
  else
    let mem := memcpy a.mPtr 0 data 0 s
    let mem := if genMips then mipChain env t 0 (u32 (t.getLODCount + (2 ^ 32 - 1))) 0 mem
               else mem
    ({ a with mPtr := mem }, [Event.memcpy 0 0 s])

/-- Function `Allocation::resize2D(rsc, dimX, dimY)`: not implemented, it logs. -/
def Allocation.resize2D (a : Allocation) (_dimX _dimY : Nat) : Allocation × List Event :=
  (a, [Event.logE])

/-! ## Sequences of operations -/

/-- One call on an Allocation, with its arguments and, where the call reaches outside
the program, what the outside answers: the bytes `realloc` leaves indeterminate
(`resize1D`), the names the driver hands out (`uploadCheck`). -/
inductive Op where
  | data (data : List Byte) (sizeBytes : Nat)
  | subData (xoff count : Nat) (data : List Byte) (sizeBytes : Nat)
  | subData2D (xoff yoff w h : Nat) (data : List Byte) (sizeBytes : Nat)
  | subElementData (x : Nat) (data : List Byte) (cIdx sizeBytes : Nat)
  | subElementData2D (x y : Nat) (data : List Byte) (cIdx sizeBytes : Nat)
  | resize1D (dimX : Nat) (heap : Nat → Byte)
  | resize2D (dimX dimY : Nat)
  | copyFromBitmap (data : List Byte) (dataLen : Nat)
  | deferedUploadToTexture (genMipmap : Bool) (lodOffset : Nat)
  | deferedUploadToBufferObject
  | uploadCheck (genTextures genBuffers : Nat)

/-- The effect of one call. -/
def Allocation.step (env : Env) (a : Allocation) : Op → Allocation × List Event
  | Op.data data sizeBytes => a.data data sizeBytes
  | Op.subData xoff count data sizeBytes => a.subData xoff count data sizeBytes
  | Op.subData2D xoff yoff w h data sizeBytes => a.subData2D xoff yoff w h data sizeBytes
  | Op.subElementData x data cIdx sizeBytes => a.subElementData x data cIdx sizeBytes
  | Op.subElementData2D x y data cIdx sizeBytes => a.subElementData2D x y data cIdx sizeBytes
  | Op.resize1D dimX heap => a.resize1D env.cloneAndResize1D heap dimX
  | Op.resize2D dimX dimY => a.resize2D dimX dimY
  | Op.copyFromBitmap data dataLen => rsi_AllocationCopyFromBitmap env a data dataLen
  | Op.deferedUploadToTexture genMipmap lodOffset =>
    a.deferedUploadToTexture env.gl genMipmap lodOffset
  | Op.deferedUploadToBufferObject => a.deferedUploadToBufferObject env.gl
  | Op.uploadCheck genTextures genBuffers =>
    a.uploadCheck { env.gl with glGenTextures := genTextures, glGenBuffers := genBuffers }

/-- The state after a sequence of calls. -/
def Allocation.run (env : Env) (a : Allocation) : List Op → Allocation
  | [] => a
  | op :: ops => Allocation.run env (a.step env op).1 ops

/-- An environment built from `exGL` and `exCloneAndResize1D`; the box filters average
the four values. -/
def exEnv : Env :=
  { gl := exGL 7 8, cloneAndResize1D := exCloneAndResize1D,
    rsBoxFilter565 := fun a b c d => (a + b + c + d) / 4,
    rsBoxFilter8888 := fun a b c d => (a + b + c + d) / 4 }

/-- The buffer-size invariant: the buffer holds exactly `getSizeBytes()` bytes of the
current Type. -/
def Allocation.BufferSized (a : Allocation) : Prop :=
  a.mPtr.length = a.mType.getSizeBytes

/-- The calls by which `data` and the `subData`/`subElementData` overloads announce that
they reject their arguments: the error log and the failed assertion. -/
def Event.isRejection : Event → Bool
  | Event.logE => true
  | Event.rsAssertFailed => true
  | _ => false

/-- A call passed its validation: it made no rejection call. -/
def accepted (evs : List Event) : Bool := !evs.any Event.isRejection

/-- The calls that write caller data into the buffer and are meant to mark the GPU mirror
stale: `data`, `subData` (1D, 2D) and `subElementData` (1D, 2D). -/
def Op.isWrite : Op → Bool
  | Op.data _ _ => true
  | Op.subData _ _ _ _ => true
  | Op.subData2D _ _ _ _ _ _ => true
  | Op.subElementData _ _ _ _ => true
  | Op.subElementData2D _ _ _ _ _ => true
  | _ => false

/-- The calls that schedule an upload. -/
def Op.isSchedule : Op → Bool
  | Op.deferedUploadToTexture _ _ => true
  | Op.deferedUploadToBufferObject => true
  | _ => false

/-- The synchronisation call. -/
def Op.isSync : Op → Bool
  | Op.uploadCheck _ _ => true
  | _ => false

/-- The calls covered by the pending-flag statement: the writes, the scheduling calls,
and `uploadCheck` with a driver that hands out the names it is asked for. -/
def Op.inPendingScope : Op → Bool
  | Op.uploadCheck genTextures genBuffers => genTextures != 0 && genBuffers != 0
  | op => op.isWrite || op.isSchedule

/-- Whether an upload is owed after the calls `ops`, started in state `a` with `b` telling
whether one was owed before: a synchronisation settles it, a scheduling call or a write
that passed its validation raises it, anything else leaves it as it was. -/
def pendingSince (env : Env) : Allocation → Bool → List Op → Bool
  | _, b, [] => b
  | a, b, op :: ops =>
    pendingSince env (a.step env op).1
      (if op.isSync then false
       else if op.isSchedule then true
       else if op.isWrite && accepted (a.step env op).2 then true
       else b) ops

/-- The `memcpy` calls of a trace, in call order: destination offset, source offset,
number of bytes. -/
def copies (evs : List Event) : List (Nat × Nat × Nat) :=
  evs.filterMap fun
    | Event.memcpy d s n => some (d, s, n)
    | _ => none

/-- The memory touched by a call lies inside the blocks: a `memcpy` writes inside a buffer
of `bufSize` bytes and reads inside data of `dataSize` bytes, `incRefs` reads an element
(`eSize` bytes) inside the data, `decRefs` reads one inside the buffer.  Other calls touch
neither block. -/
def Event.inBounds (bufSize dataSize eSize : Nat) : Event → Prop
  | Event.memcpy d s n => d + n ≤ bufSize ∧ s + n ≤ dataSize
  | Event.incRefs _ off _ => off + eSize ≤ dataSize
  | Event.decRefs _ off _ => off + eSize ≤ bufSize
  | _ => True

/-- An allocation of type `exType4x4` (4 x 4 one-byte elements) holding `exData16`, with one
dependent. -/
def exByteAlloc2D : Allocation :=
  { Allocation.init exType4x4 with mPtr := exData16, mToDirtyList := [3] }

/-- The allocation `exAlloc1D` with the script, GPU-texture and GPU-vertex-buffer usage bits
all set, an upload pending and no GPU names yet. -/
def exMixedAlloc : Allocation :=
  { exAlloc1D with mUsageFlags := 7, mUploadDefered := true }

/-! ## Creating an Allocation from a bitmap -/

/-- Function `rsaAllocationCreateTyped(con, vtype, mips, usages)`: it constructs the
Allocation (the argument `mips` is not used). -/
def rsaAllocationCreateTyped (heap : Nat → Byte) (vtype : RsType) (_mips : Nat)
    (usages : Nat) : Allocation × List Event :=
  Allocation.new heap vtype usages

/-- Function `rsaAllocationCreateFromBitmap(con, vtype, mips, data, usages)`;
`RS_ALLOCATION_MIPMAP_FULL` is a constant of the headers. -/
def rsaAllocationCreateFromBitmap (env : Env) (RS_ALLOCATION_MIPMAP_FULL : Nat)
    (heap : Nat → Byte) (vtype : RsType) (mips : Nat) (data : List Byte) (usages : Nat) :
    Allocation × List Event :=
  let t := vtype
  let c := rsaAllocationCreateTyped heap vtype mips usages
  let texAlloc := c.1
  let size := u32 (u32 (t.getDimX * t.getDimY) * t.getElementSizeBytes)
  let mem := memcpy texAlloc.mPtr 0 data 0 size
  let mem :=
    if mips = RS_ALLOCATION_MIPMAP_FULL then
      mipChain env texAlloc.mType 0 (u32 (texAlloc.mType.getLODCount + (2 ^ 32 - 1))) 0 mem
    else mem
  let r := ({ texAlloc with mPtr := mem } : Allocation).deferedUploadToTexture env.gl false 0
  (r.1, c.2 ++ [Event.memcpy 0 0 size] ++ r.2)

/-- The mip chain of one face as a sequence of steps: for a Type with `n` levels of
detail, the steps `L = 0, 1, .., n - 2` in this order, step `L` writing level `L + 1` as
`mip` of level `L` of the same face. -/
def mipSteps (env : Env) (t : RsType) (face n : Nat) (mem : List Byte) : List Byte :=
  (List.range (n - 1)).foldl
    (fun m L => mip env (env.gl.adapter t face (L + 1)) (env.gl.adapter t face L) m) mem

/-- A 4 x 4 type of one-byte pixels with a chain of three levels of detail (4 x 4, 2 x 2,
1 x 1): 21 bytes. -/
def exMipType2D : RsType :=
  { mElement := { sizeBytes := 1, sizeBits := 8, hasReferences := false, fields := [] },
    mDimX := 4, mDimY := 4, mDimZ := 0, mDimLOD := true, mFaces := false, mLODCount := 3,
    mTotalSizeBytes := 21 }

/-- The cube map with six faces like `exMipType2D`: 126 bytes. -/
def exMipTypeCube : RsType :=
  { exMipType2D with mFaces := true, mTotalSizeBytes := 126 }

/-- The environment `exEnv` with adapters for these two types: face `f` starts at offset
`21 * f`, its levels at offsets 0, 16 and 20 of the face, each level half as wide and as
high as the one before. -/
def exMipEnv : Env :=
  { exEnv with
    gl := { exGL 7 8 with
      adapter := fun t face lod =>
        { mBase := face * 21 + (if lod = 0 then 0 else if lod = 1 then 16 else 20),
          mDimX := t.mDimX / 2 ^ lod, mDimY := t.mDimY / 2 ^ lod,
          mElementSizeBytes := t.mElement.sizeBytes, mSizeBits := t.mElement.sizeBits } } }

/-- The calls that transfer data of the buffer to the GPU: the image uploads of a texture
and the upload of a buffer object. -/
def Event.isTransfer : Event → Bool
  | Event.glTexImage2D _ _ _ _ _ _ _ => true
  | Event.glTexSubImage2D _ _ _ _ _ _ _ => true
  | Event.glBufferData _ _ _ => true
  | _ => false

/-- The allocation `exAlloc1D` used by scripts only (no GPU usage bit), with an upload
pending. -/
def exScriptAlloc : Allocation :=
  { exAlloc1D with mUsageFlags := 1, mUploadDefered := true }

/-- The backend `exGL 7 8` for elements whose component has no GL type. -/
def exNoTypeGL : GLEnv :=
  { exGL 7 8 with getGLType := fun _ => 0 }

/-- A cube map of 4 x 4 one-byte pixels with three levels of detail, used as a texture,
with an upload pending, a texture name already, and `mTextureLOD = 1`. -/
def exCubeTexAlloc : Allocation :=
  { Allocation.init exMipTypeCube with
    mPtr := (List.range 126).map byteOf, mUsageFlags := 3, mUploadDefered := true,
    mTextureID := 5, mTextureLOD := 1 }

theorem u32_of_lt {n : Nat} (h : n < 2 ^ 32) : u32 n = n := Nat.mod_eq_of_lt h

theorem memcpy_length (dst : List Byte) (dOff : Nat) (src : List Byte) (sOff n : Nat) :
    (memcpy dst dOff src sOff n).length = dst.length := by
  simp [memcpy]

theorem memcpy_get_inside (dst : List Byte) (dOff : Nat) (src : List Byte) (sOff n i : Nat)
    (h1 : dOff ≤ i) (h2 : i < dOff + n) (h3 : i < dst.length)
    (h4 : sOff + (i - dOff) < src.length) :
    (memcpy dst dOff src sOff n)[i]? = src[sOff + (i - dOff)]? := by
  simp [memcpy, List.getElem?_map, List.getElem?_range h3, h1, h2,
    List.getD_eq_getElem?_getD, List.getElem?_eq_getElem h4]

theorem memcpy_get_outside (dst : List Byte) (dOff : Nat) (src : List Byte) (sOff n i : Nat)
    (h : i < dOff ∨ dOff + n ≤ i) :
    (memcpy dst dOff src sOff n)[i]? = dst[i]? := by
  by_cases h3 : i < dst.length
  · have hn : ¬ (dOff ≤ i ∧ i < dOff + n) := by omega
    simp [memcpy, List.getElem?_map, List.getElem?_range h3, hn,
      List.getD_eq_getElem?_getD, List.getElem?_eq_getElem h3]
  · have h5 : dst.length ≤ i := by omega
    rw [List.getElem?_eq_none (by simpa [memcpy_length] using h5), List.getElem?_eq_none h5]

theorem slice_zero_of_length (m : List Byte) (n : Nat) (h : m.length = n) : slice m 0 n = m := by
  simp [slice, ← h]

theorem notified_incRefsLoop (e : Element) (mem : List Byte) (ct p : Nat) :
    notified (incRefsLoop e mem ct p) = [] := by
  induction ct generalizing p with
  | zero => rfl
  | succ ct ih => simpa [incRefsLoop, notified] using ih _

theorem notified_decRefsLoop (e : Element) (mem : List Byte) (ct p : Nat) :
    notified (decRefsLoop e mem ct p) = [] := by
  induction ct generalizing p with
  | zero => rfl
  | succ ct ih => simpa [decRefsLoop, notified] using ih _

theorem notified_append (xs ys : List Event) :
    notified (xs ++ ys) = notified xs ++ notified ys := by
  simp [notified, List.filterMap_append]

theorem notified_map_forceDirty (ps : List Nat) : notified (ps.map Event.forceDirty) = ps := by
  induction ps with
  | nil => rfl
  | cons p ps ih => simpa [notified] using ih

/-! ## Whole-buffer write: `Allocation::data` -/

/-- C1: `data` called with `sizeBytes` different from the Type's total size returns the
Allocation it was given (same buffer, same `mUploadDefered`, same registry, every member
equal) and the only call it makes is the error log: no `memcpy`, no `incRefs`/`decRefs`,
no `forceDirty`. -/
theorem data_size_mismatch_is_noop (a : Allocation) (data : List Byte) (sizeBytes : Nat)
    (h : sizeBytes ≠ a.mType.getSizeBytes) :
    (a.data data sizeBytes).1 = a ∧ (a.data data sizeBytes).2 = [Event.logE] := by
  have h1 : a.mType.getSizeBytes ≠ sizeBytes := fun e => h e.symm
  simp [Allocation.data, h1]

theorem data_size_mismatch_is_noop_witness :
    (7 : Nat) ≠ exAlloc1D.mType.getSizeBytes ∧
    (exAlloc1D.data [1, 2, 3, 4, 5, 6, 7] 7).1 = exAlloc1D ∧
    (exAlloc1D.data [1, 2, 3, 4, 5, 6, 7] 7).2 = [Event.logE] :=
  ⟨by decide, data_size_mismatch_is_noop exAlloc1D [1, 2, 3, 4, 5, 6, 7] 7 (by decide)⟩

/-- C2: `data` called with exactly `S = getSizeBytes()` bytes on an Allocation whose buffer
holds `S` bytes leaves the buffer equal to the data, sets `mUploadDefered`, and calls
`forceDirty` on every entry of `mToDirtyList` (once per entry, in list order, and on
nothing else); the registry itself is unchanged. -/
theorem data_full_write (a : Allocation) (data : List Byte)
    (hbuf : a.mPtr.length = a.mType.getSizeBytes)
    (hdata : data.length = a.mType.getSizeBytes) :
    (a.data data a.mType.getSizeBytes).1.mPtr = data ∧
    (a.data data a.mType.getSizeBytes).1.mUploadDefered = true ∧
    notified (a.data data a.mType.getSizeBytes).2 = a.mToDirtyList ∧
    (a.data data a.mType.getSizeBytes).1.mToDirtyList = a.mToDirtyList := by
  refine ⟨?_, ?_, ?_, ?_⟩
  · simp only [Allocation.data, ne_eq, not_true_eq_false, if_false]
    apply List.ext_getElem?
    intro i
    by_cases hi : i < data.length
    · rw [memcpy_get_inside _ _ _ _ _ _ (Nat.zero_le _) (by omega) (by omega) (by omega)]
      simp
    · rw [memcpy_get_outside _ _ _ _ _ _ (Or.inr (by omega)),
        List.getElem?_eq_none (by omega), List.getElem?_eq_none (by omega)]
  · simp [Allocation.data]
  · simp only [Allocation.data, ne_eq, not_true_eq_false, if_false, notified_append,
      Allocation.sendDirty, notified_map_forceDirty]
    split
    · simp only [Allocation.incRefs, Allocation.decRefs, notified_append,
        notified_incRefsLoop, notified_decRefsLoop]
      simp [notified]
    · simp [notified]
  · simp [Allocation.data]

theorem data_full_write_witness :
    (exAlloc1D.data [8, 7, 6, 5, 4, 3, 2, 1] exAlloc1D.mType.getSizeBytes).1.mPtr
      = [8, 7, 6, 5, 4, 3, 2, 1] ∧
    (exAlloc1D.data [8, 7, 6, 5, 4, 3, 2, 1] exAlloc1D.mType.getSizeBytes).1.mUploadDefered
      = true ∧
    notified (exAlloc1D.data [8, 7, 6, 5, 4, 3, 2, 1] exAlloc1D.mType.getSizeBytes).2
      = exAlloc1D.mToDirtyList ∧
    (exAlloc1D.data [8, 7, 6, 5, 4, 3, 2, 1] exAlloc1D.mType.getSizeBytes).1.mToDirtyList
      = exAlloc1D.mToDirtyList :=
  data_full_write exAlloc1D [8, 7, 6, 5, 4, 3, 2, 1] (by decide) (by decide)

theorem slice_getElem? (m : List Byte) (off n i : Nat) (h : i < n) :
    (slice m off n)[i]? = m[off + i]? := by
  simp [slice, List.getElem?_take, h]

theorem memcpy_writesOnly (dst : List Byte) (p : Nat) (src : List Byte) (sOff n : Nat)
    (hd : p + n ≤ dst.length) (hs : sOff + n ≤ src.length) :
    WritesOnly dst (memcpy dst p src sOff n) p (slice src sOff n) := by
  have hl : (slice src sOff n).length = n := by simp [slice]; omega
  refine ⟨memcpy_length _ _ _ _ _, ?_, ?_⟩
  · intro i hi
    rw [hl] at hi
    rw [memcpy_get_inside _ _ _ _ _ _ (by omega) (by omega) (by omega) (by omega),
      slice_getElem? _ _ _ _ hi]
    congr 1
    omega
  · intro j hj
    rw [hl] at hj
    exact memcpy_get_outside _ _ _ _ _ _ hj

/-! ## Range write: the 1D `Allocation::subData` -/

/-- C3: on a 1D Allocation (buffer of `dimX * e` bytes, a size that fits `uint32_t`), a
`subData(offset, count, data, count * e)` with `offset + count ≤ dimX` and `data` of
`count * e` bytes is accepted, and `read` afterwards returns the bytes `read` returned
before with exactly the bytes `[offset * e, (offset + count) * e)` replaced by `data`. -/
theorem subData_then_read (a : Allocation) (offset count : Nat) (data : List Byte)
    (hbuf : a.mPtr.length = a.mType.getSizeBytes)
    (h1d : a.mType.getSizeBytes = a.mType.getDimX * a.mType.getElementSizeBytes)
    (h32 : a.mType.getSizeBytes < 2 ^ 32)
    (hrange : offset + count ≤ a.mType.getDimX)
    (hdata : data.length = count * a.mType.getElementSizeBytes) :
    WritesOnly a.read
      (a.subData offset count data (count * a.mType.getElementSizeBytes)).1.read
      (offset * a.mType.getElementSizeBytes) data := by
  have hle := Nat.mul_le_mul_right a.mType.getElementSizeBytes hrange
  rw [Nat.add_mul] at hle
  have hc : u32 (count * a.mType.getElementSizeBytes) = count * a.mType.getElementSizeBytes :=
    u32_of_lt (by omega)
  have ho : u32 (a.mType.getElementSizeBytes * offset) = offset * a.mType.getElementSizeBytes := by
    rw [Nat.mul_comm]; exact u32_of_lt (by omega)
  have hr : a.read = a.mPtr := slice_zero_of_length _ _ hbuf
  have hr2 : (a.subData offset count data (count * a.mType.getElementSizeBytes)).1.read
      = memcpy a.mPtr (offset * a.mType.getElementSizeBytes) data 0
          (count * a.mType.getElementSizeBytes) := by
    simp only [Allocation.subData, hc, ho, ne_eq, not_true_eq_false, if_false, Allocation.read]
    exact slice_zero_of_length _ _ (by rw [memcpy_length]; exact hbuf)
  rw [hr, hr2]
  have hs : slice data 0 (count * a.mType.getElementSizeBytes) = data :=
    slice_zero_of_length _ _ hdata
  have := memcpy_writesOnly a.mPtr (offset * a.mType.getElementSizeBytes) data 0
    (count * a.mType.getElementSizeBytes) (by omega) (by omega)
  rwa [hs] at this

theorem subData_then_read_witness :
    WritesOnly exAlloc1D.read
      (exAlloc1D.subData 1 2 [9, 10, 11, 12] (2 * exAlloc1D.mType.getElementSizeBytes)).1.read
      (1 * exAlloc1D.mType.getElementSizeBytes) [9, 10, 11, 12] :=
  subData_then_read exAlloc1D 1 2 [9, 10, 11, 12] (by decide) (by decide) (by decide)
    (by decide) (by decide)

theorem eval_subData :
    (exAlloc1D.subData 1 2 [9, 10, 11, 12] 4).1.read = [1, 2, 9, 10, 11, 12, 7, 8] := by
  decide

/-! ## Rectangle write: the 2D `Allocation::subData` -/

/-- C4: the size check of the 2D `subData` compares `sizeBytes` with
`lineSize * eSize * h = w * e * e * h`, not with `w * h * e`.  On a 2 x 2 Allocation with a
four-byte element, the full rectangle `w = h = 2` with its `w * h * e = 16` bytes of data
is rejected (nothing changes, the assertion is the only call), while the same call
with `sizeBytes = 64` passes the check, copies the rows, sets `mUploadDefered` and
notifies the dependent. -/
theorem subData2D_size_check_at_four_byte_element :
    exType2D.getElementSizeBytes = 4 ∧
    exAlloc2D.subData2D 0 0 2 2 exData16 16 = (exAlloc2D, [Event.rsAssertFailed]) ∧
    exAlloc2D.subData2D 0 0 2 2 exData16 64 =
      ({ exAlloc2D with mPtr := exData16, mUploadDefered := true },
        [Event.memcpy 0 0 8, Event.memcpy 8 8 8, Event.forceDirty 3]) := by
  decide

/-! ## Field write: `Allocation::subElementData` -/

/-- C5: a `subElementData` call (1D overload with coordinate `x`, 2D overload with
coordinate `(x, y)`) whose field index is not below the field count, or whose `x` is not
below `dimX`, or (2D) whose `y` is not below `dimY`, or whose `sizeBytes` differs from the
size of the selected field, returns the Allocation it was given (buffer, `mUploadDefered`
and all other members unchanged) and makes exactly two calls: the log and
`setError(RS_ERROR_BAD_VALUE)`; in particular no `memcpy` and no `forceDirty`. -/
theorem subElementData_invalid_is_noop (a : Allocation) (x y : Nat) (data : List Byte)
    (cIdx sizeBytes : Nat) :
    ((cIdx ≥ a.mType.getElement.getFieldCount ∨ x ≥ a.mType.getDimX ∨
        sizeBytes ≠ (a.mType.getElement.getField cIdx).sizeBytes) →
      a.subElementData x data cIdx sizeBytes =
        (a, [Event.logE, Event.setError RsError.RS_ERROR_BAD_VALUE])) ∧
    ((cIdx ≥ a.mType.getElement.getFieldCount ∨ x ≥ a.mType.getDimX ∨
        y ≥ a.mType.getDimY ∨
        sizeBytes ≠ (a.mType.getElement.getField cIdx).sizeBytes) →
      a.subElementData2D x y data cIdx sizeBytes =
        (a, [Event.logE, Event.setError RsError.RS_ERROR_BAD_VALUE])) := by
  constructor
  · intro h
    unfold Allocation.subElementData
    by_cases h1 : cIdx ≥ a.mType.getElement.getFieldCount
    · simp [h1]
    by_cases h2 : x ≥ a.mType.getDimX
    · simp [h1, h2]
    have h3 : sizeBytes ≠ (a.mType.getElement.getField cIdx).sizeBytes := by
      rcases h with h | h | h
      · exact absurd h h1
      · exact absurd h h2
      · exact h
    simp [h1, h2, h3, Allocation.subElementDataField]
  · intro h
    unfold Allocation.subElementData2D
    by_cases h2 : x ≥ a.mType.getDimX
    · simp [h2]
    by_cases h4 : y ≥ a.mType.getDimY
    · simp [h2, h4]
    by_cases h1 : cIdx ≥ a.mType.getElement.getFieldCount
    · simp [h1, h2, h4]
    have h3 : sizeBytes ≠ (a.mType.getElement.getField cIdx).sizeBytes := by
      rcases h with h | h | h | h
      · exact absurd h h1
      · exact absurd h h2
      · exact absurd h h4
      · exact h
    simp [h1, h2, h4, h3, Allocation.subElementDataField]

theorem subElementData_invalid_is_noop_witness :
    exAlloc1D.subElementData 1 [9] 2 1 =
      (exAlloc1D, [Event.logE, Event.setError RsError.RS_ERROR_BAD_VALUE]) ∧
    exAlloc2D.subElementData2D 1 2 [9, 9, 9, 9] 0 4 =
      (exAlloc2D, [Event.logE, Event.setError RsError.RS_ERROR_BAD_VALUE]) :=
  ⟨(subElementData_invalid_is_noop exAlloc1D 1 0 [9] 2 1).1 (Or.inl (by decide)),
   (subElementData_invalid_is_noop exAlloc2D 1 2 [9, 9, 9, 9] 0 4).2
     (Or.inr (Or.inr (Or.inl (by decide))))⟩

theorem subElementDataField_writesOnly (a : Allocation) (ptr : Nat) (data : List Byte)
    (cIdx sizeBytes : Nat)
    (hs : sizeBytes = (a.mType.getElement.getField cIdx).sizeBytes)
    (hd : data.length = sizeBytes)
    (hb : ptr + a.mType.getElement.getFieldOffsetBytes cIdx + sizeBytes ≤ a.mPtr.length) :
    WritesOnly a.mPtr (a.subElementDataField ptr data cIdx sizeBytes).1.mPtr
      (ptr + a.mType.getElement.getFieldOffsetBytes cIdx) data := by
  have h1 : (a.subElementDataField ptr data cIdx sizeBytes).1.mPtr
      = memcpy a.mPtr (ptr + a.mType.getElement.getFieldOffsetBytes cIdx) data 0 sizeBytes := by
    simp [Allocation.subElementDataField, ← hs]
  rw [h1]
  have := memcpy_writesOnly a.mPtr (ptr + a.mType.getElement.getFieldOffsetBytes cIdx) data 0
    sizeBytes hb (by omega)
  rwa [slice_zero_of_length _ _ hd] at this

/-- C6: a valid `subElementData` call (field index below the field count, `x < dimX`, and
`y < dimY` for the 2D overload, `sizeBytes` equal to the field's size, `data` of that many
bytes, the field lying inside the element, the buffer holding the `dimX` (resp.
`dimX * dimY`) elements and fitting `uint32_t`) replaces the bytes
`[e * (x + y * dimX) + fieldOffset, + sizeBytes)` of the buffer by `data` (`y = 0` for the
1D overload) and leaves every other byte of the buffer as it was. -/
theorem subElementData_valid_writes_field (a : Allocation) (x y : Nat) (data : List Byte)
    (cIdx sizeBytes : Nat)
    (hc : cIdx < a.mType.getElement.getFieldCount)
    (hx : x < a.mType.getDimX)
    (hs : sizeBytes = (a.mType.getElement.getField cIdx).sizeBytes)
    (hd : data.length = sizeBytes)
    (hf : a.mType.getElement.getFieldOffsetBytes cIdx + sizeBytes ≤ a.mType.getElementSizeBytes)
    (h32 : a.mPtr.length < 2 ^ 32) :
    (a.mType.getElementSizeBytes * a.mType.getDimX ≤ a.mPtr.length →
      WritesOnly a.mPtr (a.subElementData x data cIdx sizeBytes).1.mPtr
        (a.mType.getElementSizeBytes * x + a.mType.getElement.getFieldOffsetBytes cIdx) data) ∧
    (y < a.mType.getDimY →
      a.mType.getElementSizeBytes * (a.mType.getDimX * a.mType.getDimY) ≤ a.mPtr.length →
      WritesOnly a.mPtr (a.subElementData2D x y data cIdx sizeBytes).1.mPtr
        (a.mType.getElementSizeBytes * (x + y * a.mType.getDimX) +
          a.mType.getElement.getFieldOffsetBytes cIdx) data) := by
  have hc1 : ¬ cIdx ≥ a.mType.getElement.getFieldCount := by omega
  have hx1 : ¬ x ≥ a.mType.getDimX := by omega
  constructor
  · intro hlen
    have h1 : a.mType.getElementSizeBytes * (x + 1) ≤
        a.mType.getElementSizeBytes * a.mType.getDimX := Nat.mul_le_mul_left _ hx
    rw [Nat.mul_add, Nat.mul_one] at h1
    have hp : u32 (a.mType.getElementSizeBytes * x) = a.mType.getElementSizeBytes * x :=
      u32_of_lt (by omega)
    simp only [Allocation.subElementData, hc1, hx1, if_false, hp]
    exact subElementDataField_writesOnly a _ data cIdx sizeBytes hs hd (by omega)
  · intro hy hlen
    have hy1 : ¬ y ≥ a.mType.getDimY := by omega
    have h2 : (y + 1) * a.mType.getDimX ≤ a.mType.getDimY * a.mType.getDimX :=
      Nat.mul_le_mul_right _ hy
    rw [Nat.add_mul, Nat.one_mul, Nat.mul_comm a.mType.getDimY] at h2
    have h1 : a.mType.getElementSizeBytes * (x + y * a.mType.getDimX + 1) ≤
        a.mType.getElementSizeBytes * (a.mType.getDimX * a.mType.getDimY) :=
      Nat.mul_le_mul_left _ (by omega)
    rw [Nat.mul_add, Nat.mul_one] at h1
    have hp : u32 (a.mType.getElementSizeBytes * u32 (x + u32 (y * a.mType.getDimX)))
        = a.mType.getElementSizeBytes * (x + y * a.mType.getDimX) := by
      rcases Nat.eq_zero_or_pos a.mType.getElementSizeBytes with h0 | h0
      · rw [h0]; simp [u32]
      · have h3 : x + y * a.mType.getDimX ≤
            a.mType.getElementSizeBytes * (x + y * a.mType.getDimX) :=
          Nat.le_mul_of_pos_left _ h0
        rw [u32_of_lt (show y * a.mType.getDimX < 2 ^ 32 by omega),
          u32_of_lt (show x + y * a.mType.getDimX < 2 ^ 32 by omega)]
        exact u32_of_lt (by omega)
    simp only [Allocation.subElementData2D, hc1, hx1, hy1, if_false, hp]
    exact subElementDataField_writesOnly a _ data cIdx sizeBytes hs hd (by omega)

theorem subElementData_valid_writes_field_witness :
    WritesOnly exAlloc1D.mPtr (exAlloc1D.subElementData 2 [77] 1 1).1.mPtr
      (exAlloc1D.mType.getElementSizeBytes * 2 +
        exAlloc1D.mType.getElement.getFieldOffsetBytes 1) [77] ∧
    WritesOnly exAlloc2D.mPtr (exAlloc2D.subElementData2D 1 1 [5, 6, 7, 8] 0 4).1.mPtr
      (exAlloc2D.mType.getElementSizeBytes * (1 + 1 * exAlloc2D.mType.getDimX) +
        exAlloc2D.mType.getElement.getFieldOffsetBytes 0) [5, 6, 7, 8] :=
  ⟨(subElementData_valid_writes_field exAlloc1D 2 0 [77] 1 1 (by decide) (by decide)
      (by decide) (by decide) (by decide) (by decide)).1 (by decide),
   (subElementData_valid_writes_field exAlloc2D 1 1 [5, 6, 7, 8] 0 4 (by decide) (by decide)
      (by decide) (by decide) (by decide) (by decide)).2 (by decide) (by decide)⟩

theorem eval_subElementData :
    (exAlloc1D.subElementData 2 [77] 1 1).1.mPtr = [1, 2, 3, 4, 5, 77, 7, 8] := by decide
theorem eval_subElementData2D : (exAlloc2D.subElementData2D 1 1 [5, 6, 7, 8] 0 4).1.mPtr =
    [0, 0, 0, 0, 0, 0, 0, 0, 0, 0, 0, 0, 5, 6, 7, 8] := by decide

/-! ## `Allocation::resize1D` -/

theorem realloc_length (heap : Nat → Byte) (old : List Byte) (n : Nat) :
    (realloc heap old n).length = n := by
  simp [realloc]

theorem realloc_get_old (heap : Nat → Byte) (old : List Byte) (n i : Nat)
    (h1 : i < old.length) (h2 : i < n) : (realloc heap old n)[i]? = old[i]? := by
  simp [realloc, List.getElem?_map, List.getElem?_range h2, h1,
    List.getD_eq_getElem?_getD, List.getElem?_eq_getElem h1]

theorem memset_length (dst : List Byte) (off n : Nat) : (memset dst off n).length = dst.length := by
  simp [memset]

theorem memset_get_inside (dst : List Byte) (off n i : Nat)
    (h1 : off ≤ i) (h2 : i < off + n) (h3 : i < dst.length) :
    (memset dst off n)[i]? = some 0 := by
  simp [memset, List.getElem?_map, List.getElem?_range h3, h1, h2]

theorem memset_get_outside (dst : List Byte) (off n i : Nat) (h : i < off ∨ off + n ≤ i) :
    (memset dst off n)[i]? = dst[i]? := by
  by_cases h3 : i < dst.length
  · have hn : ¬ (off ≤ i ∧ i < off + n) := by omega
    simp [memset, List.getElem?_map, List.getElem?_range h3, hn,
      List.getD_eq_getElem?_getD, List.getElem?_eq_getElem h3]
  · have h5 : dst.length ≤ i := by omega
    rw [List.getElem?_eq_none (by simpa [memset_length] using h5), List.getElem?_eq_none h5]

theorem decRefsLoop_eq_map (e : Element) (mem : List Byte) (ct p : Nat) :
    decRefsLoop e mem ct p = (List.range ct).map fun k =>
      Event.decRefs none (p + k * u32 e.getSizeBytes)
        (slice mem (p + k * u32 e.getSizeBytes) e.getSizeBytes) := by
  induction ct generalizing p with
  | zero => rfl
  | succ ct ih =>
    rw [decRefsLoop, ih, List.range_succ_eq_map, List.map_cons, List.map_map]
    simp only [Nat.zero_mul, Nat.add_zero, List.cons.injEq, true_and]
    apply List.map_congr_left
    intro k _
    simp only [Function.comp, Nat.succ_eq_add_one]
    have : p + u32 e.getSizeBytes + k * u32 e.getSizeBytes = p + (k + 1) * u32 e.getSizeBytes := by
      rw [Nat.add_mul, Nat.one_mul]; omega
    rw [this]

/-- C7: growing a 1D Allocation (`dimX = n`, element size `e`, buffer of `n * e` bytes)
with `resize1D(m)`, `m > n`, where the resized Type has `dimX = m` and `m * e` bytes (a
size that fits `uint32_t`): afterwards the buffer has `m * e` bytes, the bytes `[0, n * e)`
are the bytes before the call, every byte in `[n * e, m * e)` is zero (whatever `realloc`
left there), and `mType` is the resized Type, whose `dimX` is `m`. -/
theorem resize1D_grow (cloneAndResize1D : RsType → Nat → RsType) (heap : Nat → Byte)
    (a : Allocation) (m : Nat)
    (hbuf : a.mPtr.length = a.mType.getDimX * a.mType.getElement.getSizeBytes)
    (hgrow : a.mType.getDimX < m)
    (hdim : (cloneAndResize1D a.mType m).getDimX = m)
    (hsize : (cloneAndResize1D a.mType m).getSizeBytes = m * a.mType.getElement.getSizeBytes)
    (h32 : m * a.mType.getElement.getSizeBytes < 2 ^ 32) :
    (a.resize1D cloneAndResize1D heap m).1.mPtr.length = m * a.mType.getElement.getSizeBytes ∧
    (∀ i, i < a.mType.getDimX * a.mType.getElement.getSizeBytes →
      (a.resize1D cloneAndResize1D heap m).1.mPtr[i]? = a.mPtr[i]?) ∧
    (∀ i, a.mType.getDimX * a.mType.getElement.getSizeBytes ≤ i →
      i < m * a.mType.getElement.getSizeBytes →
      (a.resize1D cloneAndResize1D heap m).1.mPtr[i]? = some 0) ∧
    (a.resize1D cloneAndResize1D heap m).1.mType = cloneAndResize1D a.mType m ∧
    (a.resize1D cloneAndResize1D heap m).1.mType.getDimX = m := by
  generalize hn : a.mType.getDimX = n at *
  generalize he : a.mType.getElement.getSizeBytes = e at *
  have hne : m ≠ n := by omega
  have hnl : ¬ m < n := by omega
  have hnm : n * e ≤ m * e := Nat.mul_le_mul_right e (Nat.le_of_lt hgrow)
  have hsub : (m - n) * e = m * e - n * e := Nat.sub_mul m n e
  have hm1 : e ≤ m * e := Nat.le_mul_of_pos_left e (by omega)
  have hs : u32 e = e := u32_of_lt (by omega)
  have hoff : u32 (e * n) = n * e := by rw [Nat.mul_comm]; exact u32_of_lt (by omega)
  have hlen : u32 (e * (m - n)) = m * e - n * e := by
    rw [Nat.mul_comm, hsub]; exact u32_of_lt (by omega)
  have hr : (a.resize1D cloneAndResize1D heap m).1 =
      { a with mPtr := memset (realloc heap a.mPtr (m * e)) (n * e) (m * e - n * e),
               mType := cloneAndResize1D a.mType m } := by
    simp [Allocation.resize1D, hn, he, hne, hgrow, hsize, hs, hoff, hlen]
  rw [hr]
  refine ⟨?_, ?_, ?_, rfl, hdim⟩
  · simp [memset_length, realloc_length]
  · intro i hi
    show (memset _ _ _)[i]? = _
    rw [memset_get_outside _ _ _ _ (Or.inl hi),
      realloc_get_old _ _ _ _ (by omega) (by omega)]
  · intro i h1 h2
    show (memset _ _ _)[i]? = _
    exact memset_get_inside _ _ _ _ h1 (by omega) (by rw [realloc_length]; exact h2)

theorem resize1D_grow_witness :
    (exAlloc1D.resize1D exCloneAndResize1D exHeap 8).1.mPtr.length
      = 8 * exAlloc1D.mType.getElement.getSizeBytes ∧
    (∀ i, i < exAlloc1D.mType.getDimX * exAlloc1D.mType.getElement.getSizeBytes →
      (exAlloc1D.resize1D exCloneAndResize1D exHeap 8).1.mPtr[i]? = exAlloc1D.mPtr[i]?) ∧
    (∀ i, exAlloc1D.mType.getDimX * exAlloc1D.mType.getElement.getSizeBytes ≤ i →
      i < 8 * exAlloc1D.mType.getElement.getSizeBytes →
      (exAlloc1D.resize1D exCloneAndResize1D exHeap 8).1.mPtr[i]? = some 0) ∧
    (exAlloc1D.resize1D exCloneAndResize1D exHeap 8).1.mType
      = exCloneAndResize1D exAlloc1D.mType 8 ∧
    (exAlloc1D.resize1D exCloneAndResize1D exHeap 8).1.mType.getDimX = 8 :=
  resize1D_grow exCloneAndResize1D exHeap exAlloc1D 8 (by decide) (by decide) (by decide)
    (by decide) (by decide)

theorem eval_resize1D_grow : (exAlloc1D.resize1D exCloneAndResize1D exHeap 8).1.mPtr =
    [1, 2, 3, 4, 5, 6, 7, 8, 0, 0, 0, 0, 0, 0, 0, 0] := by decide

/-- C8: shrinking a 1D Allocation (`dimX = n`, element size `e`, buffer of `n * e` bytes,
a size that fits `uint32_t`) with `resize1D(m)`, `m < n`, where the resized Type has
`m * e` bytes: the calls made are, in order, one `decRefs` for each of the elements
`m, m + 1, .., n - 1` (at offset `(m + k) * e`, on the `e` bytes the buffer held there
before the call) and then the `realloc`; so no element below `m` is released and none
twice.  Afterwards the buffer is the first `m * e` bytes of the buffer before the call.
This holds for every element, whether or not it carries references. -/
theorem resize1D_shrink (cloneAndResize1D : RsType → Nat → RsType) (heap : Nat → Byte)
    (a : Allocation) (m : Nat)
    (hbuf : a.mPtr.length = a.mType.getDimX * a.mType.getElement.getSizeBytes)
    (hshrink : m < a.mType.getDimX)
    (hsize : (cloneAndResize1D a.mType m).getSizeBytes = m * a.mType.getElement.getSizeBytes)
    (h32 : a.mType.getDimX * a.mType.getElement.getSizeBytes < 2 ^ 32) :
    (a.resize1D cloneAndResize1D heap m).2 =
      ((List.range (a.mType.getDimX - m)).map fun k =>
        Event.decRefs none ((m + k) * a.mType.getElement.getSizeBytes)
          (slice a.mPtr ((m + k) * a.mType.getElement.getSizeBytes)
            a.mType.getElement.getSizeBytes)) ++
      [Event.realloc (m * a.mType.getElement.getSizeBytes)] ∧
    (a.resize1D cloneAndResize1D heap m).1.mPtr =
      a.mPtr.take (m * a.mType.getElement.getSizeBytes) := by
  generalize hn : a.mType.getDimX = n at *
  generalize he : a.mType.getElement.getSizeBytes = e at *
  have hne : m ≠ n := by omega
  have hnl : ¬ m > n := by omega
  have hnm : m * e ≤ n * e := Nat.mul_le_mul_right e (Nat.le_of_lt hshrink)
  have hn1 : e ≤ n * e := Nat.le_mul_of_pos_left e (by omega)
  have hs : u32 e = e := u32_of_lt (by omega)
  constructor
  · simp only [Allocation.resize1D, hn, he, hne, if_false, hshrink, if_true, hnl, hsize,
      Allocation.decRefs, decRefsLoop_eq_map, hs, Nat.zero_add]
    congr 1
    apply List.map_congr_left
    intro k _
    have : e * m + k * e = (m + k) * e := by rw [Nat.add_mul, Nat.mul_comm e m]
    rw [this]
  · have hr : (a.resize1D cloneAndResize1D heap m).1.mPtr = realloc heap a.mPtr (m * e) := by
      simp [Allocation.resize1D, hn, he, hne, hnl, hsize]
    rw [hr]
    apply List.ext_getElem?
    intro i
    by_cases hi : i < m * e
    · rw [realloc_get_old _ _ _ _ (by omega) hi, List.getElem?_take_of_lt hi]
    · rw [List.getElem?_eq_none (by rw [realloc_length]; omega),
        List.getElem?_eq_none (by rw [List.length_take]; omega)]

theorem resize1D_shrink_witness :
    (exRefAlloc1D.resize1D exCloneAndResize1D exHeap 4).2 =
      ((List.range (exRefAlloc1D.mType.getDimX - 4)).map fun k =>
        Event.decRefs none ((4 + k) * exRefAlloc1D.mType.getElement.getSizeBytes)
          (slice exRefAlloc1D.mPtr ((4 + k) * exRefAlloc1D.mType.getElement.getSizeBytes)
            exRefAlloc1D.mType.getElement.getSizeBytes)) ++
      [Event.realloc (4 * exRefAlloc1D.mType.getElement.getSizeBytes)] ∧
    (exRefAlloc1D.resize1D exCloneAndResize1D exHeap 4).1.mPtr =
      exRefAlloc1D.mPtr.take (4 * exRefAlloc1D.mType.getElement.getSizeBytes) :=
  resize1D_shrink exCloneAndResize1D exHeap exRefAlloc1D 4 (by decide) (by decide) (by decide)
    (by decide)

theorem eval_resize1D_shrink : (exRefAlloc1D.resize1D exCloneAndResize1D exHeap 4) =
    ({ exRefAlloc1D with mPtr := [1, 2, 3, 4, 5, 6, 7, 8],
                         mType := exCloneAndResize1D exRefType1D 4 },
     [Event.decRefs none 8 [9, 10], Event.decRefs none 10 [11, 12],
      Event.decRefs none 12 [13, 14], Event.decRefs none 14 [15, 16], Event.realloc 8]) := by
  decide

/-! ## Serialization: `Allocation::serialize` and `Allocation::createFromStream` -/

theorem memcpy_whole (dst src : List Byte) (n : Nat) (hd : dst.length = n)
    (hs : n ≤ src.length) : memcpy dst 0 src 0 n = src.take n := by
  apply List.ext_getElem?
  intro i
  by_cases hi : i < n
  · rw [memcpy_get_inside _ _ _ _ _ _ (Nat.zero_le _) (by omega) (by omega) (by omega),
      List.getElem?_take_of_lt hi]
    simp
  · rw [List.getElem?_eq_none (by rw [memcpy_length]; omega),
      List.getElem?_eq_none (by rw [List.length_take]; omega)]

theorem new_mType (heap : Nat → Byte) (t : RsType) (usages : Nat) :
    (Allocation.new heap t usages).1.mType = t := by
  unfold Allocation.new
  simp only [Allocation.init]
  split <;> rfl

theorem new_mPtr_length (heap : Nat → Byte) (t : RsType) (usages : Nat) :
    (Allocation.new heap t usages).1.mPtr.length = t.getSizeBytes := by
  unfold Allocation.new
  simp only [Allocation.init]
  split <;> simp [memset_length, malloc]

theorem data_accepted (a : Allocation) (data : List Byte)
    (hbuf : a.mPtr.length = a.mType.getSizeBytes) (hdata : a.mType.getSizeBytes ≤ data.length) :
    (a.data data a.mType.getSizeBytes).1.mPtr = data.take a.mType.getSizeBytes ∧
    (a.data data a.mType.getSizeBytes).1.mType = a.mType := by
  simp only [Allocation.data, ne_eq, not_true_eq_false, if_false, and_true]
  exact memcpy_whole _ _ _ hbuf hdata

/-- C9: for every Allocation `a` whose buffer holds `getSizeBytes()` bytes (sizes, name
length and class tag in `uint32_t` range), and stream primitives and Type serialization
that round-trip (`StreamOps.RoundTrips`): `createFromStream`, reading the stream that
`a.serialize` wrote (after any earlier contents `o`, before any later contents `rest`),
returns an Allocation `b` (not `NULL`) whose Type has the same total size as that of
`a` (it is the Type of `a`), and `b.read` returns the buffer of `a` byte for byte. -/
theorem createFromStream_serialize (ops : StreamOps) (heap : Nat → Byte) (a : Allocation)
    (o : OStream) (rest : List Byte)
    (hrt : ops.RoundTrips a.mType)
    (hbuf : a.mPtr.length = a.mType.getSizeBytes)
    (hsz : a.mType.getSizeBytes < 2 ^ 32)
    (hname : a.mName.length < 2 ^ 32)
    (hid : ops.RS_A3D_CLASS_ID_ALLOCATION < 2 ^ 32) :
    ∃ b, (Allocation.createFromStream ops heap
            ⟨(a.serialize ops o).mData ++ rest, o.mData.length⟩).1 = some b ∧
      b.mType.getSizeBytes = a.mType.getSizeBytes ∧ b.mType = a.mType ∧
      b.read = a.mPtr := by
  obtain ⟨e2, h2⟩ := hrt.addString_appends (ops.addU32 o ops.RS_A3D_CLASS_ID_ALLOCATION) a.mName
  obtain ⟨e3, h3⟩ := hrt.typeSerialize_appends
    (ops.addString (ops.addU32 o ops.RS_A3D_CLASS_ID_ALLOCATION) a.mName)
  obtain ⟨e4, h4⟩ := hrt.addU32_appends
    (ops.typeSerialize a.mType
      (ops.addString (ops.addU32 o ops.RS_A3D_CLASS_ID_ALLOCATION) a.mName))
    a.mType.getSizeBytes
  have h5 := hrt.addByteArray_appends
    (ops.addU32 (ops.typeSerialize a.mType
      (ops.addString (ops.addU32 o ops.RS_A3D_CLASS_ID_ALLOCATION) a.mName)) a.mType.getSizeBytes)
    (slice a.mPtr 0 a.mType.getSizeBytes)
  rw [slice_zero_of_length _ _ hbuf] at h5
  generalize hs1 : ops.addU32 o ops.RS_A3D_CLASS_ID_ALLOCATION = s1 at *
  generalize hs2 : ops.addString s1 a.mName = s2 at *
  generalize hs3 : ops.typeSerialize a.mType s2 = s3 at *
  generalize hs4 : ops.addU32 s3 a.mType.getSizeBytes = s4 at *
  generalize hD : (a.serialize ops o).mData ++ rest = D
  have hD4 : D = s4.mData ++ (a.mPtr ++ rest) := by
    rw [← hD]
    simp only [Allocation.serialize, hs1, hs2, hs3, hs4, slice_zero_of_length _ _ hbuf, h5,
      List.append_assoc]
  have hD3 : D = s3.mData ++ (e4 ++ (a.mPtr ++ rest)) := by
    rw [hD4, h4, List.append_assoc]
  have hD2 : D = s2.mData ++ (e3 ++ (e4 ++ (a.mPtr ++ rest))) := by
    rw [hD3, h3, List.append_assoc]
  have hD1 : D = s1.mData ++ (e2 ++ (e3 ++ (e4 ++ (a.mPtr ++ rest)))) := by
    rw [hD2, h2, List.append_assoc]
  have l1 : ops.loadU32 ⟨D, o.mData.length⟩ =
      (ops.RS_A3D_CLASS_ID_ALLOCATION, ⟨D, s1.mData.length⟩) := by
    have := hrt.loadU32_addU32 o ops.RS_A3D_CLASS_ID_ALLOCATION
      (e2 ++ (e3 ++ (e4 ++ (a.mPtr ++ rest)))) hid
    rw [hs1, ← hD1] at this
    exact this
  have l2 : ops.loadString ⟨D, s1.mData.length⟩ = (a.mName, ⟨D, s2.mData.length⟩) := by
    have := hrt.loadString_addString s1 a.mName (e3 ++ (e4 ++ (a.mPtr ++ rest))) hname
    rw [hs2, ← hD2] at this
    exact this
  obtain ⟨t0, l3, hc⟩ := hrt.typeCreateFromStream_typeSerialize s2 (e4 ++ (a.mPtr ++ rest))
  rw [hs3, ← hD3] at l3
  have l4 : ops.loadU32 ⟨D, s3.mData.length⟩ = (a.mType.getSizeBytes, ⟨D, s4.mData.length⟩) := by
    have := hrt.loadU32_addU32 s3 a.mType.getSizeBytes (a.mPtr ++ rest) hsz
    rw [hs4, ← hD4] at this
    exact this
  have hdrop : D.drop s4.mData.length = a.mPtr ++ rest := by
    rw [hD4, List.drop_left]
  simp only [Allocation.createFromStream, l1, l2, l3, hc, l4, ne_eq, not_true_eq_false,
    if_false, hdrop]
  refine ⟨_, rfl, ?_⟩
  have hb : ({ (Allocation.new heap a.mType ops.RS_ALLOCATION_USAGE_SCRIPT).1 with
      mName := a.mName } : Allocation).mPtr.length =
      ({ (Allocation.new heap a.mType ops.RS_ALLOCATION_USAGE_SCRIPT).1 with
      mName := a.mName } : Allocation).mType.getSizeBytes := by
    show (Allocation.new heap a.mType _).1.mPtr.length =
      (Allocation.new heap a.mType _).1.mType.getSizeBytes
    rw [new_mPtr_length, new_mType]
  have ht : ({ (Allocation.new heap a.mType ops.RS_ALLOCATION_USAGE_SCRIPT).1 with
      mName := a.mName } : Allocation).mType = a.mType := new_mType _ _ _
  have hacc := data_accepted ({ (Allocation.new heap a.mType ops.RS_ALLOCATION_USAGE_SCRIPT).1 with
      mName := a.mName } : Allocation) (a.mPtr ++ rest) hb (by rw [ht]; simp; omega)
  rw [ht] at hacc
  obtain ⟨hp, hty⟩ := hacc
  refine ⟨by rw [hty], hty, ?_⟩
  rw [Allocation.read, hty, hp, ← hbuf, List.take_left]
  exact slice_zero_of_length _ _ rfl

theorem exLoadU32_exAddU32 (o : OStream) (v : Nat) (rest : List Byte) (hv : v < 2 ^ 32) :
    exLoadU32 ⟨(exAddU32 o v).mData ++ rest, o.mData.length⟩ =
      (v, ⟨(exAddU32 o v).mData ++ rest, (exAddU32 o v).mData.length⟩) := by
  simp only [exLoadU32, exAddU32, List.append_assoc, List.drop_left, List.cons_append,
    List.nil_append, List.length_append, List.length_cons, List.length_nil, byteOf]
  congr 1
  omega

theorem exLoadString_exAddString (o : OStream) (s rest : List Byte) (hs : s.length < 2 ^ 32) :
    exLoadString ⟨(exAddString o s).mData ++ rest, o.mData.length⟩ =
      (s, ⟨(exAddString o s).mData ++ rest, (exAddString o s).mData.length⟩) := by
  have h := exLoadU32_exAddU32 o s.length (s ++ rest) hs
  have hd : (exAddString o s).mData ++ rest = (exAddU32 o s.length).mData ++ (s ++ rest) := by
    simp [exAddString, exAddByteArray]
  have hl : (exAddString o s).mData.length = (exAddU32 o s.length).mData.length + s.length := by
    simp [exAddString, exAddByteArray]
  rw [hd, hl]
  simp only [exLoadString, h]
  congr 1
  simp [slice, List.drop_left]

theorem exTypeCreateFromStream_exTypeSerialize (o : OStream) (rest : List Byte) :
    exTypeCreateFromStream ⟨(exTypeSerialize exType4x4 o).mData ++ rest, o.mData.length⟩ =
      (some { exType4x4 with mTotalSizeBytes := 0 },
        ⟨(exTypeSerialize exType4x4 o).mData ++ rest,
          (exTypeSerialize exType4x4 o).mData.length⟩) := by
  have e1 := exLoadU32_exAddU32 o 1
    ((exAddU32 ⟨[]⟩ 4).mData ++ ((exAddU32 ⟨[]⟩ 4).mData ++ rest)) (by decide)
  have e2 := exLoadU32_exAddU32 (exAddU32 o 1) 4 ((exAddU32 ⟨[]⟩ 4).mData ++ rest) (by decide)
  have e3 := exLoadU32_exAddU32 (exAddU32 (exAddU32 o 1) 4) 4 rest (by decide)
  simp only [exAddU32, List.append_assoc, List.nil_append] at e1 e2 e3
  simp only [exTypeCreateFromStream, exTypeSerialize, exType4x4, RsType.getElementSizeBytes,
    Element.getSizeBytes, exAddU32, List.append_assoc, e1, e2, e3]
  simp

theorem exStreamOps_roundTrips : exStreamOps.RoundTrips exType4x4 where
  addU32_appends o v := ⟨_, rfl⟩
  loadU32_addU32 := exLoadU32_exAddU32
  addString_appends o s := ⟨_, by simp [exStreamOps, exAddString, exAddByteArray, exAddU32]; rfl⟩
  loadString_addString := exLoadString_exAddString
  typeSerialize_appends o := ⟨_, by
    simp [exStreamOps, exTypeSerialize, exAddU32]; rfl⟩
  typeCreateFromStream_typeSerialize o rest :=
    ⟨{ exType4x4 with mTotalSizeBytes := 0 }, exTypeCreateFromStream_exTypeSerialize o rest, rfl⟩
  addByteArray_appends o bs := rfl

theorem createFromStream_serialize_witness :
    ∃ b, (Allocation.createFromStream exStreamOps exHeap
            ⟨(exAlloc4x4.serialize exStreamOps ⟨[]⟩).mData ++ [], (⟨[]⟩ : OStream).mData.length⟩).1
          = some b ∧
      b.mType.getSizeBytes = exAlloc4x4.mType.getSizeBytes ∧ b.mType = exAlloc4x4.mType ∧
      b.read = exAlloc4x4.mPtr :=
  createFromStream_serialize exStreamOps exHeap exAlloc4x4 ⟨[]⟩ [] exStreamOps_roundTrips
    (by decide) (by decide) (by decide) (by decide)

theorem eval_createFromStream_serialize : (Allocation.createFromStream exStreamOps exHeap
    ⟨(exAlloc4x4.serialize exStreamOps ⟨[]⟩).mData, 0⟩).1
    = some { exAlloc4x4 with mUsageFlags := 1, mUploadDefered := true } := by decide

/-- C10: `createFromStream` returns `NULL` (`none`) whenever the leading `u32` differs from
the Allocation class tag, or the Type loader returns no Type, or the `u32` byte count read
after the Type differs from `getSizeBytes()` of the loaded (and computed) Type; and on
each of these paths the only calls made are the error log and the release of the loaded
Type: no `malloc` (no Allocation is constructed), and no `memcpy`, `incRefs`, `decRefs`
or `forceDirty` (no `data` is performed). -/
theorem createFromStream_rejects (ops : StreamOps) (heap : Nat → Byte) (stream : IStream)
    (h : (ops.loadU32 stream).1 ≠ ops.RS_A3D_CLASS_ID_ALLOCATION ∨
      (ops.typeCreateFromStream (ops.loadString (ops.loadU32 stream).2).2).1 = none ∨
      ∃ t, (ops.typeCreateFromStream (ops.loadString (ops.loadU32 stream).2).2).1 = some t ∧
        (ops.loadU32 (ops.typeCreateFromStream (ops.loadString (ops.loadU32 stream).2).2).2).1
          ≠ (ops.typeCompute t).getSizeBytes) :
    (Allocation.createFromStream ops heap stream).1 = none ∧
    ∀ ev ∈ (Allocation.createFromStream ops heap stream).2.2, ev.isLoadFailureCall = true := by
  by_cases htag : (ops.loadU32 stream).1 ≠ ops.RS_A3D_CLASS_ID_ALLOCATION
  · simp [Allocation.createFromStream, htag, Event.isLoadFailureCall]
  · rcases hp : ops.typeCreateFromStream (ops.loadString (ops.loadU32 stream).2).2
      with ⟨_ | t, s1⟩
    · simp [Allocation.createFromStream, htag, hp]
    · rw [hp] at h
      have hcount : (ops.loadU32 s1).1 ≠ (ops.typeCompute t).getSizeBytes := by
        rcases h with h | h | ⟨t1, h1, h2⟩
        · exact absurd h htag
        · simp at h
        · simp only [Option.some.injEq] at h1
          rw [h1]
          exact h2
      simp [Allocation.createFromStream, htag, hp, hcount, Event.isLoadFailureCall]

theorem createFromStream_rejects_witness :
    ((Allocation.createFromStream exStreamOps exHeap exStreamWrongTag).1 = none ∧
      ∀ ev ∈ (Allocation.createFromStream exStreamOps exHeap exStreamWrongTag).2.2,
        ev.isLoadFailureCall = true) ∧
    ((Allocation.createFromStream exStreamOps exHeap exStreamBadType).1 = none ∧
      ∀ ev ∈ (Allocation.createFromStream exStreamOps exHeap exStreamBadType).2.2,
        ev.isLoadFailureCall = true) ∧
    ((Allocation.createFromStream exStreamOps exHeap exStreamBadCount).1 = none ∧
      ∀ ev ∈ (Allocation.createFromStream exStreamOps exHeap exStreamBadCount).2.2,
        ev.isLoadFailureCall = true) :=
  ⟨createFromStream_rejects exStreamOps exHeap exStreamWrongTag (Or.inl (by decide)),
   createFromStream_rejects exStreamOps exHeap exStreamBadType (Or.inr (Or.inl (by decide))),
   createFromStream_rejects exStreamOps exHeap exStreamBadCount
     (Or.inr (Or.inr ⟨{ exType4x4 with mTotalSizeBytes := 0 }, by decide, by decide⟩))⟩

theorem eval_createFromStream_badCount :
    Allocation.createFromStream exStreamOps exHeap exStreamBadCount
    = (none, ⟨exStreamBadCount.mData, 25⟩, [Event.logE, Event.checkDelete]) := by decide
theorem eval_createFromStream_badType :
    Allocation.createFromStream exStreamOps exHeap exStreamBadType
    = (none, ⟨exStreamBadType.mData, 21⟩, []) := by decide
theorem eval_createFromStream_wrongTag :
    Allocation.createFromStream exStreamOps exHeap exStreamWrongTag
    = (none, ⟨exStreamWrongTag.mData, 4⟩, [Event.logE]) := by decide

/-! ## Dependents: `addProgramToDirty` / `removeProgramToDirty` -/

theorem removeProgramToDirtyLoop_eq (p : Nat) (suf pre : List Nat) (hpre : p ∉ pre) :
    removeProgramToDirtyLoop (pre ++ suf) p suf.length pre.length =
      if p ∈ suf then some (pre ++ suf.erase p) else none := by
  induction suf generalizing pre with
  | nil => simp [removeProgramToDirtyLoop]
  | cons x xs ih =>
    simp only [List.length_cons, removeProgramToDirtyLoop]
    have hget : (pre ++ x :: xs)[pre.length]? = some x := by
      rw [List.getElem?_append_right (Nat.le_refl _)]
      simp
    rw [hget]
    by_cases hx : x = p
    · subst hx
      simp [List.eraseIdx_append_of_length_le]
    · have hx1 : ¬ (some x = some p) := by simpa using hx
      have hx2 : p ∉ pre ++ [x] := by
        simp only [List.mem_append, List.mem_singleton, not_or]
        exact ⟨hpre, fun h => hx h.symm⟩
      have := ih (pre ++ [x]) hx2
      simp only [List.append_assoc, List.singleton_append, List.length_append,
        List.length_singleton] at this
      rw [if_neg hx1, this]
      have hx3 : ¬ (p = x) := fun h => hx h.symm
      have hx4 : (x == p) = false := by simpa using hx
      simp [hx3, List.erase_cons, hx4]

theorem removeProgramToDirtyLoop_all (l : List Nat) (p : Nat) :
    removeProgramToDirtyLoop l p l.length 0 = if p ∈ l then some (l.erase p) else none := by
  simpa using removeProgramToDirtyLoop_eq p l [] (by simp)

/-- C20: for every registry `L = mToDirtyList` and consumer `p`: when `p` occurs in `L`,
`removeProgramToDirty(p)` removes exactly its first occurrence (`L = l1 ++ p :: l2` with
`p` not in `l1` becomes `l1 ++ l2`) and makes no call, so the assertion is not reached;
when `p` does not occur in `L`, the Allocation is returned unchanged and the only call
is the failed `rsAssert(0)`; and `addProgramToDirty(p)` followed by
`removeProgramToDirty(p)` on a registry without `p` gives the Allocation back. -/
theorem removeProgramToDirty_spec (a : Allocation) (p : Nat) :
    (p ∈ a.mToDirtyList → ∃ l1 l2, a.mToDirtyList = l1 ++ p :: l2 ∧ p ∉ l1 ∧
      a.removeProgramToDirty p = ({ a with mToDirtyList := l1 ++ l2 }, [])) ∧
    (p ∉ a.mToDirtyList → a.removeProgramToDirty p = (a, [Event.rsAssertFailed])) ∧
    (p ∉ a.mToDirtyList → (a.addProgramToDirty p).removeProgramToDirty p = (a, [])) := by
  refine ⟨?_, ?_, ?_⟩
  · intro h
    obtain ⟨l1, l2, h1, h2, h3⟩ := List.exists_erase_eq h
    refine ⟨l1, l2, h2, h1, ?_⟩
    simp only [Allocation.removeProgramToDirty, removeProgramToDirtyLoop_all, h, if_true, h3]
  · intro h
    simp only [Allocation.removeProgramToDirty, removeProgramToDirtyLoop_all, h, if_false]
  · intro h
    have h1 : p ∈ a.mToDirtyList ++ [p] := by simp
    have h2 : (a.mToDirtyList ++ [p]).erase p = a.mToDirtyList := by
      rw [List.erase_append_right _ h]
      simp
    simp only [Allocation.removeProgramToDirty, Allocation.addProgramToDirty,
      removeProgramToDirtyLoop_all, h1, if_true, h2]

theorem removeProgramToDirty_spec_witness :
    (∃ l1 l2, ({ exAlloc1D with mToDirtyList := [7, 9, 7] } : Allocation).mToDirtyList
        = l1 ++ 9 :: l2 ∧ 9 ∉ l1 ∧
      ({ exAlloc1D with mToDirtyList := [7, 9, 7] } : Allocation).removeProgramToDirty 9 =
        ({ ({ exAlloc1D with mToDirtyList := [7, 9, 7] } : Allocation) with
            mToDirtyList := l1 ++ l2 }, [])) ∧
    exAlloc1D.removeProgramToDirty 5 = (exAlloc1D, [Event.rsAssertFailed]) ∧
    (exAlloc1D.addProgramToDirty 5).removeProgramToDirty 5 = (exAlloc1D, []) :=
  ⟨(removeProgramToDirty_spec { exAlloc1D with mToDirtyList := [7, 9, 7] } 9).1 (by decide),
   (removeProgramToDirty_spec exAlloc1D 5).2.1 (by decide),
   (removeProgramToDirty_spec exAlloc1D 5).2.2 (by decide)⟩

theorem eval_removeProgramToDirty :
    (({ exAlloc1D with mToDirtyList := [7, 9, 7] } : Allocation).removeProgramToDirty 7).1.mToDirtyList
      = [9, 7] := by
  decide

/-! ## Reference counts of the 1D `subData` -/

theorem incRefsLoop_eq_map (e : Element) (mem : List Byte) (ct p : Nat) :
    incRefsLoop e mem ct p = (List.range ct).map fun k =>
      Event.incRefs none (p + k * u32 e.getSizeBytes)
        (slice mem (p + k * u32 e.getSizeBytes) e.getSizeBytes) := by
  induction ct generalizing p with
  | zero => rfl
  | succ ct ih =>
    rw [incRefsLoop, ih, List.range_succ_eq_map, List.map_cons, List.map_map]
    simp only [Nat.zero_mul, Nat.add_zero, List.cons.injEq, true_and]
    apply List.map_congr_left
    intro k _
    simp only [Function.comp, Nat.succ_eq_add_one]
    have : p + u32 e.getSizeBytes + k * u32 e.getSizeBytes = p + (k + 1) * u32 e.getSizeBytes := by
      rw [Nat.add_mul, Nat.one_mul]; omega
    rw [this]

/-- C13: on an Allocation whose element carries references (element size `e`, `dimX * e`
within `uint32_t`), an accepted `subData(offset, count, data, count * e)` with
`offset + count ≤ dimX` makes, in this order: one `incRefs` for each of the `count`
elements of `data` (element `k` at offset `k * e` of `data`), one `decRefs` for each of the
buffer elements `offset, .., offset + count - 1` (at offset `(offset + k) * e`, on the bytes
the buffer holds there before the copy), the `memcpy`, and the `forceDirty` calls.  So each
of these elements is counted exactly once and no buffer element outside
`[offset, offset + count)` is touched. -/
theorem subData_refcounts (a : Allocation) (offset count : Nat) (data : List Byte)
    (href : a.mType.getElement.getHasReferences = true)
    (hrange : offset + count ≤ a.mType.getDimX)
    (h32 : a.mType.getDimX * a.mType.getElementSizeBytes < 2 ^ 32) :
    (a.subData offset count data (count * a.mType.getElementSizeBytes)).2 =
      ((List.range count).map fun k =>
        Event.incRefs none (k * a.mType.getElementSizeBytes)
          (slice data (k * a.mType.getElementSizeBytes) a.mType.getElementSizeBytes)) ++
      ((List.range count).map fun k =>
        Event.decRefs none ((offset + k) * a.mType.getElementSizeBytes)
          (slice a.mPtr ((offset + k) * a.mType.getElementSizeBytes)
            a.mType.getElementSizeBytes)) ++
      [Event.memcpy (offset * a.mType.getElementSizeBytes) 0
        (count * a.mType.getElementSizeBytes)] ++
      a.mToDirtyList.map Event.forceDirty := by
  have hee : a.mType.getElement.getSizeBytes = a.mType.getElementSizeBytes := rfl
  generalize he : a.mType.getElementSizeBytes = e at *
  have hle := Nat.mul_le_mul_right e hrange
  rw [Nat.add_mul] at hle
  have hc : u32 (count * e) = count * e := u32_of_lt (by omega)
  have ho : u32 (e * offset) = offset * e := by
    rw [Nat.mul_comm]; exact u32_of_lt (by omega)
  rcases Nat.eq_zero_or_pos count with h0 | h0
  · subst h0
    have hz : u32 0 = 0 := rfl
    simp [Allocation.subData, he, ho, hz, href, Allocation.incRefs, Allocation.decRefs,
      incRefsLoop, decRefsLoop, Allocation.sendDirty]
  · have he1 : e ≤ count * e := Nat.le_mul_of_pos_left e h0
    have hs : u32 e = e := u32_of_lt (by omega)
    simp only [Allocation.subData, he, hc, ho, ne_eq, not_true_eq_false, if_false, href,
      if_true, Allocation.incRefs, Allocation.decRefs, incRefsLoop_eq_map,
      decRefsLoop_eq_map, hee, hs, Nat.mul_zero, Nat.add_zero, Nat.zero_add,
      Allocation.sendDirty]
    congr 3
    apply List.map_congr_left
    intro k _
    have : offset * e + k * e = (offset + k) * e := by rw [Nat.add_mul]
    rw [this]

theorem subData_refcounts_witness :
    (exRefAlloc1D.subData 2 2 [21, 22, 23, 24] (2 * exRefAlloc1D.mType.getElementSizeBytes)).2 =
      ((List.range 2).map fun k =>
        Event.incRefs none (k * exRefAlloc1D.mType.getElementSizeBytes)
          (slice [21, 22, 23, 24] (k * exRefAlloc1D.mType.getElementSizeBytes)
            exRefAlloc1D.mType.getElementSizeBytes)) ++
      ((List.range 2).map fun k =>
        Event.decRefs none ((2 + k) * exRefAlloc1D.mType.getElementSizeBytes)
          (slice exRefAlloc1D.mPtr ((2 + k) * exRefAlloc1D.mType.getElementSizeBytes)
            exRefAlloc1D.mType.getElementSizeBytes)) ++
      [Event.memcpy (2 * exRefAlloc1D.mType.getElementSizeBytes) 0
        (2 * exRefAlloc1D.mType.getElementSizeBytes)] ++
      exRefAlloc1D.mToDirtyList.map Event.forceDirty :=
  subData_refcounts exRefAlloc1D 2 2 [21, 22, 23, 24] (by decide) (by decide) (by decide)

theorem eval_subData_refcounts :
    (exRefAlloc1D.subData 2 2 [21, 22, 23, 24] 4).2 =
      [Event.incRefs none 0 [21, 22], Event.incRefs none 2 [23, 24],
       Event.decRefs none 4 [5, 6], Event.decRefs none 6 [7, 8], Event.memcpy 4 0 4] := by
  decide

/-! ## Scheduling and performing the upload -/

/-- C16: `deferedUploadToTexture` and `deferedUploadToBufferObject` only schedule.
Afterwards `mUsageFlags` is the former value with the GPU-texture bit (resp. the
GPU-vertex-buffer bit) or-ed in, `mUploadDefered` is true, and the buffer, the Type,
`mTextureID`, `mBufferID` and the registry of dependents are what they were; no call
into the GPU backend is made (the only call possible is the failed
`rsAssert(lodOffset < getLODCount())`). -/
theorem deferedUpload_only_schedules (gl : GLEnv) (a : Allocation) (genMipmap : Bool)
    (lodOffset : Nat) :
    ((a.deferedUploadToTexture gl genMipmap lodOffset).1.mUsageFlags =
        a.mUsageFlags ||| gl.RS_ALLOCATION_USAGE_GRAPHICS_TEXTURE ∧
      (a.deferedUploadToTexture gl genMipmap lodOffset).1.mUploadDefered = true ∧
      (a.deferedUploadToTexture gl genMipmap lodOffset).1.mPtr = a.mPtr ∧
      (a.deferedUploadToTexture gl genMipmap lodOffset).1.mType = a.mType ∧
      (a.deferedUploadToTexture gl genMipmap lodOffset).1.mTextureID = a.mTextureID ∧
      (a.deferedUploadToTexture gl genMipmap lodOffset).1.mBufferID = a.mBufferID ∧
      (a.deferedUploadToTexture gl genMipmap lodOffset).1.mToDirtyList = a.mToDirtyList ∧
      ∀ ev ∈ (a.deferedUploadToTexture gl genMipmap lodOffset).2, ev.isGLCall = false) ∧
    ((a.deferedUploadToBufferObject gl).1.mUsageFlags =
        a.mUsageFlags ||| gl.RS_ALLOCATION_USAGE_GRAPHICS_VERTEX ∧
      (a.deferedUploadToBufferObject gl).1.mUploadDefered = true ∧
      (a.deferedUploadToBufferObject gl).1.mPtr = a.mPtr ∧
      (a.deferedUploadToBufferObject gl).1.mType = a.mType ∧
      (a.deferedUploadToBufferObject gl).1.mTextureID = a.mTextureID ∧
      (a.deferedUploadToBufferObject gl).1.mBufferID = a.mBufferID ∧
      (a.deferedUploadToBufferObject gl).1.mToDirtyList = a.mToDirtyList ∧
      (a.deferedUploadToBufferObject gl).2 = []) := by
  refine ⟨⟨rfl, rfl, rfl, rfl, rfl, rfl, rfl, ?_⟩, rfl, rfl, rfl, rfl, rfl, rfl, rfl, rfl⟩
  intro ev hev
  simp only [Allocation.deferedUploadToTexture] at hev
  split at hev
  · simp at hev
  · simp only [List.mem_singleton] at hev
    subst hev
    rfl

/-- C11: when the driver hands out no name (`glGenTextures`/`glGenBuffers` leave the
handle `0`), `uploadToTexture`/`uploadToBufferObject` log, set `mUploadDefered = true`
and return, but `syncAll` then runs on to its last statement `mUploadDefered = false`.
On a pending texture Allocation and on a pending vertex-buffer Allocation, `uploadCheck`
with such a driver returns with `mUploadDefered = false` and no transfer made; a
following `uploadCheck`, now with a driver that hands out names, does nothing. -/
theorem uploadCheck_after_failed_handle_creation :
    exTexAlloc.mUploadDefered = true ∧
    exTexAlloc.uploadCheck (exGL 0 0) =
      ({ exTexAlloc with mUploadDefered := false },
        [Event.glGenTextures, Event.logE, Event.dumpDebug]) ∧
    (exTexAlloc.uploadCheck (exGL 0 0)).1.uploadCheck (exGL 7 7) =
      ({ exTexAlloc with mUploadDefered := false }, []) ∧
    exVertexAlloc.mUploadDefered = true ∧
    exVertexAlloc.uploadCheck (exGL 0 0) =
      ({ exVertexAlloc with mUploadDefered := false }, [Event.glGenBuffers, Event.logE]) ∧
    (exVertexAlloc.uploadCheck (exGL 0 0)).1.uploadCheck (exGL 7 7) =
      ({ exVertexAlloc with mUploadDefered := false }, []) := by
  decide

theorem syncAll_mUploadDefered (gl : GLEnv) (a : Allocation) (src : Nat) :
    (a.syncAll gl src).1.mUploadDefered = false := rfl

theorem or_and_disjoint (x t v : Nat) (h : t &&& v = 0) : (x ||| t) &&& v = x &&& v := by
  apply Nat.eq_of_testBit_eq
  intro i
  have := congrArg (fun n => n.testBit i) h
  simp only [Nat.testBit_and, Nat.zero_testBit] at this
  simp only [Nat.testBit_and, Nat.testBit_or]
  cases hx : x.testBit i <;> cases ht : t.testBit i <;> cases hv : v.testBit i <;> simp_all

theorem or_and_self (x t : Nat) : (x ||| t) &&& t = t := by
  apply Nat.eq_of_testBit_eq
  intro i
  simp only [Nat.testBit_and, Nat.testBit_or]
  cases x.testBit i <;> cases t.testBit i <;> rfl

theorem filter_isTransfer_upload2DTexture (gl : GLEnv) (a : Allocation) (b : Bool) :
    (a.upload2DTexture gl b).filter Event.isTransfer = a.upload2DTexture gl b := by
  rw [List.filter_eq_self]
  intro ev hev
  simp only [Allocation.upload2DTexture, List.mem_map] at hev
  obtain ⟨lod, _, rfl⟩ := hev
  cases b <;> rfl

theorem filter_isTransfer_uploadCubeTexture (gl : GLEnv) (a : Allocation) (b : Bool) :
    (a.uploadCubeTexture gl b).filter Event.isTransfer = a.uploadCubeTexture gl b := by
  rw [List.filter_eq_self]
  intro ev hev
  simp only [Allocation.uploadCubeTexture, List.mem_flatten, List.mem_map] at hev
  obtain ⟨l, ⟨face, _, rfl⟩, hev⟩ := hev
  simp only [List.mem_map] at hev
  obtain ⟨lod, _, rfl⟩ := hev
  cases b <;> rfl

theorem uploadToTexture_transfers (gl : GLEnv) (a : Allocation)
    (hgenT : gl.glGenTextures ≠ 0) (htargets : gl.GL_TEXTURE_2D ≠ gl.GL_TEXTURE_CUBE_MAP)
    (htex : a.getIsTexture gl = true) :
    (a.uploadToTexture gl).1.mUsageFlags =
        a.mUsageFlags ||| gl.RS_ALLOCATION_USAGE_GRAPHICS_TEXTURE ∧
    (a.uploadToTexture gl).1.mBufferID = a.mBufferID ∧
    (a.uploadToTexture gl).1.mPtr = a.mPtr ∧
    (a.uploadToTexture gl).1.mType = a.mType ∧
    (a.uploadToTexture gl).2.filter Event.isTransfer =
      if gl.getGLType a.mType.getElement ≠ 0 ∧ gl.getGLFormat a.mType.getElement ≠ 0 then
        if a.mType.getDimFaces = true then a.uploadCubeTexture gl (decide (a.mTextureID = 0))
        else a.upload2DTexture gl (decide (a.mTextureID = 0))
      else [] := by
  have hT : gl.RS_ALLOCATION_USAGE_GRAPHICS_TEXTURE ≠ 0 := by
    intro h0
    simp [Allocation.getIsTexture, h0] at htex
  have htex2 : ({ a with mUsageFlags :=
      a.mUsageFlags ||| gl.RS_ALLOCATION_USAGE_GRAPHICS_TEXTURE } : Allocation).getIsTexture gl
      = true := by
    simp [Allocation.getIsTexture, or_and_self, hT]
  have hfilt : ∀ (b : Bool) (a2 : Allocation), a2.mType = a.mType → a2.mTextureLOD = a.mTextureLOD →
      a2.getIsTexture gl = true →
      (a2.uploadToTextureBody gl b).filter Event.isTransfer =
        if a.mType.getDimFaces = true then a.uploadCubeTexture gl b
        else a.upload2DTexture gl b := by
    intro b a2 h1 h2 h3
    have e2 : a2.upload2DTexture gl b = a.upload2DTexture gl b := by
      simp only [Allocation.upload2DTexture, h1, h2]
    have ec : a2.uploadCubeTexture gl b = a.uploadCubeTexture gl b := by
      simp only [Allocation.uploadCubeTexture, h1, h2]
    simp only [Allocation.uploadToTextureBody, Allocation.getGLTarget, h3, if_true, h1]
    by_cases hf : a.mType.getDimFaces = true
    · simp only [hf, if_true, if_neg (Ne.symm htargets), List.filter_append, ec,
        filter_isTransfer_uploadCubeTexture]
      cases a2.mTextureGenMipmap <;> simp [List.filter, Event.isTransfer]
    · simp only [hf, if_false, if_true, List.filter_append, e2,
        filter_isTransfer_upload2DTexture, Bool.false_eq_true]
      cases a2.mTextureGenMipmap <;> simp [List.filter, Event.isTransfer]
  unfold Allocation.uploadToTexture
  by_cases hty : gl.getGLType a.mType.getElement = 0 ∨ gl.getGLFormat a.mType.getElement = 0
  · have hn : ¬ (gl.getGLType a.mType.getElement ≠ 0 ∧ gl.getGLFormat a.mType.getElement ≠ 0) := by
      intro h
      rcases hty with h0 | h0
      · exact h.1 h0
      · exact h.2 h0
    simp only [hty, if_true, if_neg hn]
    exact ⟨trivial, trivial, trivial, trivial, rfl⟩
  · have hp : gl.getGLType a.mType.getElement ≠ 0 ∧ gl.getGLFormat a.mType.getElement ≠ 0 := by
      constructor
      · exact fun h => hty (Or.inl h)
      · exact fun h => hty (Or.inr h)
    simp only [hty, if_false, if_pos hp]
    by_cases hid : a.mTextureID = 0
    · simp only [hid, if_true, hgenT, if_false, decide_True]
      refine ⟨trivial, trivial, trivial, trivial, ?_⟩
      rw [List.filter_cons]
      simp only [Event.isTransfer, Bool.false_eq_true, if_false]
      exact hfilt true _ rfl rfl (by simpa [Allocation.getIsTexture] using htex2)
    · simp only [hid, if_false, decide_False]
      refine ⟨trivial, trivial, trivial, trivial, ?_⟩
      exact hfilt false _ rfl rfl htex2
theorem uploadToBufferObject_transfers (gl : GLEnv) (a : Allocation)
    (hgenB : gl.glGenBuffers ≠ 0) :
    (a.uploadToBufferObject gl).1.mPtr = a.mPtr ∧
    (a.uploadToBufferObject gl).1.mType = a.mType ∧
    (a.uploadToBufferObject gl).2.filter Event.isTransfer =
      [Event.glBufferData
        (({ a with mUsageFlags := a.mUsageFlags ||| gl.RS_ALLOCATION_USAGE_GRAPHICS_VERTEX } :
          Allocation).getGLTarget gl)
        a.mType.getSizeBytes (slice a.mPtr 0 a.mType.getSizeBytes)] := by
  unfold Allocation.uploadToBufferObject
  by_cases h0 : a.mBufferID = 0
  · simp only [h0, if_true, hgenB, if_false]
    refine ⟨trivial, trivial, ?_⟩
    by_cases hy : a.mType.getDimY = 0 <;> by_cases hz : a.mType.getDimZ = 0 <;>
      simp [hy, hz, List.filter, Event.isTransfer, Allocation.getGLTarget,
        Allocation.getIsTexture, Allocation.getIsBufferObject]
  · simp only [h0, if_false]
    refine ⟨trivial, trivial, ?_⟩
    by_cases hy : a.mType.getDimY = 0 <;> by_cases hz : a.mType.getDimZ = 0 <;>
      simp [hy, hz, List.filter, Event.isTransfer, Allocation.getGLTarget,
        Allocation.getIsTexture, Allocation.getIsBufferObject]

/-- C12: for every Allocation with `mUploadDefered` set, a driver that hands out texture and
buffer names, distinct usage bits for texture and vertex buffer and distinct texture
targets.  The second of two consecutive `uploadCheck` calls (with any driver) makes no call
at all and returns the Allocation state unchanged.  The first call leaves `mUploadDefered`
false and the buffer and Type as they were; with neither GPU usage bit it makes no call
and changes nothing but the flag; its transfers, in call order, are: if the texture bit
is set and the element's component has a GL type and a GL format, one image upload per
level of detail `lod` with `lod + mTextureLOD < getLODCount()` (`glTexImage2D` when the
texture name is new, `glTexSubImage2D` otherwise), for each of the six faces in turn on a
cube map, with the dimensions and the address the adapter gives for that face and level;
then, if the vertex-buffer bit is set, one `glBufferData` of the `getSizeBytes()` bytes of
the buffer. -/
theorem uploadCheck_twice (gl gl2 : GLEnv) (a : Allocation)
    (hpending : a.mUploadDefered = true)
    (hgenT : gl.glGenTextures ≠ 0) (hgenB : gl.glGenBuffers ≠ 0)
    (hbits : gl.RS_ALLOCATION_USAGE_GRAPHICS_TEXTURE &&& gl.RS_ALLOCATION_USAGE_GRAPHICS_VERTEX
      = 0)
    (htargets : gl.GL_TEXTURE_2D ≠ gl.GL_TEXTURE_CUBE_MAP) :
    (a.uploadCheck gl).1.uploadCheck gl2 = ((a.uploadCheck gl).1, []) ∧
    (a.uploadCheck gl).1.mUploadDefered = false ∧
    (a.uploadCheck gl).1.mPtr = a.mPtr ∧
    (a.uploadCheck gl).1.mType = a.mType ∧
    (a.getIsTexture gl = false → a.getIsBufferObject gl = false →
      a.uploadCheck gl = ({ a with mUploadDefered := false }, [])) ∧
    ∃ target, (a.uploadCheck gl).2.filter Event.isTransfer =
      (if a.getIsTexture gl = true ∧ gl.getGLType a.mType.getElement ≠ 0 ∧
          gl.getGLFormat a.mType.getElement ≠ 0 then
        if a.mType.getDimFaces = true then
          ((List.range 6).map fun face =>
            (List.range (a.mType.getLODCount - a.mTextureLOD)).map fun lod =>
              if a.mTextureID = 0 then
                Event.glTexImage2D (gl.faceOrder.getD face 0) lod
                  (gl.getGLFormat a.mType.getElement)
                  (gl.adapter a.mType face (lod + a.mTextureLOD)).getDimX
                  (gl.adapter a.mType face (lod + a.mTextureLOD)).getDimY
                  (gl.getGLType a.mType.getElement)
                  ((gl.adapter a.mType face (lod + a.mTextureLOD)).getElement 0 0)
              else
                Event.glTexSubImage2D (gl.faceOrder.getD face 0) lod
                  (gl.adapter a.mType face (lod + a.mTextureLOD)).getDimX
                  (gl.adapter a.mType face (lod + a.mTextureLOD)).getDimY
                  (gl.getGLFormat a.mType.getElement) (gl.getGLType a.mType.getElement)
                  ((gl.adapter a.mType face (lod + a.mTextureLOD)).getElement 0 0)).flatten
        else
          (List.range (a.mType.getLODCount - a.mTextureLOD)).map fun lod =>
            if a.mTextureID = 0 then
              Event.glTexImage2D gl.GL_TEXTURE_2D lod (gl.getGLFormat a.mType.getElement)
                (gl.adapter a.mType 0 (lod + a.mTextureLOD)).getDimX
                (gl.adapter a.mType 0 (lod + a.mTextureLOD)).getDimY
                (gl.getGLType a.mType.getElement)
                ((gl.adapter a.mType 0 (lod + a.mTextureLOD)).getElement 0 0)
            else
              Event.glTexSubImage2D gl.GL_TEXTURE_2D lod
                (gl.adapter a.mType 0 (lod + a.mTextureLOD)).getDimX
                (gl.adapter a.mType 0 (lod + a.mTextureLOD)).getDimY
                (gl.getGLFormat a.mType.getElement) (gl.getGLType a.mType.getElement)
                ((gl.adapter a.mType 0 (lod + a.mTextureLOD)).getElement 0 0)
      else []) ++
      (if a.getIsBufferObject gl = true then
        [Event.glBufferData target a.mType.getSizeBytes (slice a.mPtr 0 a.mType.getSizeBytes)]
      else []) := by
  have h1 : a.uploadCheck gl = a.syncAll gl gl.RS_ALLOCATION_USAGE_SCRIPT := by
    simp [Allocation.uploadCheck, hpending]
  have e2 : a.upload2DTexture gl (decide (a.mTextureID = 0)) =
      (List.range (a.mType.getLODCount - a.mTextureLOD)).map fun lod =>
        if a.mTextureID = 0 then
          Event.glTexImage2D gl.GL_TEXTURE_2D lod (gl.getGLFormat a.mType.getElement)
            (gl.adapter a.mType 0 (lod + a.mTextureLOD)).getDimX
            (gl.adapter a.mType 0 (lod + a.mTextureLOD)).getDimY
            (gl.getGLType a.mType.getElement)
            ((gl.adapter a.mType 0 (lod + a.mTextureLOD)).getElement 0 0)
        else
          Event.glTexSubImage2D gl.GL_TEXTURE_2D lod
            (gl.adapter a.mType 0 (lod + a.mTextureLOD)).getDimX
            (gl.adapter a.mType 0 (lod + a.mTextureLOD)).getDimY
            (gl.getGLFormat a.mType.getElement) (gl.getGLType a.mType.getElement)
            ((gl.adapter a.mType 0 (lod + a.mTextureLOD)).getElement 0 0) := by
    simp only [Allocation.upload2DTexture, decide_eq_true_eq]
  have ec : a.uploadCubeTexture gl (decide (a.mTextureID = 0)) =
      ((List.range 6).map fun face =>
        (List.range (a.mType.getLODCount - a.mTextureLOD)).map fun lod =>
          if a.mTextureID = 0 then
            Event.glTexImage2D (gl.faceOrder.getD face 0) lod
              (gl.getGLFormat a.mType.getElement)
              (gl.adapter a.mType face (lod + a.mTextureLOD)).getDimX
              (gl.adapter a.mType face (lod + a.mTextureLOD)).getDimY
              (gl.getGLType a.mType.getElement)
              ((gl.adapter a.mType face (lod + a.mTextureLOD)).getElement 0 0)
          else
            Event.glTexSubImage2D (gl.faceOrder.getD face 0) lod
              (gl.adapter a.mType face (lod + a.mTextureLOD)).getDimX
              (gl.adapter a.mType face (lod + a.mTextureLOD)).getDimY
              (gl.getGLFormat a.mType.getElement) (gl.getGLType a.mType.getElement)
              ((gl.adapter a.mType face (lod + a.mTextureLOD)).getElement 0 0)).flatten := by
    simp only [Allocation.uploadCubeTexture, decide_eq_true_eq]
  rw [← e2, ← ec]
  refine ⟨?_, ?_, ?_, ?_, ?_, ?_⟩
  · rw [h1]
    simp [Allocation.uploadCheck, syncAll_mUploadDefered]
  · rw [h1]
    rfl
  · rw [h1]
    simp only [Allocation.syncAll]
    by_cases htex : a.getIsTexture gl = true
    · obtain ⟨hf, _, hp, _, _⟩ := uploadToTexture_transfers gl a hgenT htargets htex
      by_cases hb : (a.uploadToTexture gl).1.getIsBufferObject gl = true
      · simp only [htex, if_true, hb]
        rw [(uploadToBufferObject_transfers gl _ hgenB).1, hp]
      · simp only [htex, if_true, hb, Bool.false_eq_true, if_false]
        exact hp
    · by_cases hb : a.getIsBufferObject gl = true
      · simp only [htex, Bool.false_eq_true, if_false, hb, if_true]
        exact (uploadToBufferObject_transfers gl _ hgenB).1
      · simp only [htex, Bool.false_eq_true, if_false, hb]
  · rw [h1]
    simp only [Allocation.syncAll]
    by_cases htex : a.getIsTexture gl = true
    · obtain ⟨hf, _, _, hp, _⟩ := uploadToTexture_transfers gl a hgenT htargets htex
      by_cases hb : (a.uploadToTexture gl).1.getIsBufferObject gl = true
      · simp only [htex, if_true, hb]
        rw [(uploadToBufferObject_transfers gl _ hgenB).2.1, hp]
      · simp only [htex, if_true, hb, Bool.false_eq_true, if_false]
        exact hp
    · by_cases hb : a.getIsBufferObject gl = true
      · simp only [htex, Bool.false_eq_true, if_false, hb, if_true]
        exact (uploadToBufferObject_transfers gl _ hgenB).2.1
      · simp only [htex, Bool.false_eq_true, if_false, hb]
  · intro htex hb
    rw [h1]
    simp only [Allocation.syncAll, htex, hb, Bool.false_eq_true, if_false, if_true,
      List.append_nil]
  · rw [h1]
    simp only [Allocation.syncAll, if_true, List.nil_append, List.filter_append]
    by_cases htex : a.getIsTexture gl = true
    · obtain ⟨hf, _, hp, hty, hev⟩ := uploadToTexture_transfers gl a hgenT htargets htex
      have hb2 : (a.uploadToTexture gl).1.getIsBufferObject gl = a.getIsBufferObject gl := by
        simp only [Allocation.getIsBufferObject, hf, or_and_disjoint _ _ _ hbits]
      simp only [htex, if_true, hb2, true_and]
      rw [hev]
      by_cases hb : a.getIsBufferObject gl = true
      · simp only [hb, if_true]
        obtain ⟨_, _, hbe⟩ := uploadToBufferObject_transfers gl (a.uploadToTexture gl).1 hgenB
        rw [hbe, hp, hty]
        exact ⟨_, rfl⟩
      · simp only [hb, Bool.false_eq_true, if_false, List.filter_nil]
        exact ⟨0, trivial⟩
    · simp only [htex, Bool.false_eq_true, if_false, false_and, List.filter_nil, List.nil_append]
      by_cases hb : a.getIsBufferObject gl = true
      · simp only [hb, if_true]
        obtain ⟨_, _, hbe⟩ := uploadToBufferObject_transfers gl a hgenB
        rw [hbe]
        exact ⟨_, rfl⟩
      · simp only [hb, Bool.false_eq_true, if_false, List.filter_nil]
        exact ⟨0, trivial⟩
theorem uploadCheck_twice_witness :
    exTexAlloc.mUploadDefered = true ∧
    (exTexAlloc.uploadCheck (exGL 7 8)).1.uploadCheck (exGL 7 8) =
      ((exTexAlloc.uploadCheck (exGL 7 8)).1, []) ∧
    (exTexAlloc.uploadCheck (exGL 7 8)).1.mUploadDefered = false ∧
    (exTexAlloc.uploadCheck (exGL 7 8)).1.mPtr = exTexAlloc.mPtr ∧
    ∃ target, (exTexAlloc.uploadCheck (exGL 7 8)).2.filter Event.isTransfer =
      [Event.glTexImage2D 0x0DE1 0 0x1909 4 4 0x1401 0] ++
      (if exTexAlloc.getIsBufferObject (exGL 7 8) = true then
        [Event.glBufferData target exTexAlloc.mType.getSizeBytes
          (slice exTexAlloc.mPtr 0 exTexAlloc.mType.getSizeBytes)]
      else []) :=
  ⟨by decide,
   (uploadCheck_twice (exGL 7 8) (exGL 7 8) exTexAlloc (by decide) (by decide) (by decide)
      (by decide) (by decide)).1,
   (uploadCheck_twice (exGL 7 8) (exGL 7 8) exTexAlloc (by decide) (by decide) (by decide)
      (by decide) (by decide)).2.1,
   (uploadCheck_twice (exGL 7 8) (exGL 7 8) exTexAlloc (by decide) (by decide) (by decide)
      (by decide) (by decide)).2.2.1,
   (uploadCheck_twice (exGL 7 8) (exGL 7 8) exTexAlloc (by decide) (by decide) (by decide)
      (by decide) (by decide)).2.2.2.2.2⟩

/-- C12 (as stated) fails on the code: with `mUploadDefered` set and a driver that hands
out names, the first `uploadCheck` makes no transfer (no call at all) and still clears
the flag, on an Allocation without a GPU usage bit and on a texture whose element's
component has no GL type. -/
theorem uploadCheck_first_call_without_transfer :
    exScriptAlloc.mUploadDefered = true ∧
    (exGL 7 8).glGenTextures ≠ 0 ∧ (exGL 7 8).glGenBuffers ≠ 0 ∧
    exScriptAlloc.uploadCheck (exGL 7 8) = ({ exScriptAlloc with mUploadDefered := false }, []) ∧
    exTexAlloc.mUploadDefered = true ∧
    exNoTypeGL.glGenTextures ≠ 0 ∧ exNoTypeGL.glGenBuffers ≠ 0 ∧
    exTexAlloc.uploadCheck exNoTypeGL = ({ exTexAlloc with mUploadDefered := false }, []) := by
  decide

theorem eval_uploadCheck_vertex :
    exVertexAlloc.uploadCheck (exGL 7 8) =
      ({ exVertexAlloc with mBufferID := 8, mUploadDefered := false },
        [Event.glGenBuffers, Event.glBindBuffer 0x8892 8,
         Event.glBufferData 0x8892 8 [1, 2, 3, 4, 5, 6, 7, 8], Event.glBindBuffer 0x8892 0,
         Event.checkError]) := by
  decide

theorem eval_uploadCheck_texture :
    exTexAlloc.uploadCheck (exGL 7 8) =
      ({ exTexAlloc with mTextureID := 7, mUploadDefered := false },
        [Event.glGenTextures, Event.glBindTexture 0x0DE1 7, Event.glPixelStorei,
         Event.glTexImage2D 0x0DE1 0 0x1909 4 4 0x1401 0, Event.checkError]) := by
  decide

theorem eval_uploadCheck_cube :
    (exCubeTexAlloc.uploadCheck exMipEnv.gl).2 =
      [Event.glBindTexture 0x8513 5, Event.glPixelStorei,
       Event.glTexSubImage2D 0x8515 0 2 2 0x1909 0x1401 16,
       Event.glTexSubImage2D 0x8515 1 1 1 0x1909 0x1401 20,
       Event.glTexSubImage2D 0x8516 0 2 2 0x1909 0x1401 37,
       Event.glTexSubImage2D 0x8516 1 1 1 0x1909 0x1401 41,
       Event.glTexSubImage2D 0x8517 0 2 2 0x1909 0x1401 58,
       Event.glTexSubImage2D 0x8517 1 1 1 0x1909 0x1401 62,
       Event.glTexSubImage2D 0x8518 0 2 2 0x1909 0x1401 79,
       Event.glTexSubImage2D 0x8518 1 1 1 0x1909 0x1401 83,
       Event.glTexSubImage2D 0x8519 0 2 2 0x1909 0x1401 100,
       Event.glTexSubImage2D 0x8519 1 1 1 0x1909 0x1401 104,
       Event.glTexSubImage2D 0x851A 0 2 2 0x1909 0x1401 121,
       Event.glTexSubImage2D 0x851A 1 1 1 0x1909 0x1401 125,
       Event.checkError] := by
  decide

/-! ## How size mismatches are reported, and the `uint32_t` product of the 1D check -/

/-- C18: a size-mismatched `data` only logs, a size-mismatched 1D `subData` only logs and
dumps the Type, a 2D `subData` that fails its size check only raises the assertion: none
of them calls `Context::setError`.  The sibling `subElementData` does, on its own size
mismatch: `setError(RS_ERROR_BAD_VALUE)`. -/
theorem size_mismatch_is_not_sent_to_setError :
    (3 : Nat) ≠ exAlloc1D.mType.getSizeBytes ∧
    exAlloc1D.data [1, 2, 3] 3 = (exAlloc1D, [Event.logE]) ∧
    (3 : Nat) ≠ 2 * exAlloc1D.mType.getElementSizeBytes ∧
    exAlloc1D.subData 0 2 [1, 2, 3] 3 = (exAlloc1D, [Event.logE, Event.dumpLOGV]) ∧
    exAlloc2D.subData2D 0 0 2 2 exData16 15 = (exAlloc2D, [Event.rsAssertFailed]) ∧
    exAlloc1D.subElementData 0 [1, 2] 0 2 =
      (exAlloc1D, [Event.logE, Event.setError RsError.RS_ERROR_BAD_VALUE]) := by
  decide

/-- C19: the size check of the 1D `subData` compares `sizeBytes` with the `uint32_t`
product `count * eSize`.  With a two-byte element and `count = 2 ^ 31 + 1` the product
over the natural numbers is `2 ^ 32 + 2`, the `uint32_t` product is `2`: the call with
`sizeBytes = 2` passes the check, copies two bytes into the buffer, sets
`mUploadDefered` and notifies both dependents. -/
theorem subData_size_check_wraps :
    exAlloc1D.mType.getElementSizeBytes = 2 ∧
    (2 : Nat) ≠ 2147483649 * exAlloc1D.mType.getElementSizeBytes ∧
    exAlloc1D.mUploadDefered = false ∧
    exAlloc1D.subData 0 2147483649 [9, 9] 2 =
      ({ exAlloc1D with mPtr := [9, 9, 3, 4, 5, 6, 7, 8], mUploadDefered := true },
        [Event.memcpy 0 0 2, Event.forceDirty 7, Event.forceDirty 9]) := by
  decide

/-! ## `mip8` -/

theorem mip8Average_val (a b c d : Byte) :
    (mip8Average a b c d).val = (a.val + b.val + c.val + d.val) / 4 := by
  have hs : a.val + b.val + c.val + d.val < 2 ^ 32 := by omega
  have hf : Nat.floor (((a.val + b.val + c.val + d.val : Nat) : ℚ) * 0.25)
      = (a.val + b.val + c.val + d.val) / 4 := by
    have : ((a.val + b.val + c.val + d.val : Nat) : ℚ) * 0.25
        = ((a.val + b.val + c.val + d.val : Nat) : ℚ) / ((4 : Nat) : ℚ) := by
      norm_num
      ring
    rw [this, Nat.floor_div_eq_div]
  simp only [mip8Average, u32_of_lt hs, hf, byteOf]
  omega

theorem eval_mip8 : mip8 exOutLevel exInLevel exMipMem =
    [10, 20, 255, 255, 30, 43, 255, 254, 0, 0, 1, 2, 0, 1, 3, 5, 25, 254, 0, 2] := by
  simp [mip8, mip8Rows, mip8Row, exOutLevel, exInLevel, exMipMem, Adapter2D.getElement,
    Adapter2D.getDimX, Adapter2D.getDimY, u32]
  refine ⟨?_, ?_, ?_, ?_⟩ <;> apply Fin.ext <;> rw [mip8Average_val] <;> rfl

theorem getD_eq_of_getElem? (m1 m2 : List Byte) (j : Nat) (h : m1[j]? = m2[j]?) :
    m1.getD j 0 = m2.getD j 0 := by
  simp [List.getD_eq_getElem?_getD, h]

theorem mip8Row_spec (n : Nat) : ∀ (oPtr i1 i2 : Nat) (mem : List Byte),
    oPtr + n ≤ mem.length →
    (i1 + 2 * n ≤ oPtr ∨ oPtr + n ≤ i1) →
    (i2 + 2 * n ≤ oPtr ∨ oPtr + n ≤ i2) →
    (mip8Row n oPtr i1 i2 mem).length = mem.length ∧
    (∀ k, k < n → (mip8Row n oPtr i1 i2 mem)[oPtr + k]? =
      some (mip8Average (mem.getD (i1 + 2 * k) 0) (mem.getD (i1 + 2 * k + 1) 0)
        (mem.getD (i2 + 2 * k) 0) (mem.getD (i2 + 2 * k + 1) 0))) ∧
    (∀ j, j < oPtr ∨ oPtr + n ≤ j → (mip8Row n oPtr i1 i2 mem)[j]? = mem[j]?) := by
  induction n with
  | zero =>
    intro oPtr i1 i2 mem _ _ _
    refine ⟨rfl, ?_, ?_⟩
    · intro k hk; omega
    · intro j _; rfl
  | succ n ih =>
    intro oPtr i1 i2 mem hlen h1 h2
    obtain ⟨ihl, ihv, ihf⟩ := ih (oPtr + 1) (i1 + 2) (i2 + 2)
      (mem.set oPtr (mip8Average (mem.getD i1 0) (mem.getD (i1 + 1) 0)
        (mem.getD i2 0) (mem.getD (i2 + 1) 0)))
      (by rw [List.length_set]; omega) (by omega) (by omega)
    have hne : ∀ j, j ≠ oPtr →
        (mem.set oPtr (mip8Average (mem.getD i1 0) (mem.getD (i1 + 1) 0)
          (mem.getD i2 0) (mem.getD (i2 + 1) 0))).getD j 0 = mem.getD j 0 := by
      intro j hj
      apply getD_eq_of_getElem?
      rw [List.getElem?_set_ne (fun h => hj h.symm)]
    refine ⟨?_, ?_, ?_⟩
    · rw [mip8Row, ihl, List.length_set]
    · intro k hk
      rw [mip8Row]
      rcases Nat.eq_zero_or_pos k with h0 | h0
      · subst h0
        simp only [Nat.mul_zero, Nat.add_zero]
        rw [ihf oPtr (Or.inl (by omega)), List.getElem?_set_self (by omega)]
      · obtain ⟨k', rfl⟩ : ∃ k', k = k' + 1 := ⟨k - 1, by omega⟩
        have := ihv k' (by omega)
        rw [show oPtr + 1 + k' = oPtr + (k' + 1) by omega] at this
        rw [this, hne _ (by omega), hne _ (by omega), hne _ (by omega), hne _ (by omega)]
        congr 2 <;> congr 1 <;> omega
    · intro j hj
      rw [mip8Row, ihf j (by omega), List.getElem?_set_ne (by omega)]

theorem mip8Rows_spec (out inp : Adapter2D) (w h : Nat) (mem0 : List Byte)
    (hoe : out.mElementSizeBytes = 1) (hie : inp.mElementSizeBytes = 1)
    (hox : out.mDimX = w)
    (hiw : 2 * w ≤ inp.mDimX) (hih : 2 * h ≤ inp.mDimY)
    (hin : inp.mBase + inp.mDimX * inp.mDimY ≤ mem0.length)
    (hout : out.mBase + w * h ≤ mem0.length)
    (hdisj : out.mBase + w * h ≤ inp.mBase ∨ inp.mBase + inp.mDimX * inp.mDimY ≤ out.mBase)
    (h32 : mem0.length < 2 ^ 32) (hw : 0 < w) (n : Nat) :
    ∀ (y0 : Nat) (mem : List Byte), y0 + n ≤ h → mem.length = mem0.length →
      (∀ j, (j < out.mBase ∨ out.mBase + w * h ≤ j) → mem[j]? = mem0[j]?) →
      (mip8Rows out inp w n y0 mem).length = mem0.length ∧
      (∀ x y, y0 ≤ y → y < y0 + n → x < w →
        (mip8Rows out inp w n y0 mem)[out.mBase + (x + y * w)]? =
          some (mip8Average
            (mem0.getD (inp.mBase + (2 * x + (2 * y) * inp.mDimX)) 0)
            (mem0.getD (inp.mBase + (2 * x + 1 + (2 * y) * inp.mDimX)) 0)
            (mem0.getD (inp.mBase + (2 * x + (2 * y + 1) * inp.mDimX)) 0)
            (mem0.getD (inp.mBase + (2 * x + 1 + (2 * y + 1) * inp.mDimX)) 0))) ∧
      (∀ j, (j < out.mBase + y0 * w ∨ out.mBase + (y0 + n) * w ≤ j) →
        (mip8Rows out inp w n y0 mem)[j]? = mem[j]?) := by
  induction n with
  | zero =>
    intro y0 mem _ hl _
    refine ⟨hl, ?_, ?_⟩
    · intro x y h1 h2 _; omega
    · intro j _; rfl
  | succ n ih =>
    intro y0 mem hy hl hagree
    -- arithmetic facts about row `y0`
    have hA : (y0 + 1) * w ≤ h * w := Nat.mul_le_mul_right w (by omega)
    rw [Nat.add_mul, Nat.one_mul, Nat.mul_comm h w] at hA
    have hB : (2 * y0 + 1 + 1) * inp.mDimX ≤ inp.mDimY * inp.mDimX :=
      Nat.mul_le_mul_right _ (by omega)
    rw [Nat.add_mul _ 1, Nat.one_mul, Nat.add_mul _ 1, Nat.one_mul,
      Nat.mul_comm inp.mDimY] at hB
    have hC : inp.mDimY ≤ inp.mDimX * inp.mDimY := Nat.le_mul_of_pos_left _ (by omega)
    have hu1 : u32 (y0 * 2) = 2 * y0 := by
      rw [Nat.mul_comm]; exact u32_of_lt (by omega)
    have hu2 : u32 (2 * y0 + 1) = 2 * y0 + 1 := u32_of_lt (by omega)
    have hoP : out.getElement 0 y0 = out.mBase + y0 * w := by
      simp [Adapter2D.getElement, hoe, hox]
    have hi1 : inp.getElement 0 (2 * y0) = inp.mBase + (2 * y0) * inp.mDimX := by
      simp [Adapter2D.getElement, hie]
    have hi2 : inp.getElement 0 (2 * y0 + 1) = inp.mBase + (2 * y0 + 1) * inp.mDimX := by
      simp [Adapter2D.getElement, hie]
    have hD : (2 * y0 + 1) * inp.mDimX = (2 * y0) * inp.mDimX + inp.mDimX := by
      rw [Nat.add_mul, Nat.one_mul]
    obtain ⟨rl, rv, rf⟩ := mip8Row_spec w (out.mBase + y0 * w)
      (inp.mBase + (2 * y0) * inp.mDimX) (inp.mBase + (2 * y0 + 1) * inp.mDimX) mem
      (by omega) (by omega) (by omega)
    have hstep : mip8Rows out inp w (n + 1) y0 mem =
        mip8Rows out inp w n (y0 + 1)
          (mip8Row w (out.mBase + y0 * w) (inp.mBase + (2 * y0) * inp.mDimX)
            (inp.mBase + (2 * y0 + 1) * inp.mDimX) mem) := by
      rw [mip8Rows, hu1, hu2, hoP, hi1, hi2]
    obtain ⟨il, iv, ifr⟩ := ih (y0 + 1)
      (mip8Row w (out.mBase + y0 * w) (inp.mBase + (2 * y0) * inp.mDimX)
        (inp.mBase + (2 * y0 + 1) * inp.mDimX) mem)
      (by omega) (by rw [rl, hl])
      (by
        intro j hj
        rw [rf j (by omega), hagree j hj])
    have hS : (y0 + 1) * w = y0 * w + w := by rw [Nat.add_mul, Nat.one_mul]
    have hS2 : (y0 + 1 + n) * w = (y0 + (n + 1)) * w := by
      congr 1; omega
    have hmem : ∀ j, inp.mBase ≤ j → j < inp.mBase + inp.mDimX * inp.mDimY →
        mem.getD j 0 = mem0.getD j 0 := by
      intro j h1 h2
      exact getD_eq_of_getElem? _ _ _ (hagree j (by omega))
    rw [hstep]
    refine ⟨il, ?_, ?_⟩
    · intro x y h1 h2 hx
      rcases Nat.eq_or_lt_of_le h1 with heq | hlt
      · subst heq
        rw [ifr _ (Or.inl (by omega)),
          show out.mBase + (x + y0 * w) = out.mBase + y0 * w + x by omega, rv x hx,
          hmem _ (by omega) (by omega), hmem _ (by omega) (by omega),
          hmem _ (by omega) (by omega), hmem _ (by omega) (by omega)]
        congr 2 <;> congr 1 <;> omega
      · exact iv x y (by omega) (by omega) hx
    · intro j hj
      have hS3 : y0 * w + w ≤ (y0 + (n + 1)) * w := by
        rw [← hS]; exact Nat.mul_le_mul_right w (by omega)
      rw [ifr j (by rw [hS, hS2]; omega), rf j (by omega)]

/-- C17: for an input level of 8-bit pixels of dimensions at least `2w x 2h` and an output
level of 8-bit pixels of dimensions `w x h`, both inside the buffer (whose size fits
`uint32_t`) and not overlapping, `mip8` leaves in every output pixel `(x, y)`, `x < w`,
`y < h`, the value `(in(2x,2y) + in(2x+1,2y) + in(2x,2y+1) + in(2x+1,2y+1)) / 4` (natural
number division, the input pixels as they were before the call); this value is at most
`255`, so nothing is lost in the conversion to `uint8_t`. -/
theorem mip8_box_filter (out inp : Adapter2D) (mem : List Byte) (w h : Nat)
    (hox : out.getDimX = w) (hoy : out.getDimY = h)
    (hiw : 2 * w ≤ inp.getDimX) (hih : 2 * h ≤ inp.getDimY)
    (hoe : out.mElementSizeBytes = 1) (hie : inp.mElementSizeBytes = 1)
    (hin : inp.mBase + inp.mDimX * inp.mDimY ≤ mem.length)
    (hout : out.mBase + w * h ≤ mem.length)
    (hdisj : out.mBase + w * h ≤ inp.mBase ∨ inp.mBase + inp.mDimX * inp.mDimY ≤ out.mBase)
    (h32 : mem.length < 2 ^ 32) :
    ∀ x y, x < w → y < h →
      ∃ b : Byte, (mip8 out inp mem)[out.getElement x y]? = some b ∧
        b.val = (pixel8 mem inp (2 * x) (2 * y) + pixel8 mem inp (2 * x + 1) (2 * y) +
          pixel8 mem inp (2 * x) (2 * y + 1) + pixel8 mem inp (2 * x + 1) (2 * y + 1)) / 4 ∧
        (pixel8 mem inp (2 * x) (2 * y) + pixel8 mem inp (2 * x + 1) (2 * y) +
          pixel8 mem inp (2 * x) (2 * y + 1) + pixel8 mem inp (2 * x + 1) (2 * y + 1)) / 4
          ≤ 255 := by
  intro x y hx hy
  have hw : 0 < w := by omega
  obtain ⟨_, hv, _⟩ := mip8Rows_spec out inp w h mem hoe hie hox hiw hih hin hout hdisj h32 hw
    h 0 mem (by omega) rfl (fun _ _ => rfl)
  have := hv x y (Nat.zero_le _) (by omega) hx
  refine ⟨mip8Average (mem.getD (inp.mBase + (2 * x + 2 * y * inp.mDimX)) 0)
    (mem.getD (inp.mBase + (2 * x + 1 + 2 * y * inp.mDimX)) 0)
    (mem.getD (inp.mBase + (2 * x + (2 * y + 1) * inp.mDimX)) 0)
    (mem.getD (inp.mBase + (2 * x + 1 + (2 * y + 1) * inp.mDimX)) 0), ?_, ?_, ?_⟩
  · have hox1 : out.mDimX = w := hox
    rw [mip8, hox, hoy]
    simp only [Adapter2D.getElement, hoe, hox1, Nat.mul_one]
    exact this
  · rw [mip8Average_val]
    simp only [pixel8, Adapter2D.getElement, hie, Nat.mul_one]
  · simp only [pixel8]
    omega

theorem mip8_box_filter_witness :
    ∃ b : Byte, (mip8 exOutLevel exInLevel exMipMem)[exOutLevel.getElement 1 0]? = some b ∧
      b.val = (pixel8 exMipMem exInLevel (2 * 1) (2 * 0) +
        pixel8 exMipMem exInLevel (2 * 1 + 1) (2 * 0) +
        pixel8 exMipMem exInLevel (2 * 1) (2 * 0 + 1) +
        pixel8 exMipMem exInLevel (2 * 1 + 1) (2 * 0 + 1)) / 4 ∧
      (pixel8 exMipMem exInLevel (2 * 1) (2 * 0) +
        pixel8 exMipMem exInLevel (2 * 1 + 1) (2 * 0) +
        pixel8 exMipMem exInLevel (2 * 1) (2 * 0 + 1) +
        pixel8 exMipMem exInLevel (2 * 1 + 1) (2 * 0 + 1)) / 4 ≤ 255 :=
  mip8_box_filter exOutLevel exInLevel exMipMem 2 2 (by decide) (by decide) (by decide)
    (by decide) (by decide) (by decide) (by decide) (by decide) (by decide) (by decide)
    1 0 (by decide) (by decide)

/-! ## The buffer-size invariant -/

theorem subData2DLoop_length (a : Allocation) (data : List Byte) (w lineSize destW eSize : Nat)
    (n : Nat) : ∀ (src dst : Nat) (buf : List Byte),
    (subData2DLoop a data w lineSize destW eSize n src dst buf).1.length = buf.length := by
  induction n with
  | zero => intro _ _ _; rfl
  | succ n ih =>
    intro src dst buf
    rw [subData2DLoop]
    simp only [ih, memcpy_length]

theorem mip8Row_length (n : Nat) : ∀ (oPtr i1 i2 : Nat) (mem : List Byte),
    (mip8Row n oPtr i1 i2 mem).length = mem.length := by
  induction n with
  | zero => intro _ _ _ _; rfl
  | succ n ih => intro oPtr i1 i2 mem; rw [mip8Row, ih, List.length_set]

theorem mip8_length (out inp : Adapter2D) (mem : List Byte) :
    (mip8 out inp mem).length = mem.length := by
  unfold mip8
  generalize out.getDimY = n
  generalize (0 : Nat) = y
  induction n generalizing y mem with
  | zero => rfl
  | succ n ih => rw [mip8Rows, ih, mip8Row_length]

theorem mip565Row_length (f : Nat → Nat → Nat → Nat → Nat) (n : Nat) :
    ∀ (oPtr i1 i2 : Nat) (mem : List Byte),
    (mip565Row f n oPtr i1 i2 mem).length = mem.length := by
  induction n with
  | zero => intro _ _ _ _; rfl
  | succ n ih =>
    intro oPtr i1 i2 mem
    rw [mip565Row, ih]
    simp [store16]

theorem mip565_length (f : Nat → Nat → Nat → Nat → Nat) (out inp : Adapter2D)
    (mem : List Byte) : (mip565 f out inp mem).length = mem.length := by
  unfold mip565
  generalize out.getDimY = n
  generalize (0 : Nat) = y
  induction n generalizing y mem with
  | zero => rfl
  | succ n ih => rw [mip565Rows, ih, mip565Row_length]

theorem mip8888Row_length (f : Nat → Nat → Nat → Nat → Nat) (n : Nat) :
    ∀ (oPtr i1 i2 : Nat) (mem : List Byte),
    (mip8888Row f n oPtr i1 i2 mem).length = mem.length := by
  induction n with
  | zero => intro _ _ _ _; rfl
  | succ n ih =>
    intro oPtr i1 i2 mem
    rw [mip8888Row, ih]
    simp [store32]

theorem mip8888_length (f : Nat → Nat → Nat → Nat → Nat) (out inp : Adapter2D)
    (mem : List Byte) : (mip8888 f out inp mem).length = mem.length := by
  unfold mip8888
  generalize out.getDimY = n
  generalize (0 : Nat) = y
  induction n generalizing y mem with
  | zero => rfl
  | succ n ih => rw [mip8888Rows, ih, mip8888Row_length]

theorem mip_length (env : Env) (out inp : Adapter2D) (mem : List Byte) :
    (mip env out inp mem).length = mem.length := by
  unfold mip
  split
  · exact mip8888_length _ _ _ _
  · split
    · exact mip565_length _ _ _ _
    · split
      · exact mip8_length _ _ _
      · rfl

theorem mipChain_length (env : Env) (t : RsType) (face n : Nat) :
    ∀ (lod : Nat) (mem : List Byte), (mipChain env t face n lod mem).length = mem.length := by
  induction n with
  | zero => intro _ _; rfl
  | succ n ih => intro lod mem; rw [mipChain, ih, mip_length]

theorem uploadToTexture_frame (gl : GLEnv) (a : Allocation) :
    (a.uploadToTexture gl).1.mPtr = a.mPtr ∧ (a.uploadToTexture gl).1.mType = a.mType := by
  unfold Allocation.uploadToTexture
  simp only
  split
  · exact ⟨rfl, rfl⟩
  · split
    · split <;> exact ⟨rfl, rfl⟩
    · exact ⟨rfl, rfl⟩

theorem uploadToBufferObject_frame (gl : GLEnv) (a : Allocation) :
    (a.uploadToBufferObject gl).1.mPtr = a.mPtr ∧
    (a.uploadToBufferObject gl).1.mType = a.mType := by
  unfold Allocation.uploadToBufferObject
  simp only
  split <;> split <;> exact ⟨rfl, rfl⟩

theorem uploadCheck_frame (gl : GLEnv) (a : Allocation) :
    (a.uploadCheck gl).1.mPtr = a.mPtr ∧ (a.uploadCheck gl).1.mType = a.mType := by
  unfold Allocation.uploadCheck
  split
  · unfold Allocation.syncAll
    simp only
    have h1 := uploadToTexture_frame gl a
    split
    · have h2 := uploadToBufferObject_frame gl (a.uploadToTexture gl).1
      split
      · exact ⟨h2.1.trans h1.1, h2.2.trans h1.2⟩
      · exact h1
    · have h2 := uploadToBufferObject_frame gl a
      split
      · exact h2
      · exact ⟨rfl, rfl⟩
  · exact ⟨rfl, rfl⟩

theorem rsi_AllocationCopyFromBitmap_frame (env : Env) (a : Allocation) (data : List Byte)
    (dataLen : Nat) :
    (rsi_AllocationCopyFromBitmap env a data dataLen).1.mPtr.length = a.mPtr.length ∧
    (rsi_AllocationCopyFromBitmap env a data dataLen).1.mType = a.mType := by
  unfold rsi_AllocationCopyFromBitmap
  simp only
  generalize u32 (a.mType.getLODCount + (2 ^ 32 - 1)) = n
  split
  · exact ⟨rfl, rfl⟩
  · constructor
    · show (if a.mType.getDimLOD = true then _ else _ : List Byte).length = _
      split
      · rw [mipChain_length, memcpy_length]
      · rw [memcpy_length]
    · rfl

theorem new_bufferSized (heap : Nat → Byte) (t : RsType) (usages : Nat) :
    (Allocation.new heap t usages).1.BufferSized := by
  unfold Allocation.BufferSized
  rw [new_mPtr_length, new_mType]

theorem step_bufferSized (env : Env) (a : Allocation) (op : Op) (h : a.BufferSized) :
    (a.step env op).1.BufferSized := by
  unfold Allocation.BufferSized at *
  cases op with
  | data data sizeBytes =>
    simp only [Allocation.step, Allocation.data]
    split
    · exact h
    · simpa [memcpy_length] using h
  | subData xoff count data sizeBytes =>
    simp only [Allocation.step, Allocation.subData]
    split
    · exact h
    · simpa [memcpy_length] using h
  | subData2D xoff yoff w h' data sizeBytes =>
    simp only [Allocation.step, Allocation.subData2D]
    split
    · exact h
    · simpa [subData2DLoop_length] using h
  | subElementData x data cIdx sizeBytes =>
    simp only [Allocation.step, Allocation.subElementData, Allocation.subElementDataField]
    split
    · exact h
    · split
      · exact h
      · split
        · exact h
        · simpa [memcpy_length] using h
  | subElementData2D x y data cIdx sizeBytes =>
    simp only [Allocation.step, Allocation.subElementData2D, Allocation.subElementDataField]
    split
    · exact h
    · split
      · exact h
      · split
        · exact h
        · split
          · exact h
          · simpa [memcpy_length] using h
  | resize1D dimX heap =>
    simp only [Allocation.step, Allocation.resize1D]
    split
    · exact h
    · split
      · simp [memset_length, realloc_length]
      · simp [realloc_length]
  | resize2D dimX dimY => exact h
  | copyFromBitmap data dataLen =>
    have hf := rsi_AllocationCopyFromBitmap_frame env a data dataLen
    show (rsi_AllocationCopyFromBitmap env a data dataLen).1.mPtr.length =
      (rsi_AllocationCopyFromBitmap env a data dataLen).1.mType.getSizeBytes
    rw [hf.1, hf.2]
    exact h
  | deferedUploadToTexture genMipmap lodOffset => exact h
  | deferedUploadToBufferObject => exact h
  | uploadCheck genTextures genBuffers =>
    simp only [Allocation.step]
    rw [(uploadCheck_frame _ a).1, (uploadCheck_frame _ a).2]
    exact h

theorem run_bufferSized (env : Env) (ops : List Op) :
    ∀ a : Allocation, a.BufferSized → (a.run env ops).BufferSized := by
  induction ops with
  | nil => intro a h; exact h
  | cons op ops ih => intro a h; exact ih _ (step_bufferSized env a op h)

/-- C14: in every state reached from the constructor `Allocation(rsc, type, usages)` by
any sequence of `data`, `subData` (1D and 2D), `subElementData` (1D and 2D), `resize1D`,
`resize2D`, `deferedUploadToTexture`, `deferedUploadToBufferObject` and `uploadCheck`
calls (and also `rsi_AllocationCopyFromBitmap`), with any arguments, any driver answers
and any `Type::cloneAndResize1D`, the length of the buffer equals `getSizeBytes()` of the
Allocation's current Type. -/
theorem buffer_size_invariant (env : Env) (heap : Nat → Byte) (type : RsType) (usages : Nat)
    (ops : List Op) :
    ((Allocation.new heap type usages).1.run env ops).mPtr.length =
      ((Allocation.new heap type usages).1.run env ops).mType.getSizeBytes :=
  run_bufferSized env ops _ (new_bufferSized heap type usages)

theorem eval_run_resize :
    ((Allocation.new exHeap exType1D 1).1.run exEnv
      [Op.data [1, 2, 3, 4, 5, 6, 7, 8] 8, Op.resize1D 6 exHeap, Op.subData 5 1 [9, 9] 2]).mPtr
      = [1, 2, 3, 4, 5, 6, 7, 8, 0, 0, 9, 9] := by
  decide

/-! ## The pending-upload flag -/

theorem any_isRejection_incRefsLoop (e : Element) (mem : List Byte) (ct p : Nat) :
    (incRefsLoop e mem ct p).any Event.isRejection = false := by
  induction ct generalizing p with
  | zero => rfl
  | succ ct ih => simp [incRefsLoop, Event.isRejection, ih]

theorem any_isRejection_decRefsLoop (e : Element) (mem : List Byte) (ct p : Nat) :
    (decRefsLoop e mem ct p).any Event.isRejection = false := by
  induction ct generalizing p with
  | zero => rfl
  | succ ct ih => simp [decRefsLoop, Event.isRejection, ih]

theorem any_isRejection_sendDirty (a : Allocation) :
    a.sendDirty.any Event.isRejection = false := by
  unfold Allocation.sendDirty
  induction a.mToDirtyList with
  | nil => rfl
  | cons p ps ih => simp [Event.isRejection, ih]

theorem any_isRejection_subData2DLoop (a : Allocation) (data : List Byte)
    (w lineSize destW eSize : Nat) (n : Nat) : ∀ (src dst : Nat) (buf : List Byte),
    (subData2DLoop a data w lineSize destW eSize n src dst buf).2.any Event.isRejection
      = false := by
  induction n with
  | zero => intro _ _ _; rfl
  | succ n ih =>
    intro src dst buf
    rw [subData2DLoop]
    simp only [List.any_append, List.any_cons, ih, Event.isRejection, Bool.or_false,
      Bool.false_or]
    split
    · simp [Allocation.incRefs, Allocation.decRefs, any_isRejection_incRefsLoop,
        any_isRejection_decRefsLoop]
    · rfl

theorem uploadCheck_mUploadDefered (gl : GLEnv) (a : Allocation) :
    (a.uploadCheck gl).1.mUploadDefered = false := by
  unfold Allocation.uploadCheck
  split
  · rfl
  · rename_i h
    simpa using h

theorem any_isRejection_refs (a : Allocation) (c : Prop) [Decidable c] (m1 m2 : List Byte)
    (p1 n1 s1 p2 n2 s2 : Nat) :
    (if c then a.incRefs m1 p1 n1 s1 ++ a.decRefs m2 p2 n2 s2 else []).any Event.isRejection
      = false := by
  split
  · rw [List.any_append, Allocation.incRefs, Allocation.decRefs, any_isRejection_incRefsLoop,
      any_isRejection_decRefsLoop]
    rfl
  · rfl

theorem accepted_write_events (refs : List Event) (d s n : Nat) (a : Allocation)
    (h1 : refs.any Event.isRejection = false) :
    accepted (refs ++ [Event.memcpy d s n] ++ a.sendDirty) = true := by
  simp [accepted, List.any_append, h1, any_isRejection_sendDirty, Event.isRejection]

theorem data_flag (a : Allocation) (data : List Byte) (sizeBytes : Nat) :
    (a.data data sizeBytes).1.mUploadDefered =
      if accepted (a.data data sizeBytes).2 then true else a.mUploadDefered := by
  unfold Allocation.data
  simp only
  split
  · simp [accepted, Event.isRejection]
  · rw [accepted_write_events _ _ _ _ _ (any_isRejection_refs _ _ _ _ _ _ _ _ _ _)]
    rfl

theorem subData_flag (a : Allocation) (xoff count : Nat) (data : List Byte) (sizeBytes : Nat) :
    (a.subData xoff count data sizeBytes).1.mUploadDefered =
      if accepted (a.subData xoff count data sizeBytes).2 then true else a.mUploadDefered := by
  unfold Allocation.subData
  simp only
  split
  · simp [accepted, Event.isRejection]
  · rw [accepted_write_events _ _ _ _ _ (any_isRejection_refs _ _ _ _ _ _ _ _ _ _)]
    rfl

theorem subData2D_flag (a : Allocation) (xoff yoff w h : Nat) (data : List Byte)
    (sizeBytes : Nat) :
    (a.subData2D xoff yoff w h data sizeBytes).1.mUploadDefered =
      if accepted (a.subData2D xoff yoff w h data sizeBytes).2 then true
      else a.mUploadDefered := by
  unfold Allocation.subData2D
  simp only
  split
  · simp [accepted, Event.isRejection]
  · simp only [accepted, List.any_append, any_isRejection_sendDirty,
      any_isRejection_subData2DLoop]
    rfl

theorem subElementDataField_flag (a : Allocation) (ptr : Nat) (data : List Byte)
    (cIdx sizeBytes : Nat) :
    (a.subElementDataField ptr data cIdx sizeBytes).1.mUploadDefered =
      if accepted (a.subElementDataField ptr data cIdx sizeBytes).2 then true
      else a.mUploadDefered := by
  unfold Allocation.subElementDataField
  simp only
  split
  · simp [accepted, Event.isRejection]
  · rw [accepted_write_events _ _ _ _ _ (by split <;> rfl)]
    rfl

theorem subElementData_flag (a : Allocation) (x : Nat) (data : List Byte)
    (cIdx sizeBytes : Nat) :
    (a.subElementData x data cIdx sizeBytes).1.mUploadDefered =
      if accepted (a.subElementData x data cIdx sizeBytes).2 then true
      else a.mUploadDefered := by
  unfold Allocation.subElementData
  simp only
  split
  · simp [accepted, Event.isRejection]
  · split
    · simp [accepted, Event.isRejection]
    · exact subElementDataField_flag _ _ _ _ _

theorem subElementData2D_flag (a : Allocation) (x y : Nat) (data : List Byte)
    (cIdx sizeBytes : Nat) :
    (a.subElementData2D x y data cIdx sizeBytes).1.mUploadDefered =
      if accepted (a.subElementData2D x y data cIdx sizeBytes).2 then true
      else a.mUploadDefered := by
  unfold Allocation.subElementData2D
  simp only
  split
  · simp [accepted, Event.isRejection]
  · split
    · simp [accepted, Event.isRejection]
    · split
      · simp [accepted, Event.isRejection]
      · exact subElementDataField_flag _ _ _ _ _

theorem step_flag (env : Env) (a : Allocation) (op : Op) (h : op.inPendingScope = true) :
    (a.step env op).1.mUploadDefered =
      (if op.isSync then false
       else if op.isSchedule then true
       else if op.isWrite && accepted (a.step env op).2 then true
       else a.mUploadDefered) := by
  cases op with
  | data data sizeBytes =>
    simpa [Allocation.step, Op.isSync, Op.isSchedule, Op.isWrite] using data_flag a data sizeBytes
  | subData xoff count data sizeBytes =>
    simpa [Allocation.step, Op.isSync, Op.isSchedule, Op.isWrite]
      using subData_flag a xoff count data sizeBytes
  | subData2D xoff yoff w h' data sizeBytes =>
    simpa [Allocation.step, Op.isSync, Op.isSchedule, Op.isWrite]
      using subData2D_flag a xoff yoff w h' data sizeBytes
  | subElementData x data cIdx sizeBytes =>
    simpa [Allocation.step, Op.isSync, Op.isSchedule, Op.isWrite]
      using subElementData_flag a x data cIdx sizeBytes
  | subElementData2D x y data cIdx sizeBytes =>
    simpa [Allocation.step, Op.isSync, Op.isSchedule, Op.isWrite]
      using subElementData2D_flag a x y data cIdx sizeBytes
  | resize1D dimX heap => simp [Op.inPendingScope, Op.isWrite, Op.isSchedule] at h
  | resize2D dimX dimY => simp [Op.inPendingScope, Op.isWrite, Op.isSchedule] at h
  | copyFromBitmap data dataLen => simp [Op.inPendingScope, Op.isWrite, Op.isSchedule] at h
  | deferedUploadToTexture genMipmap lodOffset => rfl
  | deferedUploadToBufferObject => rfl
  | uploadCheck genTextures genBuffers =>
    simp only [Allocation.step, Op.isSync, if_true]
    exact uploadCheck_mUploadDefered _ _

theorem run_flag (env : Env) (ops : List Op) :
    ∀ a : Allocation, (∀ op ∈ ops, op.inPendingScope = true) →
      (a.run env ops).mUploadDefered = pendingSince env a a.mUploadDefered ops := by
  induction ops with
  | nil => intro a _; rfl
  | cons op ops ih =>
    intro a h
    rw [Allocation.run, pendingSince, ih _ (fun o ho => h o (List.mem_cons_of_mem _ ho)),
      step_flag env a op (h op (List.mem_cons_self _ _))]

theorem new_mUploadDefered (heap : Nat → Byte) (t : RsType) (usages : Nat) :
    (Allocation.new heap t usages).1.mUploadDefered = false := by
  unfold Allocation.new
  simp only [Allocation.init]
  split <;> rfl

/-- C15 (as the code has it): in every state reached from the constructor by any sequence
of `data`, `subData` (1D, 2D), `subElementData` (1D, 2D), `deferedUploadToTexture`,
`deferedUploadToBufferObject` and `uploadCheck` calls whose driver hands out the names
asked for, `mUploadDefered` is true if and only if, since the last `uploadCheck` (or since
construction when there was none), a write passed its validation or an upload was
scheduled (`pendingSince`). -/
theorem pending_flag_invariant (env : Env) (heap : Nat → Byte) (type : RsType) (usages : Nat)
    (ops : List Op) (hscope : ∀ op ∈ ops, op.inPendingScope = true) :
    ((Allocation.new heap type usages).1.run env ops).mUploadDefered =
      pendingSince env (Allocation.new heap type usages).1 false ops := by
  rw [run_flag env ops _ hscope, new_mUploadDefered]

theorem pending_flag_invariant_witness :
    ((Allocation.new exHeap exType1D 5).1.run exEnv
        [Op.data [1, 2, 3, 4, 5, 6, 7, 8] 8, Op.uploadCheck 7 8, Op.data [1, 2, 3] 3,
          Op.subData 1 1 [9, 9] 2]).mUploadDefered =
      pendingSince exEnv (Allocation.new exHeap exType1D 5).1 false
        [Op.data [1, 2, 3, 4, 5, 6, 7, 8] 8, Op.uploadCheck 7 8, Op.data [1, 2, 3] 3,
          Op.subData 1 1 [9, 9] 2] :=
  pending_flag_invariant exEnv exHeap exType1D 5
    [Op.data [1, 2, 3, 4, 5, 6, 7, 8] 8, Op.uploadCheck 7 8, Op.data [1, 2, 3] 3,
      Op.subData 1 1 [9, 9] 2]
    (by simp [Op.inPendingScope, Op.isWrite, Op.isSchedule])

theorem eval_pendingSince :
    pendingSince exEnv (Allocation.new exHeap exType1D 5).1 false
        [Op.data [1, 2, 3, 4, 5, 6, 7, 8] 8, Op.uploadCheck 7 8, Op.data [1, 2, 3] 3] = false ∧
    pendingSince exEnv (Allocation.new exHeap exType1D 5).1 false
        [Op.data [1, 2, 3, 4, 5, 6, 7, 8] 8, Op.uploadCheck 7 8, Op.data [1, 2, 3] 3,
          Op.subData 1 1 [9, 9] 2] = true := by
  decide

/-- C15 (as stated) fails on the code, in both directions.  (a) Scheduling sets the flag
although no operation has touched the buffer: after the constructor and
`deferedUploadToBufferObject`, `mUploadDefered` is true and the buffer is the one the
constructor made.  (b) `rsi_AllocationCopyFromBitmap` and (c) `resize1D` change the buffer
and leave the flag false.  (d) After a `data` and an `uploadCheck` whose driver hands out no
buffer name (no `glBufferData` is made, `mBufferID` stays `0`), the flag is false although
the written data was never pushed. -/
theorem pending_flag_not_iff_contents_changed :
    (((Allocation.new exHeap exType4x4 1).1.run exEnv
        [Op.deferedUploadToBufferObject]).mUploadDefered = true ∧
      ((Allocation.new exHeap exType4x4 1).1.run exEnv [Op.deferedUploadToBufferObject]).mPtr
        = (Allocation.new exHeap exType4x4 1).1.mPtr) ∧
    (((Allocation.new exHeap exType4x4 1).1.run exEnv
        [Op.copyFromBitmap exData16 16]).mUploadDefered = false ∧
      ((Allocation.new exHeap exType4x4 1).1.run exEnv [Op.copyFromBitmap exData16 16]).mPtr
        = exData16 ∧
      exData16 ≠ (Allocation.new exHeap exType4x4 1).1.mPtr) ∧
    (((Allocation.new exHeap exType1D 1).1.run exEnv
        [Op.resize1D 5 exHeap]).mUploadDefered = false ∧
      ((Allocation.new exHeap exType1D 1).1.run exEnv [Op.resize1D 5 exHeap]).mPtr
        ≠ (Allocation.new exHeap exType1D 1).1.mPtr) ∧
    (((Allocation.new exHeap exType1D 5).1.run exEnv
        [Op.data [1, 2, 3, 4, 5, 6, 7, 8] 8, Op.uploadCheck 0 0]).mUploadDefered = false ∧
      ((Allocation.new exHeap exType1D 5).1.run exEnv
        [Op.data [1, 2, 3, 4, 5, 6, 7, 8] 8, Op.uploadCheck 0 0]).mBufferID = 0 ∧
      (((Allocation.new exHeap exType1D 5).1.run exEnv
        [Op.data [1, 2, 3, 4, 5, 6, 7, 8] 8]).step exEnv (Op.uploadCheck 0 0)).2
        = [Event.glGenBuffers, Event.logE]) := by
  decide

/-! ## The rows of the 2D `subData` -/

theorem subData2DLoop_spec (a : Allocation) (data : List Byte) (w L destW eSize : Nat)
    (hLS : L ≤ u32 (destW * eSize)) (n : Nat) :
    ∀ (src dst : Nat) (buf : List Byte),
      (∀ k, k < n → dst + k * u32 (destW * eSize) + L ≤ buf.length) →
      src + n * L ≤ data.length →
      (subData2DLoop a data w L destW eSize n src dst buf).1.length = buf.length ∧
      (∀ k t, k < n → t < L →
        (subData2DLoop a data w L destW eSize n src dst buf).1[dst + k * u32 (destW * eSize) + t]?
          = data[src + k * L + t]?) ∧
      (∀ p, (∀ k, k < n → p < dst + k * u32 (destW * eSize) ∨
            dst + k * u32 (destW * eSize) + L ≤ p) →
        (subData2DLoop a data w L destW eSize n src dst buf).1[p]? = buf[p]?) := by
  induction n with
  | zero =>
    intro src dst buf _ _
    refine ⟨rfl, ?_, ?_⟩
    · intro k t hk; omega
    · intro p _; rfl
  | succ n ih =>
    intro src dst buf hb hd
    have hnL : (n + 1) * L = n * L + L := by rw [Nat.add_mul, Nat.one_mul]
    have hkS : ∀ k, (k + 1) * u32 (destW * eSize) =
        k * u32 (destW * eSize) + u32 (destW * eSize) := by
      intro k; rw [Nat.add_mul, Nat.one_mul]
    have hkL : ∀ k, (k + 1) * L = k * L + L := by
      intro k; rw [Nat.add_mul, Nat.one_mul]
    have hb0 := hb 0 (by omega)
    rw [Nat.zero_mul, Nat.add_zero] at hb0
    obtain ⟨il, iv, ifr⟩ := ih (src + L) (dst + u32 (destW * eSize)) (memcpy buf dst data src L)
      (by
        intro k hk
        have := hb (k + 1) (by omega)
        rw [hkS] at this
        rw [memcpy_length]; omega)
      (by omega)
    have hstep : (subData2DLoop a data w L destW eSize (n + 1) src dst buf).1 =
        (subData2DLoop a data w L destW eSize n (src + L) (dst + u32 (destW * eSize))
          (memcpy buf dst data src L)).1 := by
      rw [subData2DLoop]
    rw [hstep]
    refine ⟨by rw [il, memcpy_length], ?_, ?_⟩
    · intro k t hk ht
      rcases Nat.eq_zero_or_pos k with h0 | h0
      · subst h0
        rw [Nat.zero_mul, Nat.zero_mul, Nat.add_zero, Nat.add_zero]
        rw [ifr (dst + t) (by intro k _; left; omega),
          memcpy_get_inside _ _ _ _ _ _ (by omega) (by omega) (by omega) (by omega)]
        congr 1
        omega
      · obtain ⟨k', rfl⟩ : ∃ k', k = k' + 1 := ⟨k - 1, by omega⟩
        have := iv k' t (by omega) ht
        rw [hkS, hkL]
        rw [show dst + (k' * u32 (destW * eSize) + u32 (destW * eSize)) + t =
          dst + u32 (destW * eSize) + k' * u32 (destW * eSize) + t by omega,
          show src + (k' * L + L) + t = src + L + k' * L + t by omega]
        exact this
    · intro p hp
      rw [ifr p (by
          intro k hk
          have := hp (k + 1) (by omega)
          rw [hkS] at this
          omega)]
      have := hp 0 (by omega)
      rw [Nat.zero_mul, Nat.add_zero] at this
      exact memcpy_get_outside _ _ _ _ _ _ this

theorem copies_append (xs ys : List Event) : copies (xs ++ ys) = copies xs ++ copies ys := by
  simp [copies, List.filterMap_append]

theorem copies_incRefsLoop (e : Element) (mem : List Byte) (ct p : Nat) :
    copies (incRefsLoop e mem ct p) = [] := by
  induction ct generalizing p with
  | zero => rfl
  | succ ct ih => simpa [incRefsLoop, copies] using ih _

theorem copies_decRefsLoop (e : Element) (mem : List Byte) (ct p : Nat) :
    copies (decRefsLoop e mem ct p) = [] := by
  induction ct generalizing p with
  | zero => rfl
  | succ ct ih => simpa [decRefsLoop, copies] using ih _

theorem copies_sendDirty (a : Allocation) : copies a.sendDirty = [] := by
  unfold Allocation.sendDirty
  induction a.mToDirtyList with
  | nil => rfl
  | cons p ps ih => simp [copies]

theorem copies_refs (a : Allocation) (c : Prop) [Decidable c] (m1 m2 : List Byte)
    (p1 n1 s1 p2 n2 s2 : Nat) :
    copies (if c then a.incRefs m1 p1 n1 s1 ++ a.decRefs m2 p2 n2 s2 else []) = [] := by
  split
  · rw [copies_append, Allocation.incRefs, Allocation.decRefs, copies_incRefsLoop,
      copies_decRefsLoop]
    rfl
  · rfl

theorem copies_subData2DLoop (a : Allocation) (data : List Byte) (w L destW eSize : Nat)
    (n : Nat) : ∀ (src dst : Nat) (buf : List Byte),
    copies (subData2DLoop a data w L destW eSize n src dst buf).2 =
      (List.range n).map fun k => (dst + k * u32 (destW * eSize), src + k * L, L) := by
  induction n with
  | zero => intro _ _ _; rfl
  | succ n ih =>
    intro src dst buf
    rw [subData2DLoop]
    simp only
    rw [copies_append, copies_refs, List.nil_append, List.range_succ_eq_map, List.map_cons,
      List.map_map]
    have hc : ∀ (d s m : Nat) (l : List Event),
        copies (Event.memcpy d s m :: l) = (d, s, m) :: copies l := by
      intro d s m l; rfl
    rw [hc, ih]
    simp only [Nat.zero_mul, Nat.add_zero, List.cons.injEq, true_and]
    apply List.map_congr_left
    intro k _
    simp only [Function.comp, Nat.succ_eq_add_one, Nat.add_mul, Nat.one_mul, Prod.mk.injEq,
      and_true]
    constructor <;> omega

theorem inBounds_incRefsLoop (e : Element) (mem : List Byte) (B D : Nat)
    (hs : u32 e.getSizeBytes = e.getSizeBytes) (ct : Nat) :
    ∀ p, p + ct * e.getSizeBytes ≤ D →
      ∀ ev ∈ incRefsLoop e mem ct p, ev.inBounds B D e.getSizeBytes := by
  induction ct with
  | zero => intro p _ ev hev; simp [incRefsLoop] at hev
  | succ ct ih =>
    intro p hp ev hev
    rw [Nat.add_mul, Nat.one_mul] at hp
    rw [incRefsLoop, hs, List.mem_cons] at hev
    rcases hev with h | h
    · subst h
      show p + e.getSizeBytes ≤ D
      omega
    · exact ih (p + e.getSizeBytes) (by omega) ev h

theorem inBounds_decRefsLoop (e : Element) (mem : List Byte) (B D : Nat)
    (hs : u32 e.getSizeBytes = e.getSizeBytes) (ct : Nat) :
    ∀ p, p + ct * e.getSizeBytes ≤ B →
      ∀ ev ∈ decRefsLoop e mem ct p, ev.inBounds B D e.getSizeBytes := by
  induction ct with
  | zero => intro p _ ev hev; simp [decRefsLoop] at hev
  | succ ct ih =>
    intro p hp ev hev
    rw [Nat.add_mul, Nat.one_mul] at hp
    rw [decRefsLoop, hs, List.mem_cons] at hev
    rcases hev with h | h
    · subst h
      show p + e.getSizeBytes ≤ B
      omega
    · exact ih (p + e.getSizeBytes) (by omega) ev h

theorem inBounds_subData2DLoop (a : Allocation) (data : List Byte) (w L destW eSize : Nat)
    (B D : Nat)
    (hs : 0 < w → u32 a.mType.getElement.getSizeBytes = a.mType.getElement.getSizeBytes)
    (hwL : w * a.mType.getElement.getSizeBytes ≤ L) (n : Nat) :
    ∀ (src dst : Nat) (buf : List Byte),
      (∀ k, k < n → dst + k * u32 (destW * eSize) + L ≤ B) →
      src + n * L ≤ D →
      ∀ ev ∈ (subData2DLoop a data w L destW eSize n src dst buf).2,
        ev.inBounds B D a.mType.getElement.getSizeBytes := by
  induction n with
  | zero => intro _ _ _ _ _ ev hev; simp [subData2DLoop] at hev
  | succ n ih =>
    intro src dst buf hb hd ev hev
    have hb0 := hb 0 (by omega)
    rw [Nat.zero_mul, Nat.add_zero] at hb0
    rw [Nat.add_mul, Nat.one_mul] at hd
    rw [subData2DLoop] at hev
    simp only [List.mem_append, List.mem_cons] at hev
    rcases hev with h | h | h
    · split at h
      · simp only [Allocation.incRefs, Allocation.decRefs, List.mem_append, Nat.mul_zero,
          Nat.add_zero] at h
        rcases Nat.eq_zero_or_pos w with w0 | w0
        · subst w0
          simp [incRefsLoop, decRefsLoop] at h
        · rcases h with h | h
          · exact inBounds_incRefsLoop _ _ B D (hs w0) w src (by omega) ev h
          · exact inBounds_decRefsLoop _ _ B D (hs w0) w dst (by omega) ev h
      · simp at h
    · subst h
      show dst + L ≤ B ∧ src + L ≤ D
      omega
    · refine ih (src + L) (dst + u32 (destW * eSize)) _ ?_ (by omega) ev h
      intro k hk
      have := hb (k + 1) (by omega)
      rw [Nat.add_mul, Nat.one_mul] at this
      omega

theorem rect_row_bound (e xoff yoff w k W H : Nat) (hx : xoff + w ≤ W)
    (hk : yoff + k + 1 ≤ H) :
    e * (xoff + yoff * W) + k * (W * e) + w * e ≤ W * H * e := by
  have h1 : (yoff + k + 1) * W ≤ H * W := Nat.mul_le_mul_right W hk
  have h2 : xoff + w + (yoff + k) * W ≤ H * W := by
    have : (yoff + k + 1) * W = (yoff + k) * W + W := by rw [Nat.add_mul, Nat.one_mul]
    omega
  have h3 := Nat.mul_le_mul_left e h2
  calc e * (xoff + yoff * W) + k * (W * e) + w * e
      = e * (xoff + w + (yoff + k) * W) := by ring
    _ ≤ e * (H * W) := h3
    _ = W * H * e := by ring

theorem subData2D_eq_loop (a : Allocation) (xoff yoff w h : Nat) (data : List Byte)
    (sizeBytes : Nat)
    (hcheck : u32 (u32 (u32 (a.mType.getElementSizeBytes * w) * a.mType.getElementSizeBytes) * h)
      = sizeBytes)
    (hx : xoff + w ≤ a.mType.getDimX) (hy : yoff + h ≤ a.mType.getDimY)
    (hWHe : a.mType.getDimX * a.mType.getDimY * a.mType.getElementSizeBytes < 2 ^ 32)
    (hH : a.mType.getDimY < 2 ^ 32) :
    a.subData2D xoff yoff w h data sizeBytes =
      ({ a with
          mPtr := (subData2DLoop a data w (w * a.mType.getElementSizeBytes) a.mType.getDimX
            a.mType.getElementSizeBytes h 0
            (a.mType.getElementSizeBytes * (xoff + yoff * a.mType.getDimX)) a.mPtr).1,
          mUploadDefered := true },
        (subData2DLoop a data w (w * a.mType.getElementSizeBytes) a.mType.getDimX
            a.mType.getElementSizeBytes h 0
            (a.mType.getElementSizeBytes * (xoff + yoff * a.mType.getDimX)) a.mPtr).2 ++
          a.sendDirty) ∧
    (0 < h → u32 (a.mType.getDimX * a.mType.getElementSizeBytes) =
      a.mType.getDimX * a.mType.getElementSizeBytes) := by
  generalize hW : a.mType.getDimX = W at *
  generalize hHH : a.mType.getDimY = H at *
  generalize he : a.mType.getElementSizeBytes = e at *
  have hcount : u32 (yoff + h) - yoff = h := by
    rw [u32_of_lt (by omega)]; omega
  have hnot : ¬ (u32 (u32 (u32 (e * w) * e) * h) ≠ sizeBytes) := by
    rw [hcheck]; simp
  rcases Nat.eq_zero_or_pos h with h0 | h0
  · subst h0
    refine ⟨?_, fun h => absurd h (by omega)⟩
    simp only [Allocation.subData2D, hW, he, hnot, if_false, hcount, subData2DLoop]
  · have hWe : W * e ≤ W * H * e := by
      calc W * e = W * 1 * e := by ring
        _ ≤ W * H * e := Nat.mul_le_mul_right e (Nat.mul_le_mul_left W (by omega))
    have hS : u32 (W * e) = W * e := u32_of_lt (by omega)
    have hL : u32 (e * w) = w * e := by
      rw [Nat.mul_comm]
      exact u32_of_lt (by
        have : w * e ≤ W * e := Nat.mul_le_mul_right e (by omega)
        omega)
    have hdst : u32 (e * u32 (xoff + u32 (yoff * W))) = e * (xoff + yoff * W) := by
      rcases Nat.eq_zero_or_pos e with e0 | e0
      · subst e0
        simp [u32]
      · have hb := rect_row_bound e xoff yoff w 0 W H hx (by omega)
        have h1 : xoff + yoff * W ≤ e * (xoff + yoff * W) := Nat.le_mul_of_pos_left _ e0
        rw [u32_of_lt (show yoff * W < 2 ^ 32 by omega),
          u32_of_lt (show xoff + yoff * W < 2 ^ 32 by omega)]
        exact u32_of_lt (by omega)
    refine ⟨?_, fun _ => hS⟩
    simp only [Allocation.subData2D, hW, he]
    rw [if_neg hnot]
    simp only [hcount, hL, hdst]
    rfl

/-- C21: on a 2D Allocation with `dimX = W`, `dimY = H` and element size `e` (`W * H * e`
bytes in the buffer, a size that fits `uint32_t`), a 2D `subData(xoff, yoff, w, h, data,
sizeBytes)` that passes the size check of the code, with `xoff + w ≤ W`, `yoff + h ≤ H` and
`data` holding the `w * h` elements: afterwards byte `t` of element `(xoff + i, yoff + j)`,
at offset `e * ((xoff + i) + (yoff + j) * W) + t`, is byte `t` of element `j * w + i` of
`data`, for all `i < w`, `j < h`, `t < e`; every byte of the buffer outside the rows
`[e * (xoff + (yoff + j) * W), e * (xoff + w + (yoff + j) * W))`, `j < h`, of the rectangle
is unchanged; `mUploadDefered` is true. -/
theorem subData2D_writes_rectangle (a : Allocation) (xoff yoff w h : Nat) (data : List Byte)
    (sizeBytes : Nat)
    (hcheck : u32 (u32 (u32 (a.mType.getElementSizeBytes * w) * a.mType.getElementSizeBytes) * h)
      = sizeBytes)
    (hx : xoff + w ≤ a.mType.getDimX) (hy : yoff + h ≤ a.mType.getDimY)
    (hbuf : a.mType.getDimX * a.mType.getDimY * a.mType.getElementSizeBytes ≤ a.mPtr.length)
    (hWHe : a.mType.getDimX * a.mType.getDimY * a.mType.getElementSizeBytes < 2 ^ 32)
    (hH : a.mType.getDimY < 2 ^ 32)
    (hdata : w * h * a.mType.getElementSizeBytes ≤ data.length) :
    (a.subData2D xoff yoff w h data sizeBytes).1.mPtr.length = a.mPtr.length ∧
    (∀ i j t, i < w → j < h → t < a.mType.getElementSizeBytes →
      (a.subData2D xoff yoff w h data sizeBytes).1.mPtr[
          a.mType.getElementSizeBytes * ((xoff + i) + (yoff + j) * a.mType.getDimX) + t]?
        = data[(j * w + i) * a.mType.getElementSizeBytes + t]?) ∧
    (∀ p, (∀ j, j < h →
        p < a.mType.getElementSizeBytes * (xoff + (yoff + j) * a.mType.getDimX) ∨
        a.mType.getElementSizeBytes * (xoff + w + (yoff + j) * a.mType.getDimX) ≤ p) →
      (a.subData2D xoff yoff w h data sizeBytes).1.mPtr[p]? = a.mPtr[p]?) ∧
    (a.subData2D xoff yoff w h data sizeBytes).1.mUploadDefered = true := by
  obtain ⟨heq, hS⟩ := subData2D_eq_loop a xoff yoff w h data sizeBytes hcheck hx hy hWHe hH
  rw [heq]
  simp only
  generalize a.mType.getDimX = W at *
  generalize a.mType.getDimY = H at *
  generalize a.mType.getElementSizeBytes = e at *
  rcases Nat.eq_zero_or_pos h with h0 | h0
  · subst h0
    refine ⟨rfl, ?_, ?_, trivial⟩
    · intro i j t _ hj; omega
    · intro p _; rfl
  · have hS' := hS h0
    have hwe : w * e ≤ W * e := Nat.mul_le_mul_right e (by omega)
    obtain ⟨il, iv, ifr⟩ := subData2DLoop_spec a data w (w * e) W e (by rw [hS']; exact hwe) h
      0 (e * (xoff + yoff * W)) a.mPtr
      (by
        intro k hk
        rw [hS']
        have := rect_row_bound e xoff yoff w k W H hx (by omega)
        omega)
      (by
        have : h * (w * e) = w * h * e := by ring
        omega)
    rw [hS'] at iv ifr
    refine ⟨il, ?_, ?_, trivial⟩
    · intro i j t hi hj ht
      have hie : (i + 1) * e ≤ w * e := Nat.mul_le_mul_right e hi
      rw [Nat.add_mul, Nat.one_mul] at hie
      have := iv j (i * e + t) hj (by omega)
      have e1 : e * (xoff + i + (yoff + j) * W) + t =
          e * (xoff + yoff * W) + j * (W * e) + (i * e + t) := by ring
      have e2 : (j * w + i) * e + t = 0 + j * (w * e) + (i * e + t) := by ring
      rw [e1, e2]
      exact this
    · intro p hp
      apply ifr
      intro k hk
      have e1 : e * (xoff + yoff * W) + k * (W * e) = e * (xoff + (yoff + k) * W) := by ring
      have e2 : e * (xoff + yoff * W) + k * (W * e) + w * e =
          e * (xoff + w + (yoff + k) * W) := by ring
      rw [e2, e1]
      exact hp k hk

theorem subData2D_writes_rectangle_witness :
    (exByteAlloc2D.subData2D 1 1 2 2 [21, 22, 23, 24] 4).1.mPtr.length
      = exByteAlloc2D.mPtr.length ∧
    (∀ i j t, i < 2 → j < 2 → t < exByteAlloc2D.mType.getElementSizeBytes →
      (exByteAlloc2D.subData2D 1 1 2 2 [21, 22, 23, 24] 4).1.mPtr[
          exByteAlloc2D.mType.getElementSizeBytes *
            ((1 + i) + (1 + j) * exByteAlloc2D.mType.getDimX) + t]?
        = [21, 22, 23, 24][(j * 2 + i) * exByteAlloc2D.mType.getElementSizeBytes + t]?) ∧
    (∀ p, (∀ j, j < 2 →
        p < exByteAlloc2D.mType.getElementSizeBytes *
          (1 + (1 + j) * exByteAlloc2D.mType.getDimX) ∨
        exByteAlloc2D.mType.getElementSizeBytes *
          (1 + 2 + (1 + j) * exByteAlloc2D.mType.getDimX) ≤ p) →
      (exByteAlloc2D.subData2D 1 1 2 2 [21, 22, 23, 24] 4).1.mPtr[p]?
        = exByteAlloc2D.mPtr[p]?) ∧
    (exByteAlloc2D.subData2D 1 1 2 2 [21, 22, 23, 24] 4).1.mUploadDefered = true :=
  subData2D_writes_rectangle exByteAlloc2D 1 1 2 2 [21, 22, 23, 24] 4 (by decide) (by decide)
    (by decide) (by decide) (by decide) (by decide) (by decide)

theorem eval_subData2D_rectangle :
    (exByteAlloc2D.subData2D 1 1 2 2 [21, 22, 23, 24] 4).1.mPtr =
      [1, 2, 3, 4, 5, 21, 22, 8, 9, 23, 24, 12, 13, 14, 15, 16] := by
  decide

theorem inBounds_sendDirty (a : Allocation) (B D e : Nat) :
    ∀ ev ∈ a.sendDirty, ev.inBounds B D e := by
  intro ev hev
  simp only [Allocation.sendDirty, List.mem_map] at hev
  obtain ⟨p, _, rfl⟩ := hev
  trivial

/-- C24: on a 2D Allocation with `dimX = W`, `dimY = H` and element size `e`, `W * H * e`
fitting `uint32_t`, a 2D `subData(xoff, yoff, w, h, data, sizeBytes)` with `xoff + w ≤ W`
and `yoff + h ≤ H` that passes the size check of the code makes exactly `h` `memcpy` calls,
one per row `j = 0, .., h - 1`, of `w * e` bytes from offset `j * (w * e)` of `data` to
offset `e * (xoff + (yoff + j) * W)` of the buffer; every call of the trace stays inside
the blocks: each `memcpy` writes below `W * H * e` and reads below `w * h * e`, each
`incRefs` reads an element of `data` below `w * h * e`, each `decRefs` an element of the
buffer below `W * H * e`.  The function is total, so the loop terminates. -/
theorem subData2D_in_bounds (a : Allocation) (xoff yoff w h : Nat) (data : List Byte)
    (sizeBytes : Nat)
    (hcheck : u32 (u32 (u32 (a.mType.getElementSizeBytes * w) * a.mType.getElementSizeBytes) * h)
      = sizeBytes)
    (hx : xoff + w ≤ a.mType.getDimX) (hy : yoff + h ≤ a.mType.getDimY)
    (hWHe : a.mType.getDimX * a.mType.getDimY * a.mType.getElementSizeBytes < 2 ^ 32)
    (hH : a.mType.getDimY < 2 ^ 32) :
    copies (a.subData2D xoff yoff w h data sizeBytes).2 =
      ((List.range h).map fun j =>
        (a.mType.getElementSizeBytes * (xoff + (yoff + j) * a.mType.getDimX),
          j * (w * a.mType.getElementSizeBytes), w * a.mType.getElementSizeBytes)) ∧
    (copies (a.subData2D xoff yoff w h data sizeBytes).2).length = h ∧
    ∀ ev ∈ (a.subData2D xoff yoff w h data sizeBytes).2,
      ev.inBounds (a.mType.getDimX * a.mType.getDimY * a.mType.getElementSizeBytes)
        (w * h * a.mType.getElementSizeBytes) a.mType.getElementSizeBytes := by
  obtain ⟨heq, hS⟩ := subData2D_eq_loop a xoff yoff w h data sizeBytes hcheck hx hy hWHe hH
  have hcop : copies (a.subData2D xoff yoff w h data sizeBytes).2 =
      ((List.range h).map fun j =>
        (a.mType.getElementSizeBytes * (xoff + (yoff + j) * a.mType.getDimX),
          j * (w * a.mType.getElementSizeBytes), w * a.mType.getElementSizeBytes)) := by
    rw [heq]
    simp only
    rw [copies_append, copies_sendDirty, List.append_nil, copies_subData2DLoop]
    apply List.map_congr_left
    intro k hk
    have h0 : 0 < h := by
      have := List.mem_range.mp hk
      omega
    rw [hS h0]
    simp only [Prod.mk.injEq, Nat.zero_add, and_true]
    ring
  refine ⟨hcop, by rw [hcop]; simp, ?_⟩
  intro ev hev
  rw [heq] at hev
  simp only [List.mem_append] at hev
  rcases hev with hev | hev
  · rcases Nat.eq_zero_or_pos h with h0 | h0
    · subst h0
      simp [subData2DLoop] at hev
    · have hS' := hS h0
      have hs : 0 < w → u32 a.mType.getElement.getSizeBytes = a.mType.getElement.getSizeBytes := by
        intro hw
        apply u32_of_lt
        have h1 : 1 ≤ a.mType.getDimX * a.mType.getDimY :=
          Nat.mul_pos (by omega) (by omega)
        have h2 := Nat.mul_le_mul_right a.mType.getElementSizeBytes h1
        rw [Nat.one_mul] at h2
        exact Nat.lt_of_le_of_lt h2 hWHe
      refine inBounds_subData2DLoop a data w (w * a.mType.getElementSizeBytes) a.mType.getDimX
        a.mType.getElementSizeBytes _ _ hs (Nat.le_refl _) h 0 _ a.mPtr ?_ ?_ ev hev
      · intro k hk
        rw [hS']
        exact rect_row_bound _ xoff yoff w k _ _ hx (by omega)
      · have : h * (w * a.mType.getElementSizeBytes) = w * h * a.mType.getElementSizeBytes := by
          ring
        omega
  · exact inBounds_sendDirty a _ _ _ ev hev

theorem subData2D_in_bounds_witness :
    copies (exByteAlloc2D.subData2D 1 1 2 2 [21, 22, 23, 24] 4).2 =
      ((List.range 2).map fun j =>
        (exByteAlloc2D.mType.getElementSizeBytes * (1 + (1 + j) * exByteAlloc2D.mType.getDimX),
          j * (2 * exByteAlloc2D.mType.getElementSizeBytes),
          2 * exByteAlloc2D.mType.getElementSizeBytes)) ∧
    (copies (exByteAlloc2D.subData2D 1 1 2 2 [21, 22, 23, 24] 4).2).length = 2 ∧
    ∀ ev ∈ (exByteAlloc2D.subData2D 1 1 2 2 [21, 22, 23, 24] 4).2,
      ev.inBounds
        (exByteAlloc2D.mType.getDimX * exByteAlloc2D.mType.getDimY *
          exByteAlloc2D.mType.getElementSizeBytes)
        (2 * 2 * exByteAlloc2D.mType.getElementSizeBytes)
        exByteAlloc2D.mType.getElementSizeBytes :=
  subData2D_in_bounds exByteAlloc2D 1 1 2 2 [21, 22, 23, 24] 4 (by decide) (by decide)
    (by decide) (by decide) (by decide)

theorem eval_subData2D_trace :
    (exByteAlloc2D.subData2D 1 1 2 2 [21, 22, 23, 24] 4).2 =
      [Event.memcpy 5 0 2, Event.memcpy 9 2 2, Event.forceDirty 3] := by
  decide

/-! ## The target of the buffer-object upload -/

/-- C23: `getGLTarget` tests the texture bit before the vertex-buffer bit.  On an Allocation
whose usage flags carry both bits, `syncAll` performs the buffer-object upload (the
vertex-buffer bit is set and the driver hands out buffer name `8`), and
`uploadToBufferObject` binds and fills the buffer through the target `GL_TEXTURE_2D`
(`0x0DE1`), not `GL_ARRAY_BUFFER` (`0x8892`); the transfer does carry the `getSizeBytes()`
bytes of the buffer. -/
theorem uploadToBufferObject_target_with_texture_bit :
    exMixedAlloc.getIsBufferObject (exGL 7 8) = true ∧
    (exGL 7 8).GL_ARRAY_BUFFER = 0x8892 ∧
    (exGL 7 8).GL_TEXTURE_2D = 0x0DE1 ∧
    exMixedAlloc.uploadCheck (exGL 7 8) =
      ({ exMixedAlloc with mTextureID := 7, mBufferID := 8, mUploadDefered := false },
        [Event.glGenTextures, Event.glBindTexture 0x0DE1 7, Event.glPixelStorei,
         Event.glTexImage2D 0x0DE1 0 0x1909 4 0 0x1401 0, Event.checkError,
         Event.glGenBuffers, Event.glBindBuffer 0x0DE1 8,
         Event.glBufferData 0x0DE1 8 [1, 2, 3, 4, 5, 6, 7, 8], Event.glBindBuffer 0x0DE1 0,
         Event.checkError]) := by
  decide

/-! ## Mip chains of the bitmap constructors -/

theorem u32_pred (n : Nat) (h1 : 1 ≤ n) (h32 : n < 2 ^ 32) : u32 (n + (2 ^ 32 - 1)) = n - 1 := by
  unfold u32
  omega

theorem mipChain_eq_foldl (env : Env) (t : RsType) (face n : Nat) :
    ∀ (lod : Nat) (mem : List Byte), mipChain env t face n lod mem =
      (List.range n).foldl
        (fun m k => mip env (env.gl.adapter t face (lod + k + 1))
          (env.gl.adapter t face (lod + k)) m) mem := by
  induction n with
  | zero => intro _ _; rfl
  | succ n ih =>
    intro lod mem
    rw [mipChain, ih, List.range_succ_eq_map, List.foldl_cons, List.foldl_map]
    simp only [Nat.add_zero, Nat.succ_eq_add_one]
    congr 1
    funext m k
    rw [show lod + 1 + k + 1 = lod + (k + 1) + 1 by omega,
      show lod + 1 + k = lod + (k + 1) by omega]

theorem mipChain_eq_mipSteps (env : Env) (t : RsType) (face n : Nat) (mem : List Byte)
    (h1 : 1 ≤ n) (h32 : n < 2 ^ 32) :
    mipChain env t face (u32 (n + (2 ^ 32 - 1))) 0 mem = mipSteps env t face n mem := by
  rw [u32_pred n h1 h32, mipChain_eq_foldl, mipSteps]
  simp only [Nat.zero_add]

theorem u32_prod3 (x y e : Nat) (h : x * y * e < 2 ^ 32) : u32 (u32 (x * y) * e) = x * y * e := by
  rcases Nat.eq_zero_or_pos e with e0 | e0
  · subst e0
    simp [u32]
  · have : x * y ≤ x * y * e := Nat.le_mul_of_pos_right _ e0
    rw [u32_of_lt (show x * y < 2 ^ 32 by omega)]
    exact u32_of_lt h

theorem byteOf_val (v : Nat) : (byteOf v).val = v % 256 := rfl

theorem rsaAllocationCreateFromBitmap_mPtr (env : Env) (FULL : Nat) (heap : Nat → Byte)
    (t : RsType) (mips : Nat) (data : List Byte) (usages : Nat) (n : Nat)
    (hn : t.getLODCount = n) (h1 : 1 ≤ n) (h32 : n < 2 ^ 32)
    (hsz : t.getDimX * t.getDimY * t.getElementSizeBytes < 2 ^ 32) :
    (rsaAllocationCreateFromBitmap env FULL heap t mips data usages).1.mPtr =
      if mips = FULL then
        mipSteps env t 0 n
          (memcpy (Allocation.new heap t usages).1.mPtr 0 data 0
            (t.getDimX * t.getDimY * t.getElementSizeBytes))
      else
        memcpy (Allocation.new heap t usages).1.mPtr 0 data 0
          (t.getDimX * t.getDimY * t.getElementSizeBytes) := by
  simp only [rsaAllocationCreateFromBitmap, rsaAllocationCreateTyped,
    Allocation.deferedUploadToTexture, new_mType, hn, u32_prod3 _ _ _ hsz,
    mipChain_eq_mipSteps env t 0 n _ h1 h32]

theorem exMipEnv_adapter (t : RsType) (f L : Nat) :
    exMipEnv.gl.adapter t f L =
      { mBase := f * 21 + (if L = 0 then 0 else if L = 1 then 16 else 20),
        mDimX := t.mDimX / 2 ^ L, mDimY := t.mDimY / 2 ^ L,
        mElementSizeBytes := t.mElement.sizeBytes, mSizeBits := t.mElement.sizeBits } := rfl

theorem mip8Average_eq (a b c d : Byte) :
    mip8Average a b c d = byteOf ((a.val + b.val + c.val + d.val) / 4) := by
  apply Fin.ext
  rw [mip8Average_val, byteOf_val]
  omega

theorem eval_createFromBitmap_full :
    (rsaAllocationCreateFromBitmap exMipEnv 1 exHeap exMipType2D 1 exData16 1).1.mPtr =
      exData16 ++ [3, 5, 11, 13, 8] := by
  rw [rsaAllocationCreateFromBitmap_mPtr exMipEnv 1 exHeap exMipType2D 1 exData16 1 3
    (by decide) (by decide) (by decide) (by decide), if_pos rfl]
  have hm : memcpy (Allocation.new exHeap exMipType2D 1).1.mPtr 0 exData16 0
      (exMipType2D.getDimX * exMipType2D.getDimY * exMipType2D.getElementSizeBytes) =
      exData16 ++ [0xAA, 0xAA, 0xAA, 0xAA, 0xAA] := by decide
  rw [hm]
  have hr : List.range (3 - 1) = [0, 1] := by decide
  simp only [mipSteps, hr, List.foldl_cons, List.foldl_nil]
  simp [mip, mip8, mip8Rows, mip8Row, exMipEnv_adapter, exMipType2D, exData16,
    Adapter2D.getElement, Adapter2D.getDimX, Adapter2D.getDimY, mip8Average_eq, u32]
  decide

theorem eval_createFromBitmap_none :
    rsaAllocationCreateFromBitmap exMipEnv 1 exHeap exMipType2D 0 exData16 1 =
      ({ Allocation.init exMipType2D with
          mPtr := exData16 ++ [0xAA, 0xAA, 0xAA, 0xAA, 0xAA], mUsageFlags := 3,
          mUploadDefered := true },
        [Event.malloc 21, Event.memcpy 0 0 16]) := by
  decide

end RsAllocation
